import Mathlib

/-!
# Point-batch buffer manager of `rviz_renderer_ogre`

A shallow embedding of `src/rviz_renderer_ogre/src/points_renderer.cpp`:
the slab class `PointsRenderable` and the store class `PointsRenderer`.

Modelling conventions.

* `float`/`double` values are rationals; rounding is not modelled.
* `uint32_t` variables are naturals reduced modulo `UINT32_MOD` at every
  assignment that can exceed the range; `size_t` values are plain naturals
  (they are element counts and byte offsets of objects that exist in memory).
* A `PointsRenderablePtr` is an address into `PointsRenderer.heap`.
* A hardware vertex buffer is a map from 4-byte word index to `Word`; every
  byte offset the code computes is a multiple of four.  Addresses past the
  end of the buffer are part of the same map, so that a write outside the
  buffer is visible in the model.
* `ROS_ASSERT` failures are the outcome `Fault.assertion`; loops that need
  not terminate take a fuel argument and yield `Fault.fuel` when it runs out;
  a read through an iterator outside its container is `Fault.undefined`.
* Functions of collaborators that are not part of the file (`fromRobot`,
  `normalFromRobot`, `convertColourValue`, `getRotationTo`, the renderer
  capability query, the seeded random generator) are fields of `Env`.
* `V_PointsRenderable` is a `std::vector` of pointers and `M_PointsInfo` a map
  keyed by id, as their names and uses say; the header that declares them is
  not among the sources.
* `bounding_radius_` is a square root of a squared length and is left out;
  scene-graph calls (`attachObject`, `needUpdate`, materials) have no effect
  on the state modelled here.
-/

namespace rviz_renderer_ogre

/-- The macro `POINTS_PER_VBO`. -/
def POINTS_PER_VBO : Nat := 1024 * 8

/-- Number of values of a `uint32_t`. -/
def UINT32_MOD : Nat := 4294967296

/-- Outcomes other than a normal return. -/
inductive Fault where
  | assertion
  | undefined
  | fuel
deriving DecidableEq, Repr

structure Vector3 where
  x : ℚ
  y : ℚ
  z : ℚ
deriving DecidableEq, Repr

structure Quaternion where
  x : ℚ
  y : ℚ
  z : ℚ
  w : ℚ
deriving DecidableEq, Repr

structure ColorRGBA where
  r : ℚ
  g : ℚ
  b : ℚ
  a : ℚ
deriving DecidableEq, Repr

/-- The message `rviz_msgs::Points`, restricted to the fields the renderer reads. -/
structure Points where
  positions : List Vector3
  orientations : List Quaternion
  colors : List ColorRGBA
  normals : List Vector3
deriving DecidableEq, Repr

/-- The four values of `rviz_msgs::Points::type` that the renderer recognises.  Any other
value fails `ROS_ASSERT_MSG(false, ...)` in `getVerticesPerPoint`, which the constructor of
`PointsRenderable` calls, so no slab with another type exists. -/
inductive PointsType where
  | TYPE_POINTS
  | TYPE_BILLBOARDS
  | TYPE_BILLBOARD_SPHERES
  | TYPE_BOXES
deriving DecidableEq, Repr

structure PointsRendererDesc where
  type : PointsType
  has_normals : Bool
  has_orientations : Bool
  scale : Vector3
deriving DecidableEq, Repr

/-- Collaborators outside the file. -/
structure Env where
  useGeometryShaders : Bool
  fromRobot : Vector3 → Vector3
  normalFromRobot : Vector3 → Vector3
  convertColourValue : ColorRGBA → Nat
  getRotationTo : Vector3 → Quaternion
  id_gen_ : Nat → Nat

/-! ## Reference geometry tables -/

def g_point_vertices : List ℚ := [0, 0, 0]

def g_billboard_vertices : List ℚ :=
  [-1/2, 1/2, 0,
   -1/2, -1/2, 0,
   1/2, 1/2, 0,
   1/2, 1/2, 0,
   -1/2, -1/2, 0,
   1/2, -1/2, 0]

def g_billboard_sphere_vertices : List ℚ := g_billboard_vertices

def g_box_vertices : List ℚ :=
  [ -- front
   -1/2, 1/2, -1/2,
   -1/2, -1/2, -1/2,
   1/2, 1/2, -1/2,
   1/2, 1/2, -1/2,
   -1/2, -1/2, -1/2,
   1/2, -1/2, -1/2,
   -- back
   -1/2, 1/2, 1/2,
   1/2, 1/2, 1/2,
   -1/2, -1/2, 1/2,
   1/2, 1/2, 1/2,
   1/2, -1/2, 1/2,
   -1/2, -1/2, 1/2,
   -- right
   1/2, 1/2, 1/2,
   1/2, 1/2, -1/2,
   1/2, -1/2, 1/2,
   1/2, 1/2, -1/2,
   1/2, -1/2, -1/2,
   1/2, -1/2, 1/2,
   -- left
   -1/2, 1/2, 1/2,
   -1/2, -1/2, 1/2,
   -1/2, 1/2, -1/2,
   -1/2, 1/2, -1/2,
   -1/2, -1/2, 1/2,
   -1/2, -1/2, -1/2,
   -- top
   -1/2, 1/2, -1/2,
   1/2, 1/2, -1/2,
   -1/2, 1/2, 1/2,
   1/2, 1/2, -1/2,
   1/2, 1/2, 1/2,
   -1/2, 1/2, 1/2,
   -- bottom
   -1/2, -1/2, -1/2,
   -1/2, -1/2, 1/2,
   1/2, -1/2, -1/2,
   1/2, -1/2, -1/2,
   -1/2, -1/2, 1/2,
   1/2, -1/2, 1/2]

def g_box_normals : List ℚ :=
  [ -- front
   0, 0, 1,
   0, 0, 1,
   0, 0, 1,
   0, 0, 1,
   0, 0, 1,
   0, 0, 1,
   -- back
   0, 0, -1,
   0, 0, -1,
   0, 0, -1,
   0, 0, -1,
   0, 0, -1,
   0, 0, -1,
   -- right
   1, 0, 0,
   1, 0, 0,
   1, 0, 0,
   1, 0, 0,
   1, 0, 0,
   1, 0, 0,
   -- left
   -1, 0, 0,
   -1, 0, 0,
   -1, 0, 0,
   -1, 0, 0,
   -1, 0, 0,
   -1, 0, 0,
   -- top
   0, 1, 0,
   0, 1, 0,
   0, 1, 0,
   0, 1, 0,
   0, 1, 0,
   0, 1, 0,
   -- bottom
   0, -1, 0,
   0, -1, 0,
   0, -1, 0,
   0, -1, 0,
   0, -1, 0,
   0, -1, 0]

/-! ## Ogre types -/

/-- An `Ogre::AxisAlignedBox`; the infinite extent never arises in this file. -/
inductive AxisAlignedBox where
  | null
  | finite (minimum maximum : Vector3)
deriving DecidableEq, Repr

/-- `Vector3::makeFloor`. -/
def Vector3.makeFloor (a b : Vector3) : Vector3 :=
  ⟨min a.x b.x, min a.y b.y, min a.z b.z⟩

/-- `Vector3::makeCeil`. -/
def Vector3.makeCeil (a b : Vector3) : Vector3 :=
  ⟨max a.x b.x, max a.y b.y, max a.z b.z⟩

/-- `AxisAlignedBox::merge(const Vector3&)`. -/
def AxisAlignedBox.mergePoint : AxisAlignedBox → Vector3 → AxisAlignedBox
  | .null, p => .finite p p
  | .finite mn mx, p => .finite (mn.makeFloor p) (mx.makeCeil p)

/-- `AxisAlignedBox::merge(const AxisAlignedBox&)`. -/
def AxisAlignedBox.merge : AxisAlignedBox → AxisAlignedBox → AxisAlignedBox
  | b, .null => b
  | .null, .finite mn mx => .finite mn mx
  | .finite mn mx, .finite mn2 mx2 => .finite (mn.makeFloor mn2) (mx.makeCeil mx2)

/-- One 4-byte word of a vertex buffer. -/
inductive Word where
  | float (v : ℚ)
  | uint (v : Nat)
  | indeterminate
deriving DecidableEq, Repr

inductive VertexElementType where
  | VET_FLOAT3
  | VET_FLOAT4
  | VET_COLOUR
deriving DecidableEq, Repr

inductive VertexElementSemantic where
  | VES_POSITION
  | VES_NORMAL
  | VES_TEXTURE_COORDINATES
  | VES_DIFFUSE
deriving DecidableEq, Repr

/-- `VertexElement::getTypeSize`, in bytes. -/
def VertexElementType.getTypeSize : VertexElementType → Nat
  | .VET_FLOAT3 => 12
  | .VET_FLOAT4 => 16
  | .VET_COLOUR => 4

structure VertexElement where
  source : Nat
  offset : Nat
  vtype : VertexElementType
  semantic : VertexElementSemantic
  index : Nat
deriving DecidableEq, Repr

/-- `VertexDeclaration::getVertexSize(source)`. -/
def getVertexSize (decl : List VertexElement) (source : Nat) : Nat :=
  ((decl.filter (fun e => e.source == source)).map (fun e => e.vtype.getTypeSize)).sum

/-- Consecutive stores through `*fptr++`, starting at word index `fptr`. -/
def writeWords (buf : Nat → Word) : Nat → List Word → Nat → Word
  | _, [] => buf
  | fptr, w :: ws => writeWords (fun i => if i = fptr then w else buf i) (fptr + 1) ws

/-- Reading `table[i]` of a reference table; a null or too short table gives an
indeterminate word. -/
def readTable (table : List ℚ) (i : Nat) : Word :=
  match table[i]? with
  | some v => .float v
  | none => .indeterminate

/-! ## PointsRenderable (the slab) -/

structure PointsRenderable where
  desc_ : PointsRendererDesc
  point_count_ : Nat
  alpha_ : Bool
  supports_geometry_programs_ : Bool
  needs_offsets_ : Bool
  needs_normals_ : Bool
  vertexStart : Nat
  vertexCount : Nat
  vertexDeclaration : List VertexElement
  /-- Number of vertices of the bound hardware buffer. -/
  numVertices : Nat
  /-- Contents of the bound hardware buffer, by word index. -/
  vbuf : Nat → Word
  mBox : AxisAlignedBox

/-- `PointsRenderable::getVerticesPerPoint`, as a function of the two members it reads. -/
def verticesPerPoint (supports_geometry_programs : Bool) (type : PointsType) : Nat :=
  if supports_geometry_programs then 1
  else match type with
    | .TYPE_POINTS => 1
    | .TYPE_BILLBOARDS => 6
    | .TYPE_BILLBOARD_SPHERES => 6
    | .TYPE_BOXES => 36

def PointsRenderable.getVerticesPerPoint (r : PointsRenderable) : Nat :=
  verticesPerPoint r.supports_geometry_programs_ r.desc_.type

/-- `PointsRenderable::getNormals`; the null pointer is the empty table. -/
def PointsRenderable.getNormals (r : PointsRenderable) : List ℚ :=
  if r.supports_geometry_programs_ then []
  else match r.desc_.type with
    | .TYPE_POINTS => []
    | .TYPE_BILLBOARDS => []
    | .TYPE_BILLBOARD_SPHERES => []
    | .TYPE_BOXES => g_box_normals

/-- `PointsRenderable::getVertices`. -/
def PointsRenderable.getVertices (r : PointsRenderable) : List ℚ :=
  if r.supports_geometry_programs_ then g_point_vertices
  else match r.desc_.type with
    | .TYPE_POINTS => g_point_vertices
    | .TYPE_BILLBOARDS => g_billboard_vertices
    | .TYPE_BILLBOARD_SPHERES => g_billboard_sphere_vertices
    | .TYPE_BOXES => g_box_vertices

/-- `PointsRenderable::getPointStride`: bytes per vertex. -/
def PointsRenderable.getPointStride (r : PointsRenderable) : Nat :=
  getVertexSize r.vertexDeclaration 0 % UINT32_MOD

/-- The vertex declaration built by the constructor. -/
def buildDeclaration (needs_normals needs_offsets : Bool) (desc : PointsRendererDesc) :
    List VertexElement :=
  let d0 : List VertexElement := [⟨0, 0, .VET_FLOAT3, .VES_POSITION, 0⟩]
  let o0 := VertexElementType.getTypeSize .VET_FLOAT3
  let d1 := if needs_normals then d0 ++ [⟨0, o0, .VET_FLOAT3, .VES_NORMAL, 0⟩] else d0
  let o1 := if needs_normals then o0 + VertexElementType.getTypeSize .VET_FLOAT3 else o0
  let t1 := 0
  let d2 := if needs_offsets then d1 ++ [⟨0, o1, .VET_FLOAT3, .VES_TEXTURE_COORDINATES, t1⟩] else d1
  let o2 := if needs_offsets then o1 + VertexElementType.getTypeSize .VET_FLOAT3 else o1
  let t2 := if needs_offsets then t1 + 1 else t1
  let d3 := if desc.has_normals then
      d2 ++ [⟨0, o2, .VET_FLOAT3, .VES_TEXTURE_COORDINATES, t2⟩] else d2
  let o3 := if desc.has_normals then o2 + VertexElementType.getTypeSize .VET_FLOAT3 else o2
  let t3 := if desc.has_normals then t2 + 1 else t2
  let d4 := if desc.has_orientations then
      d3 ++ [⟨0, o3, .VET_FLOAT4, .VES_TEXTURE_COORDINATES, t3⟩] else d3
  let o4 := if desc.has_orientations then o3 + VertexElementType.getTypeSize .VET_FLOAT4 else o3
  d4 ++ [⟨0, o4, .VET_COLOUR, .VES_DIFFUSE, 0⟩]

/-- The constructor `PointsRenderable::PointsRenderable(parent, desc, alpha)`. -/
def PointsRenderable.new (env : Env) (desc : PointsRendererDesc) (alpha : Bool) :
    PointsRenderable :=
  let supports := env.useGeometryShaders
  let needs_offsets := !supports && decide (desc.type ≠ .TYPE_POINTS)
  let needs_normals := !supports && decide (desc.type = .TYPE_BOXES)
  { desc_ := desc
    point_count_ := 0
    alpha_ := alpha
    supports_geometry_programs_ := supports
    needs_offsets_ := needs_offsets
    needs_normals_ := needs_normals
    vertexStart := 0
    vertexCount := 0
    vertexDeclaration := buildDeclaration needs_normals needs_offsets desc
    numVertices := POINTS_PER_VBO * verticesPerPoint supports desc.type
    vbuf := fun _ => .indeterminate
    mBox := .null }

/-- The words stored for vertex `j` of one accepted point (the body of the inner loop).
The branches for a read of `norm_it` or `orient_it` outside its sequence are not taken in
a call of `PointsRenderable::add` that returns: `addReadsInRange` makes such a call
`Fault.undefined` (see `PointsRenderable.add_reads_in_range`). -/
def vertexWords (env : Env) (r : PointsRenderable) (points : Points)
    (orientation_from_normal : Bool) (pos : Vector3) (color : Nat)
    (norm_it orient_it : Nat) (j : Nat) : List Word :=
  [Word.float pos.x, Word.float pos.y, Word.float pos.z]
  ++ (if r.needs_normals_ then
        [readTable r.getNormals (j * 3), readTable r.getNormals (j * 3 + 1),
         readTable r.getNormals (j * 3 + 2)]
      else [])
  ++ (if r.needs_offsets_ then
        [readTable r.getVertices (j * 3), readTable r.getVertices (j * 3 + 1),
         readTable r.getVertices (j * 3 + 2)]
      else [])
  ++ (if r.desc_.has_normals then
        match points.normals[norm_it]? with
        | some n =>
          let norm := env.normalFromRobot n
          [Word.float norm.x, Word.float norm.y, Word.float norm.z]
        | none => [Word.indeterminate, Word.indeterminate, Word.indeterminate]
      else [])
  ++ (if r.desc_.has_orientations then
        if orientation_from_normal then
          match points.normals[norm_it]? with
          | some n =>
            let quat := env.getRotationTo (env.normalFromRobot n)
            [Word.float quat.x, Word.float quat.y, Word.float quat.z, Word.float quat.w]
          | none =>
            [Word.indeterminate, Word.indeterminate, Word.indeterminate, Word.indeterminate]
        else
          match points.orientations[orient_it]? with
          | some q => [Word.float q.x, Word.float q.y, Word.float q.z, Word.float q.w]
          | none =>
            [Word.indeterminate, Word.indeterminate, Word.indeterminate, Word.indeterminate]
      else [])
  ++ [Word.uint color]

/-- The words stored for one accepted point: vertices `0 .. V-1` in order. -/
def pointWords (env : Env) (r : PointsRenderable) (points : Points)
    (orientation_from_normal : Bool) (pos : Vector3) (color : Nat)
    (norm_it orient_it : Nat) (V : Nat) : List Word :=
  ((List.range V).map
    (vertexWords env r points orientation_from_normal pos color norm_it orient_it)).flatten

/-- The variables the point loop of `PointsRenderable::add` updates. -/
structure AddCursor where
  fptr : Nat
  out_count : Nat
  norm_it : Nat
  orient_it : Nat
  mBox : AxisAlignedBox
  vbuf : Nat → Word

/-- The alpha test of `PointsRenderable::add`: `(a < 0.99) != alpha` means "skip". -/
def skipsPoint (alpha : Bool) (col : ColorRGBA) : Bool :=
  (decide (col.a < 99 / 100)) != alpha

/-- The point loop of `PointsRenderable::add` over the positions and colours that
`pos_it` and `col_it` visit in lockstep. -/
def addPoints (env : Env) (r : PointsRenderable) (points : Points)
    (orientation_from_normal : Bool) (V : Nat) :
    List (Vector3 × ColorRGBA) → AddCursor → AddCursor
  | [], c => c
  | (p, col) :: rest, c =>
    if skipsPoint r.alpha_ col then
      addPoints env r points orientation_from_normal V rest c
    else
      let pos := env.fromRobot p
      let color := env.convertColourValue col % UINT32_MOD
      let words := pointWords env r points orientation_from_normal pos color
        c.norm_it c.orient_it V
      addPoints env r points orientation_from_normal V rest
        { fptr := c.fptr + words.length
          out_count := c.out_count + 1
          norm_it :=
            if r.desc_.has_normals || orientation_from_normal then c.norm_it + 1 else c.norm_it
          orient_it :=
            if r.desc_.has_orientations && !orientation_from_normal then c.orient_it + 1
            else c.orient_it
          mBox := c.mBox.mergePoint pos
          vbuf := writeWords c.vbuf c.fptr words }

/-- Whether every read through `norm_it` and `orient_it` in the point loop of
`PointsRenderable::add` stays inside `points.normals` and `points.orientations`.  The loop
is that of `addPoints`: `n` and `o` are the two iterators, which advance for accepted
points only, and an accepted point is read in each of its `V` vertices. -/
def derefsInRange (r : PointsRenderable) (points : Points) (orientation_from_normal : Bool)
    (V : Nat) : List (Vector3 × ColorRGBA) → Nat → Nat → Bool
  | [], _, _ => true
  | (_, col) :: rest, n, o =>
    if skipsPoint r.alpha_ col then
      derefsInRange r points orientation_from_normal V rest n o
    else
      (decide (V = 0) ||
        ((!r.desc_.has_normals || decide (n < points.normals.length)) &&
         (!r.desc_.has_orientations ||
           (if orientation_from_normal then decide (n < points.normals.length)
            else decide (o < points.orientations.length))))) &&
      derefsInRange r points orientation_from_normal V rest
        (if r.desc_.has_normals || orientation_from_normal then n + 1 else n)
        (if r.desc_.has_orientations && !orientation_from_normal then o + 1 else o)

/-- The local `out_start` of `PointsRenderable::add`: the append cursor in points. -/
def PointsRenderable.outStart (r : PointsRenderable) : Nat :=
  (r.vertexStart / r.getVerticesPerPoint + r.vertexCount / r.getVerticesPerPoint) % UINT32_MOD

/-- The local `end` of `PointsRenderable::add`. -/
def PointsRenderable.addEnd (r : PointsRenderable) (points : Points) (start : Nat) : Nat :=
  min POINTS_PER_VBO (r.outStart + (points.positions.length - start))

/-- The arguments `(lock_start, lock_size)` of the `lock` call in `PointsRenderable::add`. -/
def PointsRenderable.addLock (r : PointsRenderable) (points : Points) (start : Nat) :
    Nat × Nat :=
  ((r.outStart * r.getPointStride * r.getVerticesPerPoint) % UINT32_MOD,
   (r.addEnd points start * r.getPointStride * r.getVerticesPerPoint) % UINT32_MOD)

/-- The input points the loop of `PointsRenderable::add` visits. -/
def PointsRenderable.addWindow (r : PointsRenderable) (points : Points) (start : Nat) :
    List (Vector3 × ColorRGBA) :=
  ((points.positions.zip points.colors).drop start).take (r.addEnd points start - r.outStart)

/-- Whether the reads through `norm_it` and `orient_it` of one call of
`PointsRenderable::add` stay inside their sequences. -/
def PointsRenderable.addReadsInRange (r : PointsRenderable) (points : Points) (start : Nat) :
    Bool :=
  derefsInRange r points
    (r.desc_.has_orientations && points.orientations.isEmpty &&
      decide (points.positions.length = points.normals.length))
    r.getVerticesPerPoint (r.addWindow points start) start start

/-- `PointsRenderable::add(points, start, out_start, out_count)`; the result is the slab
afterwards with `out_start` and `out_count`.  A call whose loop reads `norm_it` or
`orient_it` outside its sequence is `Fault.undefined`. -/
def PointsRenderable.add (env : Env) (r : PointsRenderable) (points : Points) (start : Nat) :
    Except Fault (PointsRenderable × Nat × Nat) :=
  if points.positions.length ≠ points.colors.length then .error .assertion
  else if r.desc_.has_orientations = true ∧
      ¬ (points.positions.length = points.orientations.length ∨
         points.positions.length = points.normals.length) then .error .assertion
  else if r.desc_.has_normals = true ∧ points.positions.length ≠ points.normals.length then
    .error .assertion
  else if points.positions.length < start then .error .undefined
  else if r.addReadsInRange points start = false then .error .undefined
  else
    let orientation_from_normal := r.desc_.has_orientations && points.orientations.isEmpty &&
      decide (points.positions.length = points.normals.length)
    let verts_per_point := r.getVerticesPerPoint
    let c := addPoints env r points orientation_from_normal verts_per_point
      (r.addWindow points start)
      { fptr := (r.addLock points start).1 / 4
        out_count := 0
        norm_it := start
        orient_it := start
        mBox := r.mBox
        vbuf := r.vbuf }
    .ok ({ r with
            vertexCount := r.vertexCount + (c.out_count * verts_per_point) % UINT32_MOD
            point_count_ := (r.point_count_ + c.out_count) % UINT32_MOD
            mBox := c.mBox
            vbuf := c.vbuf },
         r.outStart, c.out_count)

/-- The tombstone loop of `PointsRenderable::remove`; `data` is a byte offset. -/
def removeLoop (point_stride : Nat) : Nat → Nat → (Nat → Word) → Nat → Word
  | 0, _, buf => buf
  | n + 1, data, buf =>
    removeLoop point_stride n (data + point_stride)
      (writeWords buf (data / 4)
        [Word.float 99999999, Word.float 99999999, Word.float 99999999])

/-- Byte offset of the first store of `PointsRenderable::remove`: the start of the locked
region, `start * point_stride * verts_per_point`, advanced by
`point_stride * verts_per_point * start`. -/
def PointsRenderable.removeData (r : PointsRenderable) (start : Nat) : Nat :=
  (start * r.getPointStride * r.getVerticesPerPoint) % UINT32_MOD
    + (r.getPointStride * r.getVerticesPerPoint * start) % UINT32_MOD

/-- `PointsRenderable::isEmpty`. -/
def PointsRenderable.isEmpty (r : PointsRenderable) : Bool :=
  r.point_count_ == 0

/-- `PointsRenderable::isFull`. -/
def PointsRenderable.isFull (r : PointsRenderable) : Bool :=
  r.point_count_ == POINTS_PER_VBO

/-- `PointsRenderable::isAlpha`. -/
def PointsRenderable.isAlpha (r : PointsRenderable) : Bool :=
  r.alpha_

/-- `PointsRenderable::remove(start, count)`. -/
def PointsRenderable.remove (r : PointsRenderable) (start count : Nat) :
    Except Fault PointsRenderable :=
  if ¬ (count ≤ r.point_count_) then .error .assertion
  else if ¬ ((start + count) % UINT32_MOD < POINTS_PER_VBO) then .error .assertion
  else
    let verts_per_point := r.getVerticesPerPoint
    let point_stride := r.getPointStride
    let total_vertices := (verts_per_point * count) % UINT32_MOD
    let r1 : PointsRenderable :=
      { r with
        vbuf := removeLoop point_stride total_vertices (r.removeData start) r.vbuf
        point_count_ := r.point_count_ - count }
    .ok (if r1.isEmpty then { r1 with mBox := .null } else r1)

/-! ## PointsRenderer (the store) -/

/-- `PointsInfo::RenderableInfo`; the two `PointsRenderablePtr` are heap addresses. -/
structure RenderableInfo where
  opaque_rend : Nat
  opaque_start : Nat
  opaque_count : Nat
  alpha_rend : Nat
  alpha_start : Nat
  alpha_count : Nat
deriving DecidableEq, Repr

structure PointsInfo where
  rends : List RenderableInfo
deriving DecidableEq, Repr

structure PointsRenderer where
  desc_ : PointsRendererDesc
  /-- The `PointsRenderable` objects, by address. -/
  heap : Nat → PointsRenderable
  /-- Number of objects allocated so far; the address of the next one. -/
  heap_size : Nat
  /-- The vector `renderables_` of pointers. -/
  renderables_ : List Nat
  /-- The map `points_` from id to `PointsInfo`. -/
  points_ : List (Nat × PointsInfo)
  /-- Number of values drawn from the generator `id_gen_` (the sequence `Env.id_gen_`). -/
  id_gen_ : Nat
  bounding_box_ : AxisAlignedBox

/-- Replacing the object at address `p`. -/
def heapSet (heap : Nat → PointsRenderable) (p : Nat) (r : PointsRenderable) :
    Nat → PointsRenderable :=
  fun q => if q = p then r else heap q

/-- `points_.find(id)`. -/
def findPoints (points_ : List (Nat × PointsInfo)) (id : Nat) : Option PointsInfo :=
  (points_.find? (fun e => e.1 == id)).map (fun e => e.2)

/-- `points_.insert(std::make_pair(id, pinfo))`: an existing key is kept. -/
def insertPoints (points_ : List (Nat × PointsInfo)) (id : Nat) (pinfo : PointsInfo) :
    List (Nat × PointsInfo) :=
  match findPoints points_ id with
  | some _ => points_
  | none => points_ ++ [(id, pinfo)]

/-- `points_.erase(it)` for the entry with key `id`. -/
def erasePoints (points_ : List (Nat × PointsInfo)) (id : Nat) : List (Nat × PointsInfo) :=
  points_.filter (fun e => !(e.1 == id))

/-- The constructor `PointsRenderer::PointsRenderer`. -/
def PointsRenderer.new (env : Env) (desc : PointsRendererDesc) : PointsRenderer :=
  { desc_ := desc
    heap := fun _ => PointsRenderable.new env desc false
    heap_size := 0
    renderables_ := []
    points_ := []
    id_gen_ := 0
    bounding_box_ := .null }

/-- `PointsRenderer::getOrCreateRenderable(alpha)`: the store afterwards and the pointer
returned. -/
def PointsRenderer.getOrCreateRenderable (env : Env) (s : PointsRenderer) (alpha : Bool) :
    PointsRenderer × Nat :=
  match s.renderables_.find? (fun p => !(s.heap p).isFull && (alpha == (s.heap p).isAlpha)) with
  | some p => (s, p)
  | none =>
    ({ s with
        heap := heapSet s.heap s.heap_size (PointsRenderable.new env s.desc_ alpha)
        heap_size := s.heap_size + 1
        renderables_ := s.renderables_ ++ [s.heap_size] },
     s.heap_size)

/-- The local variables of `PointsRenderer::add` that live across iterations of its
first loop, with the store. -/
structure AddState where
  store : PointsRenderer
  pinfo : PointsInfo
  total_count : Nat
  total_opaque_count : Nat
  total_alpha_count : Nat

/-- One iteration of the first loop of `PointsRenderer::add`. -/
def addBody (env : Env) (points : Points) (st : AddState) : Except Fault AddState :=
  let g1 := st.store.getOrCreateRenderable env false
  match (g1.1.heap g1.2).add env points st.total_opaque_count with
  | .error e => .error e
  | .ok (r1, opaque_start, opaque_count) =>
    let s2 : PointsRenderer := { g1.1 with heap := heapSet g1.1.heap g1.2 r1 }
    let total_opaque_count := (st.total_opaque_count + opaque_count) % UINT32_MOD
    let g2 := s2.getOrCreateRenderable env true
    match (g2.1.heap g2.2).add env points st.total_alpha_count with
    | .error e => .error e
    | .ok (r2, alpha_start, alpha_count) =>
      let s4 : PointsRenderer := { g2.1 with heap := heapSet g2.1.heap g2.2 r2 }
      let total_alpha_count := (st.total_alpha_count + alpha_count) % UINT32_MOD
      let rinfo : RenderableInfo :=
        { opaque_rend := g1.2
          opaque_start := opaque_start
          opaque_count := opaque_count
          alpha_rend := g2.2
          alpha_start := alpha_start
          alpha_count := alpha_count }
      .ok
        { store :=
            { s4 with
              bounding_box_ :=
                (s4.bounding_box_.merge (s4.heap g1.2).mBox).merge (s4.heap g2.2).mBox }
          pinfo := ⟨st.pinfo.rends ++ [rinfo]⟩
          total_count := (total_alpha_count + total_opaque_count) % UINT32_MOD
          total_opaque_count := total_opaque_count
          total_alpha_count := total_alpha_count }

/-- The loop `while (total_count < point_count)` of `PointsRenderer::add`. -/
def addLoop (env : Env) (points : Points) (point_count : Nat) :
    Nat → AddState → Except Fault AddState
  | 0, st => if st.total_count < point_count then .error .fuel else .ok st
  | fuel + 1, st =>
    if st.total_count < point_count then
      match addBody env points st with
      | .error e => .error e
      | .ok st1 => addLoop env points point_count fuel st1
    else .ok st

/-- The loop `while (id == 0 || points_.find(id) != points_.end()) id = id_gen_();`.
The result is the id and the number of values drawn from the generator. -/
def genId (env : Env) (points_ : List (Nat × PointsInfo)) :
    Nat → Nat → Nat → Except Fault (Nat × Nat)
  | 0, id, drawn =>
    if id = 0 ∨ (findPoints points_ id).isSome then .error .fuel else .ok (id, drawn)
  | fuel + 1, id, drawn =>
    if id = 0 ∨ (findPoints points_ id).isSome then
      genId env points_ fuel (env.id_gen_ drawn % UINT32_MOD) (drawn + 1)
    else .ok (id, drawn)

/-- `PointsRenderer::add(points)`: the store afterwards and the id returned.  Each of the
two loops may run `fuel` iterations. -/
def PointsRenderer.add (env : Env) (fuel : Nat) (s : PointsRenderer) (points : Points) :
    Except Fault (PointsRenderer × Nat) :=
  let point_count := points.positions.length % UINT32_MOD
  match addLoop env points point_count fuel
      { store := s, pinfo := ⟨[]⟩, total_count := 0, total_opaque_count := 0,
        total_alpha_count := 0 } with
  | .error e => .error e
  | .ok st =>
    match genId env st.store.points_ fuel 0 st.store.id_gen_ with
    | .error e => .error e
    | .ok (id, drawn) =>
      .ok ({ st.store with
              points_ := insertPoints st.store.points_ id st.pinfo
              id_gen_ := drawn },
           id)

/-- The loop over `pinfo.rends` in `PointsRenderer::remove`. -/
def removeRends : (Nat → PointsRenderable) → List RenderableInfo →
    Except Fault (Nat → PointsRenderable)
  | heap, [] => .ok heap
  | heap, rinfo :: rest =>
    match (heap rinfo.opaque_rend).remove rinfo.opaque_start rinfo.opaque_count with
    | .error e => .error e
    | .ok r1 =>
      let heap1 := heapSet heap rinfo.opaque_rend r1
      match (heap1 rinfo.alpha_rend).remove rinfo.alpha_start rinfo.alpha_count with
      | .error e => .error e
      | .ok r2 => removeRends (heapSet heap1 rinfo.alpha_rend r2) rest

/-- `PointsRenderer::recalculateBounds`. -/
def PointsRenderer.recalculateBounds (s : PointsRenderer) : PointsRenderer :=
  { s with
    bounding_box_ :=
      s.renderables_.foldl (fun box p => box.merge (s.heap p).mBox) AxisAlignedBox.null }

/-- The loop of `PointsRenderer::shrinkRenderables`.  `renderables_` is a vector, so the
iterators are positions: `last` is the value of `end()` taken before the loop, `it` the
current position, and `erase` leaves `it` where it is. -/
def shrinkLoop (heap : Nat → PointsRenderable) (last : Nat) :
    Nat → List Nat → Nat → Nat → Except Fault (List Nat)
  | 0, renderables, it, _ => if it = last then .ok renderables else .error .fuel
  | fuel + 1, renderables, it, empty_count =>
    if it = last then .ok renderables
    else
      match renderables[it]? with
      | none => .error .undefined
      | some rend =>
        if (heap rend).isEmpty then
          let empty_count1 := (empty_count + 1) % UINT32_MOD
          if empty_count1 > 0 then
            shrinkLoop heap last fuel (renderables.eraseIdx it) it empty_count1
          else shrinkLoop heap last fuel renderables (it + 1) empty_count1
        else shrinkLoop heap last fuel renderables it empty_count

/-- `PointsRenderer::shrinkRenderables`. -/
def PointsRenderer.shrinkRenderables (fuel : Nat) (s : PointsRenderer) :
    Except Fault PointsRenderer :=
  match shrinkLoop s.heap s.renderables_.length fuel s.renderables_ 0 0 with
  | .error e => .error e
  | .ok renderables => .ok ({ s with renderables_ := renderables }).recalculateBounds

/-- `PointsRenderer::remove(id)`. -/
def PointsRenderer.remove (fuel : Nat) (s : PointsRenderer) (id : Nat) :
    Except Fault PointsRenderer :=
  match findPoints s.points_ id with
  | none => .ok s
  | some pinfo =>
    match removeRends s.heap pinfo.rends with
    | .error e => .error e
    | .ok heap1 =>
      PointsRenderer.shrinkRenderables fuel
        { s with heap := heap1, points_ := erasePoints s.points_ id }

/-- `PointsRenderer::clear`. -/
def PointsRenderer.clear (s : PointsRenderer) : PointsRenderer :=
  { s with points_ := [], renderables_ := [], bounding_box_ := .null }

/-- The stores that a sequence of `add`, `remove` and `clear` calls that return builds
from a fresh `PointsRenderer`. -/
inductive Reachable (env : Env) (desc : PointsRendererDesc) : PointsRenderer → Prop where
  | init : Reachable env desc (PointsRenderer.new env desc)
  | add {s s1 : PointsRenderer} {fuel id : Nat} {points : Points} :
      Reachable env desc s → PointsRenderer.add env fuel s points = .ok (s1, id) →
      Reachable env desc s1
  | remove {s s1 : PointsRenderer} {fuel id : Nat} :
      Reachable env desc s → PointsRenderer.remove fuel s id = .ok s1 →
      Reachable env desc s1
  | clear {s : PointsRenderer} : Reachable env desc s → Reachable env desc s.clear

/-! ## Derived quantities of `PointsRenderable::add` -/

/-- The assertions at the head of `PointsRenderable::add`, the range of `start`, and the
range of the reads through `norm_it` and `orient_it`. -/
def PointsRenderable.addPre (r : PointsRenderable) (points : Points) (start : Nat) : Prop :=
  points.positions.length = points.colors.length ∧
  (r.desc_.has_orientations = true →
    (points.positions.length = points.orientations.length ∨
     points.positions.length = points.normals.length)) ∧
  (r.desc_.has_normals = true → points.positions.length = points.normals.length) ∧
  start ≤ points.positions.length ∧
  r.addReadsInRange points start = true

instance (r : PointsRenderable) (points : Points) (start : Nat) :
    Decidable (r.addPre points start) := by
  unfold PointsRenderable.addPre
  infer_instance

/-- Number of points of the window of `PointsRenderable::add` that pass the alpha test. -/
def PointsRenderable.accepted (r : PointsRenderable) (points : Points) (start : Nat) : Nat :=
  (r.addWindow points start).countP (fun pc => !skipsPoint r.alpha_ pc.2)

/-- The loop state at the end of the point loop of `PointsRenderable::add`. -/
def PointsRenderable.addCursor (env : Env) (r : PointsRenderable) (points : Points)
    (start : Nat) : AddCursor :=
  addPoints env r points
    (r.desc_.has_orientations && points.orientations.isEmpty &&
      decide (points.positions.length = points.normals.length))
    r.getVerticesPerPoint (r.addWindow points start)
    { fptr := (r.addLock points start).1 / 4
      out_count := 0
      norm_it := start
      orient_it := start
      mBox := r.mBox
      vbuf := r.vbuf }

/-- The slab that `PointsRenderable::add` leaves when its assertions hold. -/
def PointsRenderable.added (env : Env) (r : PointsRenderable) (points : Points)
    (start : Nat) : PointsRenderable :=
  { r with
    vertexCount :=
      r.vertexCount + (r.accepted points start * r.getVerticesPerPoint) % UINT32_MOD
    point_count_ := (r.point_count_ + r.accepted points start) % UINT32_MOD
    mBox := (r.addCursor env points start).mBox
    vbuf := (r.addCursor env points start).vbuf }

/-! ## Example data -/

/-- The value of a call that returns; `d` otherwise. -/
def okOr {α : Type} (d : α) : Except Fault α → α
  | .ok a => a
  | .error _ => d

def exampleEnv : Env :=
  { useGeometryShaders := false
    fromRobot := fun v => ⟨-v.y, v.z, -v.x⟩
    normalFromRobot := fun v => ⟨-v.y, v.z, -v.x⟩
    convertColourValue := fun _ => 255
    getRotationTo := fun _ => ⟨0, 0, 0, 1⟩
    id_gen_ := fun n => n + 1 }

def exampleDesc : PointsRendererDesc :=
  { type := .TYPE_POINTS, has_normals := false, has_orientations := false, scale := ⟨1, 1, 1⟩ }

def threeOpaque : Points :=
  { positions := [⟨0, 0, 0⟩, ⟨1, 0, 0⟩, ⟨2, 0, 0⟩]
    orientations := []
    colors := [⟨1, 1, 1, 1⟩, ⟨1, 0, 0, 1⟩, ⟨0, 1, 0, 1⟩]
    normals := [] }

/-- Three points with alpha 1.0, 0.3, 1.0. -/
def threeMixed : Points :=
  { positions := [⟨0, 0, 0⟩, ⟨1, 0, 0⟩, ⟨2, 0, 0⟩]
    orientations := []
    colors := [⟨1, 1, 1, 1⟩, ⟨1, 0, 0, 3 / 10⟩, ⟨0, 1, 0, 1⟩]
    normals := [] }

def emptyStore : PointsRenderer := PointsRenderer.new exampleEnv exampleDesc

def storeAfterOneAdd : PointsRenderer :=
  (okOr (emptyStore, 0) (PointsRenderer.add exampleEnv 1 emptyStore threeMixed)).1

def storeAfterTwoAdds : PointsRenderer :=
  (okOr (emptyStore, 0) (PointsRenderer.add exampleEnv 1 storeAfterOneAdd threeMixed)).1

/-- A batch of `n` points, all with the colour `col`. -/
def uniformBatch (n : Nat) (col : ColorRGBA) : Points :=
  { positions := List.replicate n ⟨1, 2, 3⟩
    orientations := []
    colors := List.replicate n col
    normals := [] }

def opaqueWhite : ColorRGBA := ⟨1, 1, 1, 1⟩

def translucentRed : ColorRGBA := ⟨1, 0, 0, 3 / 10⟩

def freshOpaqueSlab : PointsRenderable := PointsRenderable.new exampleEnv exampleDesc false

/-- One opaque point at the given position. -/
def onePoint (p : Vector3) : Points :=
  { positions := [p], orientations := [], colors := [opaqueWhite], normals := [] }

/-- The slab after three appends of one point each: allocations (0,1), (1,1), (2,1). -/
def slabThreeAllocations : PointsRenderable :=
  let r1 := (okOr (freshOpaqueSlab, 0, 0) (freshOpaqueSlab.add exampleEnv (onePoint ⟨0, 0, 10⟩) 0)).1
  let r2 := (okOr (r1, 0, 0) (r1.add exampleEnv (onePoint ⟨0, 0, 20⟩) 0)).1
  (okOr (r2, 0, 0) (r2.add exampleEnv (onePoint ⟨0, 0, 30⟩) 0)).1

/-- The slab `slabThreeAllocations` after `remove(1, 1)`. -/
def slabAfterRemove : PointsRenderable :=
  okOr slabThreeAllocations (slabThreeAllocations.remove 1 1)

/-- The slab that `PointsRenderable::remove` leaves when its assertions hold. -/
def PointsRenderable.removed (r : PointsRenderable) (start count : Nat) : PointsRenderable :=
  { r with
    vbuf := removeLoop r.getPointStride ((r.getVerticesPerPoint * count) % UINT32_MOD)
      (r.removeData start) r.vbuf
    point_count_ := r.point_count_ - count
    mBox := if r.point_count_ - count = 0 then .null else r.mBox }

/-- The assertions of `PointsRenderable::add` on the lengths of the attribute sequences,
for a slab built for `desc`. -/
def ValidFor (desc : PointsRendererDesc) (points : Points) : Prop :=
  points.positions.length = points.colors.length ∧
  (desc.has_orientations = true →
    (points.positions.length = points.orientations.length ∨
     points.positions.length = points.normals.length)) ∧
  (desc.has_normals = true → points.positions.length = points.normals.length)

/-- A batch whose orientations, when the descriptor has them and the sequence is not
empty, are at least as many as its positions: with the assertions of
`PointsRenderable::add` this keeps every read through `norm_it` and `orient_it` inside its
sequence. -/
def ReadsInRange (desc : PointsRendererDesc) (points : Points) : Prop :=
  desc.has_orientations = true → points.orientations.isEmpty = false →
    points.positions.length ≤ points.orientations.length

/-- A slab of a store for `desc` with classification `alpha` that holds `count` points,
appended from offset 0 with none removed. -/
structure SlabOf (env : Env) (desc : PointsRendererDesc) (r : PointsRenderable)
    (alpha : Bool) (count : Nat) : Prop where
  desc_eq : r.desc_ = desc
  geom : r.supports_geometry_programs_ = env.useGeometryShaders
  vstart : r.vertexStart = 0
  alpha_eq : r.alpha_ = alpha
  count_eq : r.point_count_ = count
  vcount : r.vertexCount = count * r.getVerticesPerPoint

/-- Number of points recorded for the opaque slabs under an id. -/
def opaqueTotal (s : PointsRenderer) (id : Nat) : Nat :=
  match findPoints s.points_ id with
  | some pinfo => (pinfo.rends.map (fun rinfo => rinfo.opaque_count)).sum
  | none => 0

/-- Number of points recorded for the alpha slabs under an id. -/
def alphaTotal (s : PointsRenderer) (id : Nat) : Nat :=
  match findPoints s.points_ id with
  | some pinfo => (pinfo.rends.map (fun rinfo => rinfo.alpha_count)).sum
  | none => 0

/-- The point counts of the slabs of classification `cls` in `renderables_`, in order. -/
def slabCounts (s : PointsRenderer) (cls : Bool) : List Nat :=
  (s.renderables_.filter (fun p => (s.heap p).alpha_ == cls)).map
    (fun p => (s.heap p).point_count_)

/-- The state after one iteration of the first loop of `PointsRenderer::add` in which both
calls of `PointsRenderable::add` return, given the results `(s1, p1)` and `(s3, p2)` of the
two calls of `getOrCreateRenderable`. -/
def iterationResult (env : Env) (points : Points) (st : AddState)
    (p1 : Nat) (s3 : PointsRenderer) (p2 : Nat) (r1 r2 : PointsRenderable) : AddState :=
  { store :=
      { s3 with
        heap := heapSet s3.heap p2 (r2.added env points st.total_alpha_count)
        bounding_box_ :=
          (s3.bounding_box_.merge
            (heapSet s3.heap p2 (r2.added env points st.total_alpha_count) p1).mBox).merge
            (heapSet s3.heap p2 (r2.added env points st.total_alpha_count) p2).mBox }
    pinfo :=
      ⟨st.pinfo.rends ++
        [{ opaque_rend := p1
           opaque_start := r1.outStart
           opaque_count := r1.accepted points st.total_opaque_count
           alpha_rend := p2
           alpha_start := r2.outStart
           alpha_count := r2.accepted points st.total_alpha_count }]⟩
    total_count :=
      ((st.total_alpha_count + r2.accepted points st.total_alpha_count) % UINT32_MOD
        + (st.total_opaque_count + r1.accepted points st.total_opaque_count) % UINT32_MOD)
        % UINT32_MOD
    total_opaque_count :=
      (st.total_opaque_count + r1.accepted points st.total_opaque_count) % UINT32_MOD
    total_alpha_count :=
      (st.total_alpha_count + r2.accepted points st.total_alpha_count) % UINT32_MOD }

/-- The state of `PointsRenderer::add`, started on an empty store with a batch whose
points all have classification `cls`, after `m + 1` iterations of its first loop: the
slabs 0 and 1 are the first opaque and the first alpha slab, the slabs `2 .. m + 1`
have classification `cls`. -/
structure UniformInv (env : Env) (desc : PointsRendererDesc) (points : Points) (cls : Bool)
    (m : Nat) (st : AddState) : Prop where
  desc_eq : st.store.desc_ = desc
  heap_size : st.store.heap_size = m + 2
  rends : st.store.renderables_ = 0 :: 1 :: List.range' 2 m
  other : SlabOf env desc (st.store.heap (if cls then 0 else 1)) (!cls) 0
  first : SlabOf env desc (st.store.heap (if cls then 1 else 0)) cls POINTS_PER_VBO
  rest : ∀ j, j < m → SlabOf env desc (st.store.heap (j + 2)) cls
    (min POINTS_PER_VBO (points.positions.length - (j + 1) * POINTS_PER_VBO))
  total : st.total_count = min ((m + 1) * POINTS_PER_VBO) points.positions.length
  total_cls : (if cls then st.total_alpha_count else st.total_opaque_count)
    = min ((m + 1) * POINTS_PER_VBO) points.positions.length
  total_other : (if cls then st.total_opaque_count else st.total_alpha_count) = 0
  table : st.store.points_ = []

/-- An observation `f` of the value of a call that returns. -/
def observe {α β : Type} (f : α → β) : Except Fault α → Option β
  | .ok a => some (f a)
  | .error _ => none

/-- One alpha point followed by 8193 opaque points. -/
def batchAlphaThenOpaque : Points :=
  { positions := List.replicate 8194 ⟨1, 2, 3⟩
    orientations := []
    colors := translucentRed :: List.replicate 8193 opaqueWhite
    normals := [] }

/-- 8192 alpha points followed by one opaque point. -/
def batchAlphaFullThenOpaque : Points :=
  { positions := List.replicate 8193 ⟨1, 2, 3⟩
    orientations := []
    colors := List.replicate 8192 translucentRed ++ [opaqueWhite]
    normals := [] }

/-- The locals of `PointsRenderer::add` on entry, for the empty example store. -/
def entryState : AddState :=
  { store := emptyStore, pinfo := ⟨[]⟩, total_count := 0, total_opaque_count := 0,
    total_alpha_count := 0 }

/-- The state after the first iteration of `add(batchAlphaFullThenOpaque)`. -/
def stateAfterFirst : AddState :=
  okOr entryState (addBody exampleEnv batchAlphaFullThenOpaque entryState)

/-- The state after the second iteration of `add(batchAlphaFullThenOpaque)`. -/
def stateAfterSecond : AddState :=
  okOr entryState (addBody exampleEnv batchAlphaFullThenOpaque stateAfterFirst)

/-- The state in which `add(batchAlphaFullThenOpaque)` makes no progress: the opaque
slab 0 is empty, the alpha slab 1 is full, the alpha slab 2 is empty, and 8192 alpha
points have been placed. -/
structure StuckInv (st : AddState) : Prop where
  desc_eq : st.store.desc_ = exampleDesc
  rends : st.store.renderables_ = [0, 1, 2]
  slab0 : SlabOf exampleEnv exampleDesc (st.store.heap 0) false 0
  slab1 : SlabOf exampleEnv exampleDesc (st.store.heap 1) true POINTS_PER_VBO
  slab2 : SlabOf exampleEnv exampleDesc (st.store.heap 2) true 0
  total_opaque : st.total_opaque_count = 0
  total_alpha : st.total_alpha_count = 8192
  total : st.total_count = 8192

/-- The facts of `StuckInv` as a Boolean test. -/
def slabCheck (r : PointsRenderable) (alpha : Bool) (count : Nat) : Bool :=
  decide (r.desc_ = exampleDesc) &&
  decide (r.supports_geometry_programs_ = exampleEnv.useGeometryShaders) &&
  decide (r.vertexStart = 0) && decide (r.alpha_ = alpha) &&
  decide (r.point_count_ = count) &&
  decide (r.vertexCount = count * r.getVerticesPerPoint)

def stuckCheck (st : AddState) : Bool :=
  decide (st.store.desc_ = exampleDesc) && decide (st.store.renderables_ = [0, 1, 2]) &&
  slabCheck (st.store.heap 0) false 0 && slabCheck (st.store.heap 1) true POINTS_PER_VBO &&
  slabCheck (st.store.heap 2) true 0 && decide (st.total_opaque_count = 0) &&
  decide (st.total_alpha_count = 8192) && decide (st.total_count = 8192)

/-! ## Invariants, traces and further example data -/

/-- The vertices per point by primitive kind, as the specification lists them. -/
def specVerticesPerPoint : PointsType → Nat
  | .TYPE_POINTS => 1
  | .TYPE_BILLBOARDS => 6
  | .TYPE_BILLBOARD_SPHERES => 6
  | .TYPE_BOXES => 36

/-- A renderer whose render system has geometry programs. -/
def geometryEnv : Env := { exampleEnv with useGeometryShaders := true }

def boxDesc : PointsRendererDesc :=
  { type := .TYPE_BOXES, has_normals := false, has_orientations := false, scale := ⟨1, 1, 1⟩ }

/-- The states of one slab: built by the constructor and changed by calls of
`PointsRenderable::add` and `PointsRenderable::remove` that return. -/
inductive SlabReachable (env : Env) (desc : PointsRendererDesc) (alpha : Bool) :
    PointsRenderable → Prop where
  | new : SlabReachable env desc alpha (PointsRenderable.new env desc alpha)
  | add {r r1 : PointsRenderable} {points : Points} {start out_start out_count : Nat} :
      SlabReachable env desc alpha r →
      r.add env points start = .ok (r1, out_start, out_count) →
      SlabReachable env desc alpha r1
  | remove {r r1 : PointsRenderable} {start count : Nat} :
      SlabReachable env desc alpha r → r.remove start count = .ok r1 →
      SlabReachable env desc alpha r1

/-- Every slab object of the store was built for the descriptor `desc` of the store. -/
def DescInv (desc : PointsRendererDesc) (s : PointsRenderer) : Prop :=
  s.desc_ = desc ∧ ∀ p, (s.heap p).desc_ = desc

/-- The store at the moment an iteration of the first loop of `PointsRenderer::add` is
left: at its end, or at the `ROS_ASSERT` of the call of `PointsRenderable::add` that
fails, with everything the statements before it did. -/
def addBodyExitStore (env : Env) (points : Points) (st : AddState) : PointsRenderer :=
  let g1 := st.store.getOrCreateRenderable env false
  match (g1.1.heap g1.2).add env points st.total_opaque_count with
  | .error _ => g1.1
  | .ok (r1, _, _) =>
    let s2 : PointsRenderer := { g1.1 with heap := heapSet g1.1.heap g1.2 r1 }
    let g2 := s2.getOrCreateRenderable env true
    match (g2.1.heap g2.2).add env points st.total_alpha_count with
    | .error _ => g2.1
    | .ok (r2, _, _) =>
      let s4 : PointsRenderer := { g2.1 with heap := heapSet g2.1.heap g2.2 r2 }
      { s4 with
        bounding_box_ :=
          (s4.bounding_box_.merge (s4.heap g1.2).mBox).merge (s4.heap g2.2).mBox }

/-- The store at the moment the first loop of `PointsRenderer::add` is left. -/
def addLoopExitStore (env : Env) (points : Points) (point_count : Nat) :
    Nat → AddState → PointsRenderer
  | 0, st => st.store
  | fuel + 1, st =>
    if st.total_count < point_count then
      match addBody env points st with
      | .error _ => addBodyExitStore env points st
      | .ok st1 => addLoopExitStore env points point_count fuel st1
    else st.store

/-- The store at the moment `PointsRenderer::add` is left, by `return` or by a failing
assertion. -/
def PointsRenderer.addExitStore (env : Env) (fuel : Nat) (s : PointsRenderer)
    (points : Points) : PointsRenderer :=
  let point_count := points.positions.length % UINT32_MOD
  let entry : AddState :=
    { store := s, pinfo := ⟨[]⟩, total_count := 0, total_opaque_count := 0,
      total_alpha_count := 0 }
  match addLoop env points point_count fuel entry with
  | .error _ => addLoopExitStore env points point_count fuel entry
  | .ok st =>
    match genId env st.store.points_ fuel 0 st.store.id_gen_ with
    | .error _ => st.store
    | .ok (id, drawn) =>
      { st.store with
        points_ := insertPoints st.store.points_ id st.pinfo
        id_gen_ := drawn }

/-- A batch with no position and one colour. -/
def colourOnlyBatch : Points :=
  { positions := [], orientations := [], colors := [opaqueWhite], normals := [] }

/-- A batch with one position and no colour. -/
def positionOnlyBatch : Points :=
  { positions := [⟨1, 2, 3⟩], orientations := [], colors := [], normals := [] }

/-- The store after `add(threeOpaque)` on the empty store, which returns the id 1: slab 0
holds the three points, slab 1 is the alpha slab and holds none. -/
def storeOpaqueOnly : PointsRenderer :=
  (okOr (emptyStore, 0) (PointsRenderer.add exampleEnv 1 emptyStore threeOpaque)).1

/-- The store that `PointsRenderer::remove(1)` on `storeOpaqueOnly` passes to
`shrinkRenderables`: the allocation of id 1 is tombstoned and the id erased. -/
def storeTombstoned : PointsRenderer :=
  { storeOpaqueOnly with
    heap := okOr storeOpaqueOnly.heap (removeRends storeOpaqueOnly.heap [⟨0, 0, 3, 1, 0, 0⟩])
    points_ := erasePoints storeOpaqueOnly.points_ 1 }

/-- One opaque point away from the points of `threeMixed`. -/
def farBatch : Points := onePoint ⟨50, 0, 0⟩

/-- The store after `add(threeMixed)` and `add(farBatch)` on the empty store; the second
call returns the id 2 and places its point in slab 0, behind the two opaque points of the
first call. -/
def storeFar : PointsRenderer :=
  (okOr (emptyStore, 0) (PointsRenderer.add exampleEnv 1 storeAfterOneAdd farBatch)).1

/-- The slab objects of `storeFar` after the tombstone loop of `remove(2)`. -/
def heapFarTombstoned : Nat → PointsRenderable :=
  okOr storeFar.heap (removeRends storeFar.heap [⟨0, 2, 1, 1, 1, 0⟩])

/-- Whether the slab at address `p` is named by one of the allocations `rends`. -/
def touches (rends : List RenderableInfo) (p : Nat) : Bool :=
  rends.any (fun rinfo => rinfo.opaque_rend == p || rinfo.alpha_rend == p)

/-- The slab list names allocated objects only, and the aggregate box is the merge of the
boxes of the slabs in the list, taken in the order of `recalculateBounds`. -/
def BoxInv (s : PointsRenderer) : Prop :=
  (∀ p ∈ s.renderables_, p < s.heap_size) ∧
  s.bounding_box_
    = s.renderables_.foldl (fun box p => box.merge (s.heap p).mBox) AxisAlignedBox.null

/-- The vertex records that the point loop of `PointsRenderable::add` stores for the points
it visits: one list of `V` records for each accepted point, in the order of the stores;
`n` and `o` are `norm_it` and `orient_it`. -/
def addRecords (env : Env) (r : PointsRenderable) (points : Points)
    (orientation_from_normal : Bool) (V : Nat) :
    List (Vector3 × ColorRGBA) → Nat → Nat → List (List (List Word))
  | [], _, _ => []
  | (p, col) :: rest, n, o =>
    if skipsPoint r.alpha_ col then
      addRecords env r points orientation_from_normal V rest n o
    else
      (List.range V).map
        (vertexWords env r points orientation_from_normal (env.fromRobot p)
          (env.convertColourValue col % UINT32_MOD) n o)
      :: addRecords env r points orientation_from_normal V rest
          (if r.desc_.has_normals || orientation_from_normal then n + 1 else n)
          (if r.desc_.has_orientations && !orientation_from_normal then o + 1 else o)

/-- The points of the window of `PointsRenderable::add` that pass the alpha test. -/
def PointsRenderable.acceptedPoints (r : PointsRenderable) (points : Points) (start : Nat) :
    List (Vector3 × ColorRGBA) :=
  (r.addWindow points start).filter (fun pc => !skipsPoint r.alpha_ pc.2)

/-- The local `orientation_from_normal` of `PointsRenderable::add`. -/
def PointsRenderable.orientationFromNormal (r : PointsRenderable) (points : Points) : Bool :=
  r.desc_.has_orientations && points.orientations.isEmpty &&
    decide (points.positions.length = points.normals.length)

/-- The vertex records of one call of `PointsRenderable::add`. -/
def PointsRenderable.recordsOf (env : Env) (r : PointsRenderable) (points : Points)
    (start : Nat) : List (List (List Word)) :=
  addRecords env r points (r.orientationFromNormal points) r.getVerticesPerPoint
    (r.addWindow points start) start start

/-- The three words the inner loop reads for vertex `j` from a reference table. -/
def tableEntry (table : List ℚ) (j : Nat) : List Word :=
  [readTable table (j * 3), readTable table (j * 3 + 1), readTable table (j * 3 + 2)]

/-- The offset table `getVertices` selects for a primitive kind without geometry
programs. -/
def offsetTable : PointsType → List ℚ
  | .TYPE_POINTS => g_point_vertices
  | .TYPE_BILLBOARDS => g_billboard_vertices
  | .TYPE_BILLBOARD_SPHERES => g_billboard_sphere_vertices
  | .TYPE_BOXES => g_box_vertices

/-- A fresh opaque slab for boxes, without geometry programs. -/
def boxSlab : PointsRenderable := PointsRenderable.new exampleEnv boxDesc false

/-- A fresh opaque slab for boxes, with geometry programs. -/
def geometryBoxSlab : PointsRenderable := PointsRenderable.new geometryEnv boxDesc false

/-- Entry `i` of a table of 3-vectors, as the three floats at `3 i`, `3 i + 1`, `3 i + 2`;
a missing float reads as 0. -/
def tableVector (table : List ℚ) (i : Nat) : Vector3 :=
  ⟨table.getD (i * 3) 0, table.getD (i * 3 + 1) 0, table.getD (i * 3 + 2) 0⟩

/-- The dot product of two 3-vectors. -/
def Vector3.dot (a b : Vector3) : ℚ :=
  a.x * b.x + a.y * b.y + a.z * b.z

/-- The six signed unit axis vectors. -/
def signedUnitAxes : List Vector3 :=
  [⟨1, 0, 0⟩, ⟨-1, 0, 0⟩, ⟨0, 1, 0⟩, ⟨0, -1, 0⟩, ⟨0, 0, 1⟩, ⟨0, 0, -1⟩]

/-- A descriptor of points with a per-point normal. -/
def normalsDesc : PointsRendererDesc :=
  { type := .TYPE_POINTS, has_normals := true, has_orientations := false, scale := ⟨1, 1, 1⟩ }

/-- A descriptor of points with a per-point orientation. -/
def orientationsDesc : PointsRendererDesc :=
  { type := .TYPE_POINTS, has_normals := false, has_orientations := true, scale := ⟨1, 1, 1⟩ }

/-- Two points with normals and orientations: point 0 is alpha-blended, point 1 opaque. -/
def mixedAttributeBatch : Points :=
  { positions := [⟨1, 0, 0⟩, ⟨2, 0, 0⟩]
    orientations := [⟨0, 0, 0, 1⟩, ⟨1, 0, 0, 0⟩]
    colors := [translucentRed, opaqueWhite]
    normals := [⟨0, 0, 1⟩, ⟨0, 1, 0⟩] }

/-- A fresh opaque slab of a store with per-point normals. -/
def normalsSlab : PointsRenderable := PointsRenderable.new exampleEnv normalsDesc false

/-- A fresh opaque slab of a store with per-point orientations. -/
def orientationsSlab : PointsRenderable := PointsRenderable.new exampleEnv orientationsDesc false

/-- The number of points an allocation records for the slab at address `p`. -/
def RenderableInfo.countAt (rinfo : RenderableInfo) (p : Nat) : Nat :=
  (if rinfo.opaque_rend = p then rinfo.opaque_count else 0)
    + (if rinfo.alpha_rend = p then rinfo.alpha_count else 0)

/-- The number of points the allocations `rends` record for the slab at `p`. -/
def rendsCountAt (rends : List RenderableInfo) (p : Nat) : Nat :=
  (rends.map (fun rinfo => rinfo.countAt p)).sum

/-- The number of points the handle table records for the slab at `p`. -/
def allocatedAt (points_ : List (Nat × PointsInfo)) (p : Nat) : Nat :=
  (points_.map (fun e => rendsCountAt e.2.rends p)).sum

/-- Whether the assertion `count <= point_count_` holds at every call of
`PointsRenderable::remove` that the loop over `pinfo.rends` in `PointsRenderer::remove`
reaches; the loop ends at a call that does not return. -/
def removeRendsCountOk : (Nat → PointsRenderable) → List RenderableInfo → Bool
  | _, [] => true
  | heap, rinfo :: rest =>
    decide (rinfo.opaque_count ≤ (heap rinfo.opaque_rend).point_count_) &&
    match (heap rinfo.opaque_rend).remove rinfo.opaque_start rinfo.opaque_count with
    | .error _ => true
    | .ok r1 =>
      let heap1 := heapSet heap rinfo.opaque_rend r1
      decide (rinfo.alpha_count ≤ (heap1 rinfo.alpha_rend).point_count_) &&
      match (heap1 rinfo.alpha_rend).remove rinfo.alpha_start rinfo.alpha_count with
      | .error _ => true
      | .ok r2 => removeRendsCountOk (heapSet heap1 rinfo.alpha_rend r2) rest

/-- The bookkeeping of point counts: the keys of the handle table are distinct, the slab
list and the allocations name allocated objects, every slab has
`point_count_ ≤ cursor ≤ POINTS_PER_VBO`, and the `point_count_` of every slab in the list
or named by an allocation is the number of points the table records for it, plus the
points of the allocations `pending` that `PointsRenderer::add` has made and not yet
inserted, plus `extra` points just appended. -/
structure CountInv (s : PointsRenderer) (pending : List RenderableInfo) (extra : Nat → Nat) :
    Prop where
  keys : (s.points_.map Prod.fst).Nodup
  list_lt : ∀ p ∈ s.renderables_, p < s.heap_size
  refs_lt : ∀ e ∈ s.points_, ∀ p, touches e.2.rends p = true → p < s.heap_size
  counters : ∀ p, (s.heap p).point_count_ ≤ (s.heap p).outStart ∧
    (s.heap p).outStart ≤ POINTS_PER_VBO
  pending_in : ∀ p, touches pending p = true → p ∈ s.renderables_
  extra_in : ∀ p, extra p ≠ 0 → p ∈ s.renderables_
  counts : ∀ p, (p ∈ s.renderables_ ∨ ∃ e ∈ s.points_, touches e.2.rends p = true) →
    (s.heap p).point_count_ = allocatedAt s.points_ p + rendsCountAt pending p + extra p

/-- A batch without points. -/
def emptyBatch : Points :=
  { positions := [], orientations := [], colors := [], normals := [] }

/-- The store after `add(emptyBatch)` on the empty store: the id 1 is bound to no
allocation and the slab list is empty. -/
def storeEmptyHandle : PointsRenderer :=
  (okOr (emptyStore, 0) (PointsRenderer.add exampleEnv 1 emptyStore emptyBatch)).1

/-- The store after `remove(1)` on `storeEmptyHandle`, a `remove` of a present id that
returns. -/
def storeHandleRemoved : PointsRenderer :=
  okOr emptyStore (PointsRenderer.remove 0 storeEmptyHandle 1)

/-- The store after `add(emptyBatch)`, `remove(1)` and `add(threeMixed)`. -/
def storeAfterCycle : PointsRenderer :=
  (okOr (emptyStore, 0) (PointsRenderer.add exampleEnv 1 storeHandleRemoved threeMixed)).1

/-- The store after `add(emptyBatch)`, `remove(1)`, `add(threeMixed)` and `add(farBatch)`:
the ids 2 and 3 are bound, slab 0 holds three opaque points and slab 1 one alpha point. -/
def storeCycleFar : PointsRenderer :=
  (okOr (emptyStore, 0) (PointsRenderer.add exampleEnv 1 storeAfterCycle farBatch)).1

/-- Two opaque points with two normals and one orientation. -/
def shortOrientationsBatch : Points :=
  { positions := [⟨1, 0, 0⟩, ⟨2, 0, 0⟩]
    orientations := [⟨0, 0, 0, 1⟩]
    colors := [opaqueWhite, opaqueWhite]
    normals := [⟨0, 0, 1⟩, ⟨0, 1, 0⟩] }

/-- The points accepted by the calls of `PointsRenderable::add` in one iteration of the
first loop of `PointsRenderer::add`, one list for each call that returns: first the call on
the opaque slab, then the call on the alpha slab. -/
def addBodyAccepted (env : Env) (points : Points) (st : AddState) :
    List (List (Vector3 × ColorRGBA)) :=
  let g1 := st.store.getOrCreateRenderable env false
  match (g1.1.heap g1.2).add env points st.total_opaque_count with
  | .error _ => []
  | .ok (r1, _, _) =>
    let s2 : PointsRenderer := { g1.1 with heap := heapSet g1.1.heap g1.2 r1 }
    let g2 := s2.getOrCreateRenderable env true
    match (g2.1.heap g2.2).add env points st.total_alpha_count with
    | .error _ => [(g1.1.heap g1.2).acceptedPoints points st.total_opaque_count]
    | .ok _ =>
      [(g1.1.heap g1.2).acceptedPoints points st.total_opaque_count,
       (g2.1.heap g2.2).acceptedPoints points st.total_alpha_count]

/-- The points accepted by the calls of `PointsRenderable::add` in the first loop of
`PointsRenderer::add`, in the order of the calls. -/
def addLoopAccepted (env : Env) (points : Points) (point_count : Nat) :
    Nat → AddState → List (List (Vector3 × ColorRGBA))
  | 0, _ => []
  | fuel + 1, st =>
    if st.total_count < point_count then
      match addBody env points st with
      | .error _ => addBodyAccepted env points st
      | .ok st1 => addBodyAccepted env points st ++ addLoopAccepted env points point_count fuel st1
    else []

/-- The points accepted by the slabs in one call of `PointsRenderer::add`, one list for
each call of `PointsRenderable::add` that returns. -/
def PointsRenderer.addAccepted (env : Env) (fuel : Nat) (s : PointsRenderer)
    (points : Points) : List (List (Vector3 × ColorRGBA)) :=
  addLoopAccepted env points (points.positions.length % UINT32_MOD) fuel
    { store := s, pinfo := ⟨[]⟩, total_count := 0, total_opaque_count := 0,
      total_alpha_count := 0 }

def opaqueBlue : ColorRGBA := ⟨0, 0, 1, 1⟩

def opaqueGreen : ColorRGBA := ⟨0, 1, 0, 1⟩

/-- One alpha point followed by 8192 opaque points.  The points of index 8191 and 8192
differ from all others in position and colour: index 8191 is blue at `(8191, 0, 0)`, index
8192 is green at `(8192, 0, 0)`. -/
def batchMarked : Points :=
  { positions := List.replicate 8191 ⟨1, 2, 3⟩ ++ [⟨8191, 0, 0⟩, ⟨8192, 0, 0⟩]
    orientations := []
    colors := translucentRed :: (List.replicate 8190 opaqueWhite ++ [opaqueBlue, opaqueGreen])
    normals := [] }

/-! ## Facts about the slab -/

theorem verticesPerPoint_pos (g : Bool) (t : PointsType) : 0 < verticesPerPoint g t := by
  unfold verticesPerPoint
  cases g <;> cases t <;> simp

theorem verticesPerPoint_le (g : Bool) (t : PointsType) : verticesPerPoint g t ≤ 36 := by
  unfold verticesPerPoint
  cases g <;> cases t <;> simp

theorem PointsRenderable.getVerticesPerPoint_pos (r : PointsRenderable) :
    0 < r.getVerticesPerPoint :=
  verticesPerPoint_pos _ _

theorem PointsRenderable.getVerticesPerPoint_le (r : PointsRenderable) :
    r.getVerticesPerPoint ≤ 36 :=
  verticesPerPoint_le _ _

/-- The number of points the loop of `PointsRenderable::add` accepts is the number of
points of its window that pass the alpha test. -/
theorem addPoints_out_count (env : Env) (r : PointsRenderable) (points : Points) (ofn : Bool)
    (V : Nat) (w : List (Vector3 × ColorRGBA)) (c : AddCursor) :
    (addPoints env r points ofn V w c).out_count
      = c.out_count + w.countP (fun pc => !skipsPoint r.alpha_ pc.2) := by
  induction w generalizing c with
  | nil => simp [addPoints]
  | cons hd tl ih =>
    obtain ⟨p, col⟩ := hd
    unfold addPoints
    by_cases hs : skipsPoint r.alpha_ col = true
    · simp [hs, ih]
    · simp only [hs]
      simp only [Bool.not_eq_true] at hs
      simp [ih, hs]
      omega

/-- A window all of whose points fail the alpha test leaves the loop state as it was. -/
theorem addPoints_all_skipped (env : Env) (r : PointsRenderable) (points : Points) (ofn : Bool)
    (V : Nat) (w : List (Vector3 × ColorRGBA)) (c : AddCursor)
    (h : ∀ pc ∈ w, skipsPoint r.alpha_ pc.2 = true) :
    addPoints env r points ofn V w c = c := by
  induction w generalizing c with
  | nil => simp [addPoints]
  | cons hd tl ih =>
    obtain ⟨p, col⟩ := hd
    unfold addPoints
    have h1 : skipsPoint r.alpha_ col = true := h (p, col) (by simp)
    simp only [h1, if_true]
    exact ih c (fun pc hpc => h pc (by simp [hpc]))

theorem PointsRenderable.addCursor_out_count (env : Env) (r : PointsRenderable)
    (points : Points) (start : Nat) :
    (r.addCursor env points start).out_count = r.accepted points start := by
  simp [PointsRenderable.addCursor, addPoints_out_count, PointsRenderable.accepted]

/-- When its assertions hold, `PointsRenderable::add` returns, and its results are these. -/
theorem PointsRenderable.add_ok (env : Env) (r : PointsRenderable) (points : Points)
    (start : Nat) (h : r.addPre points start) :
    r.add env points start
      = .ok (r.added env points start, r.outStart, r.accepted points start) := by
  obtain ⟨h1, h2, h3, h4, h5⟩ := h
  unfold PointsRenderable.add
  rw [if_neg (by simpa using h1), if_neg (by
    rintro ⟨ho, hn⟩
    exact hn (h2 ho)), if_neg (by
    rintro ⟨hn, hne⟩
    exact hne (h3 hn)), if_neg (by omega), if_neg (by rw [h5]; exact Bool.noConfusion)]
  have := PointsRenderable.addCursor_out_count env r points start
  unfold PointsRenderable.addCursor at this
  simp only [this]
  rfl

/-- Without per-point normals and orientations the loop reads neither sequence. -/
theorem derefsInRange_of_plain (r : PointsRenderable) (points : Points) (ofn : Bool) (V : Nat)
    (w : List (Vector3 × ColorRGBA)) (n o : Nat) (hn : r.desc_.has_normals = false)
    (ho : r.desc_.has_orientations = false) : derefsInRange r points ofn V w n o = true := by
  induction w generalizing n o with
  | nil => rfl
  | cons pc rest ih =>
    obtain ⟨p, col⟩ := pc
    unfold derefsInRange
    split
    · exact ih n o
    · simp [hn, ho, ih]

/-- The reads stay in range when each sequence that is read has an element for every
point still to visit. -/
theorem derefsInRange_of_bounds (r : PointsRenderable) (points : Points) (ofn : Bool) (V : Nat)
    (w : List (Vector3 × ColorRGBA)) (n o : Nat)
    (hN : (r.desc_.has_normals = true ∨ (r.desc_.has_orientations = true ∧ ofn = true)) →
      n + w.length ≤ points.normals.length)
    (hO : (r.desc_.has_orientations = true ∧ ofn = false) →
      o + w.length ≤ points.orientations.length) :
    derefsInRange r points ofn V w n o = true := by
  induction w generalizing n o with
  | nil => rfl
  | cons pc rest ih =>
    obtain ⟨p, col⟩ := pc
    rw [List.length_cons] at hN hO
    unfold derefsInRange
    split
    · exact ih n o (fun h => by have := hN h; omega) (fun h => by have := hO h; omega)
    · rw [Bool.and_eq_true]
      constructor
      · rw [Bool.or_eq_true]
        right
        rw [Bool.and_eq_true]
        constructor
        · cases hn : r.desc_.has_normals with
          | false => rfl
          | true =>
            have := hN (Or.inl hn)
            simp only [Bool.not_true, Bool.false_or, decide_eq_true_eq]
            omega
        · cases ho : r.desc_.has_orientations with
          | false => rfl
          | true =>
            cases hofn : ofn with
            | true =>
              have := hN (Or.inr ⟨ho, hofn⟩)
              simp only [Bool.not_true, Bool.false_or, if_true, decide_eq_true_eq]
              omega
            | false =>
              have := hO ⟨ho, hofn⟩
              simp only [Bool.not_true, Bool.false_or, Bool.false_eq_true, if_false,
                decide_eq_true_eq]
              omega
      · apply ih
        · intro h
          have := hN h
          split_ifs <;> omega
        · intro h
          have := hO h
          split_ifs <;> omega

/-- The number of input points in the window of `PointsRenderable::add`. -/
theorem PointsRenderable.addWindow_length (r : PointsRenderable) (points : Points)
    (start : Nat) (hlen : points.positions.length = points.colors.length) :
    (r.addWindow points start).length
      = min (r.addEnd points start - r.outStart) (points.positions.length - start) := by
  simp [PointsRenderable.addWindow, List.length_take, List.length_drop, List.length_zip, hlen]

/-- The colours of the window are colours of the batch from index `start` on. -/
theorem PointsRenderable.mem_addWindow (r : PointsRenderable) (points : Points)
    (start : Nat) (pc : Vector3 × ColorRGBA) (h : pc ∈ r.addWindow points start) :
    pc.2 ∈ points.colors.drop start := by
  unfold PointsRenderable.addWindow at h
  have h1 := List.mem_of_mem_take h
  rw [List.zip, List.drop_zipWith] at h1
  obtain ⟨p, c⟩ := pc
  exact (List.of_mem_zip h1).2

/-- When every remaining point passes the alpha test, the whole window is accepted. -/
theorem PointsRenderable.accepted_of_all_match (r : PointsRenderable) (points : Points)
    (start : Nat) (hlen : points.positions.length = points.colors.length)
    (hmatch : ∀ col ∈ points.colors.drop start, skipsPoint r.alpha_ col = false) :
    r.accepted points start
      = min (points.positions.length - start) (POINTS_PER_VBO - r.outStart) := by
  unfold PointsRenderable.accepted
  rw [List.countP_eq_length.2, r.addWindow_length points start hlen]
  · unfold PointsRenderable.addEnd
    omega
  · intro pc hpc
    simp [hmatch pc.2 (r.mem_addWindow points start pc hpc)]

/-- When every remaining point fails the alpha test, nothing is accepted. -/
theorem PointsRenderable.accepted_of_none_match (r : PointsRenderable) (points : Points)
    (start : Nat)
    (hskip : ∀ col ∈ points.colors.drop start, skipsPoint r.alpha_ col = true) :
    r.accepted points start = 0 := by
  unfold PointsRenderable.accepted
  rw [List.countP_eq_zero]
  intro pc hpc
  simp [hskip pc.2 (r.mem_addWindow points start pc hpc)]

theorem PointsRenderable.added_outStart (env : Env) (r : PointsRenderable) (points : Points)
    (start : Nat) (hacc : r.outStart + r.accepted points start ≤ POINTS_PER_VBO) :
    (r.added env points start).outStart = r.outStart + r.accepted points start := by
  have hV := r.getVerticesPerPoint_pos
  have hV36 := r.getVerticesPerPoint_le
  have hV1 : (r.added env points start).getVerticesPerPoint = r.getVerticesPerPoint := rfl
  unfold PointsRenderable.outStart at hacc ⊢
  rw [hV1]
  have hvc : (r.added env points start).vertexCount
      = r.vertexCount + (r.accepted points start * r.getVerticesPerPoint) % UINT32_MOD := rfl
  have hvs : (r.added env points start).vertexStart = r.vertexStart := rfl
  rw [hvc, hvs]
  have hle : r.accepted points start ≤ POINTS_PER_VBO := by omega
  have hprod : r.accepted points start * r.getVerticesPerPoint ≤ POINTS_PER_VBO * 36 :=
    Nat.mul_le_mul hle hV36
  have hmod : (r.accepted points start * r.getVerticesPerPoint) % UINT32_MOD
      = r.accepted points start * r.getVerticesPerPoint := by
    apply Nat.mod_eq_of_lt
    unfold POINTS_PER_VBO at hprod
    unfold UINT32_MOD
    omega
  rw [hmod, Nat.add_mul_div_right _ _ hV]
  unfold POINTS_PER_VBO UINT32_MOD at *
  omega

/-- A call of `PointsRenderable::add` that passes the assertions through the normals and
reads `orient_it` behind the one orientation of the batch does not return. -/
theorem add_undefined_on_short_orientations :
    shortOrientationsBatch.positions.length = shortOrientationsBatch.normals.length ∧
    shortOrientationsBatch.orientations.length = 1 ∧
    orientationsSlab.add exampleEnv shortOrientationsBatch 0 = .error .undefined ∧
    orientationsSlab.add exampleEnv shortOrientationsBatch 1 = .error .undefined ∧
    PointsRenderer.add exampleEnv 1 (PointsRenderer.new exampleEnv orientationsDesc)
        shortOrientationsBatch = .error .undefined := by
  refine ⟨rfl, rfl, by with_unfolding_all rfl, by with_unfolding_all rfl,
    by with_unfolding_all rfl⟩

theorem getOrCreateRenderable_points (env : Env) (s : PointsRenderer) (alpha : Bool) :
    (s.getOrCreateRenderable env alpha).1.points_ = s.points_ ∧
    (s.getOrCreateRenderable env alpha).1.id_gen_ = s.id_gen_ := by
  unfold PointsRenderer.getOrCreateRenderable
  split <;> simp

/-- An iteration of the first loop of `PointsRenderer::add` does not touch the handle table
or the generator. -/
theorem addBody_points (env : Env) (points : Points) (st st1 : AddState)
    (h : addBody env points st = .ok st1) :
    st1.store.points_ = st.store.points_ ∧ st1.store.id_gen_ = st.store.id_gen_ := by
  unfold addBody at h
  simp only at h
  split at h
  · exact absurd h (by simp)
  · split at h
    · exact absurd h (by simp)
    · injection h with h
      subst h
      simp [getOrCreateRenderable_points]

theorem addLoop_points (env : Env) (points : Points) (pc : Nat) (fuel : Nat)
    (st st1 : AddState) (h : addLoop env points pc fuel st = .ok st1) :
    st1.store.points_ = st.store.points_ ∧ st1.store.id_gen_ = st.store.id_gen_ := by
  induction fuel generalizing st with
  | zero =>
    unfold addLoop at h
    split at h
    · exact absurd h (by simp)
    · injection h with h
      subst h
      exact ⟨rfl, rfl⟩
  | succ n ih =>
    unfold addLoop at h
    split at h
    · split at h
      · exact absurd h (by simp)
      · rename_i st2 hb
        have h2 := addBody_points env points st st2 hb
        have h3 := ih st2 h
        exact ⟨h3.1.trans h2.1, h3.2.trans h2.2⟩
    · injection h with h
      subst h
      exact ⟨rfl, rfl⟩

/-- The id that the second loop of `PointsRenderer::add` settles on is non-zero and not a
key of the table. -/
theorem genId_fresh (env : Env) (points_ : List (Nat × PointsInfo)) (fuel id drawn : Nat)
    (id1 drawn1 : Nat) (h : genId env points_ fuel id drawn = .ok (id1, drawn1)) :
    id1 ≠ 0 ∧ findPoints points_ id1 = none := by
  induction fuel generalizing id drawn with
  | zero =>
    unfold genId at h
    split at h
    · exact absurd h (by simp)
    · rename_i hc
      injection h with h
      injection h with h1 h2
      subst h1
      simp only [not_or, Option.not_isSome_iff_eq_none] at hc
      simpa using hc
  | succ n ih =>
    unfold genId at h
    split at h
    · exact ih _ _ h
    · rename_i hc
      injection h with h
      injection h with h1 h2
      subst h1
      simp only [not_or, Option.not_isSome_iff_eq_none] at hc
      simpa using hc

theorem findPoints_append (l1 l2 : List (Nat × PointsInfo)) (id : Nat) :
    findPoints (l1 ++ l2) id = (findPoints l1 id).or (findPoints l2 id) := by
  unfold findPoints
  rw [List.find?_append]
  cases List.find? (fun e => e.1 == id) l1 <;> simp

theorem findPoints_insertPoints_self (points_ : List (Nat × PointsInfo)) (id : Nat)
    (pinfo : PointsInfo) (h : findPoints points_ id = none) :
    findPoints (insertPoints points_ id pinfo) id = some pinfo := by
  unfold insertPoints
  rw [h]
  simp only
  rw [findPoints_append, h]
  simp [findPoints]

theorem findPoints_insertPoints_of_some (points_ : List (Nat × PointsInfo)) (id id1 : Nat)
    (pinfo pinfo1 : PointsInfo) (h : findPoints points_ id1 = some pinfo1) :
    findPoints (insertPoints points_ id pinfo) id1 = some pinfo1 := by
  unfold insertPoints
  split
  · exact h
  · rw [findPoints_append, h]
    simp

/-- C5: when `PointsRenderer::add` returns, the id it returns is non-zero, was not a key of
`points_` before the call and is a key after it (bound to the allocations of this call),
and every key present before the call is still bound to the same allocations. -/
theorem C5_add_returns_fresh_handle (env : Env) (fuel : Nat) (s s1 : PointsRenderer)
    (points : Points) (id : Nat)
    (h : PointsRenderer.add env fuel s points = .ok (s1, id)) :
    id ≠ 0 ∧ findPoints s.points_ id = none ∧
    (findPoints s1.points_ id).isSome = true ∧
    ∀ (id1 : Nat) (pinfo1 : PointsInfo),
      findPoints s.points_ id1 = some pinfo1 → findPoints s1.points_ id1 = some pinfo1 := by
  unfold PointsRenderer.add at h
  simp only at h
  split at h
  · exact absurd h (by simp)
  · rename_i st hloop
    have hp := (addLoop_points env points _ fuel _ st hloop).1
    simp only at hp
    split at h
    · exact absurd h (by simp)
    · rename_i id2 drawn hgen
      injection h with h
      injection h with h1 h2
      subst h1 h2
      have hf := genId_fresh env st.store.points_ fuel 0 st.store.id_gen_ id2 drawn hgen
      rw [hp] at hf
      refine ⟨hf.1, hf.2, ?_, ?_⟩
      · simp only [hp]
        rw [findPoints_insertPoints_self _ _ _ hf.2]
        rfl
      · intro id1 pinfo1 h1
        simp only [hp]
        exact findPoints_insertPoints_of_some _ _ _ _ _ h1

theorem C5_add_returns_fresh_handle_witness :
    (2 : Nat) ≠ 0 ∧ findPoints storeAfterOneAdd.points_ 2 = none ∧
    (findPoints storeAfterTwoAdds.points_ 2).isSome = true ∧
    ∀ (id1 : Nat) (pinfo1 : PointsInfo),
      findPoints storeAfterOneAdd.points_ id1 = some pinfo1 →
      findPoints storeAfterTwoAdds.points_ id1 = some pinfo1 :=
  C5_add_returns_fresh_handle exampleEnv 1 storeAfterOneAdd storeAfterTwoAdds threeMixed 2
    (by with_unfolding_all rfl)

theorem findPoints_erasePoints_self (points_ : List (Nat × PointsInfo)) (id : Nat) :
    findPoints (erasePoints points_ id) id = none := by
  unfold findPoints erasePoints
  rw [Option.map_eq_none', List.find?_eq_none]
  intro e he
  have := (List.mem_filter.1 he).2
  simpa using this

theorem shrinkRenderables_points (fuel : Nat) (s s1 : PointsRenderer)
    (h : PointsRenderer.shrinkRenderables fuel s = .ok s1) : s1.points_ = s.points_ := by
  unfold PointsRenderer.shrinkRenderables at h
  split at h
  · exact absurd h (by simp)
  · injection h with h
    subst h
    rfl

/-- After a `PointsRenderer::remove` that returns, the id is not a key of `points_`. -/
theorem remove_ok_absent (fuel : Nat) (s s1 : PointsRenderer) (id : Nat)
    (h : PointsRenderer.remove fuel s id = .ok s1) : findPoints s1.points_ id = none := by
  unfold PointsRenderer.remove at h
  split at h
  · rename_i hnone
    injection h with h
    subst h
    exact hnone
  · split at h
    · exact absurd h (by simp)
    · have := shrinkRenderables_points fuel _ s1 h
      rw [this]
      exact findPoints_erasePoints_self _ _

/-- C6: `PointsRenderer::remove` of an id that is not a key of `points_` (because it never
was, or because an earlier `remove` of it returned) returns and leaves the whole store as
it was. -/
theorem C6_remove_absent_is_noop (fuel : Nat) (s : PointsRenderer) (id : Nat)
    (h : findPoints s.points_ id = none ∨
      ∃ (fuel0 : Nat) (s0 : PointsRenderer), PointsRenderer.remove fuel0 s0 id = .ok s) :
    PointsRenderer.remove fuel s id = .ok s := by
  have habs : findPoints s.points_ id = none := by
    rcases h with h | ⟨fuel0, s0, h⟩
    · exact h
    · exact remove_ok_absent fuel0 s0 s id h
  unfold PointsRenderer.remove
  rw [habs]

theorem C6_remove_absent_is_noop_witness :
    PointsRenderer.remove 0 storeAfterOneAdd 7 = .ok storeAfterOneAdd :=
  C6_remove_absent_is_noop 0 storeAfterOneAdd 7 (Or.inl (by with_unfolding_all rfl))

theorem skipsPoint_opaqueWhite : skipsPoint false opaqueWhite = false := by
  with_unfolding_all rfl

theorem skipsPoint_translucentRed : skipsPoint true translucentRed = false := by
  with_unfolding_all rfl

theorem uniformBatch_addPre (r : PointsRenderable) (n start : Nat) (col : ColorRGBA)
    (hn : r.desc_.has_normals = false) (ho : r.desc_.has_orientations = false)
    (hs : start ≤ n) : r.addPre (uniformBatch n col) start := by
  have hr : r.addReadsInRange (uniformBatch n col) start = true :=
    derefsInRange_of_plain r _ _ _ _ _ _ hn ho
  unfold PointsRenderable.addPre
  rw [hr]
  unfold uniformBatch
  simp [hn, ho, hs]

theorem uniformBatch_accepted (r : PointsRenderable) (n start : Nat) (col : ColorRGBA)
    (hcol : skipsPoint r.alpha_ col = false) :
    r.accepted (uniformBatch n col) start = min (n - start) (POINTS_PER_VBO - r.outStart) := by
  rw [r.accepted_of_all_match (uniformBatch n col) start (by simp [uniformBatch])]
  · simp [uniformBatch]
  · intro c hc
    have := List.mem_of_mem_drop hc
    simp only [uniformBatch, List.mem_replicate] at this
    rw [this.2]
    exact hcol

theorem PointsRenderable.added_point_count (env : Env) (r : PointsRenderable)
    (points : Points) (start : Nat) :
    (r.added env points start).point_count_
      = (r.point_count_ + r.accepted points start) % UINT32_MOD :=
  rfl

/-- The slab after an append of `POINTS_PER_VBO` opaque points to a fresh slab. -/
theorem freshOpaqueSlab_filled :
    freshOpaqueSlab.add exampleEnv (uniformBatch POINTS_PER_VBO opaqueWhite) 0
      = .ok (freshOpaqueSlab.added exampleEnv (uniformBatch POINTS_PER_VBO opaqueWhite) 0,
          0, POINTS_PER_VBO) ∧
    (freshOpaqueSlab.added exampleEnv (uniformBatch POINTS_PER_VBO opaqueWhite) 0).point_count_
      = POINTS_PER_VBO ∧
    (freshOpaqueSlab.added exampleEnv (uniformBatch POINTS_PER_VBO opaqueWhite) 0).outStart
      = POINTS_PER_VBO := by
  have hacc : freshOpaqueSlab.accepted (uniformBatch POINTS_PER_VBO opaqueWhite) 0
      = POINTS_PER_VBO := by
    rw [uniformBatch_accepted _ _ _ _ skipsPoint_opaqueWhite]
    decide
  have hpre := uniformBatch_addPre freshOpaqueSlab POINTS_PER_VBO 0 opaqueWhite rfl rfl
    (Nat.zero_le _)
  refine ⟨?_, ?_, ?_⟩
  · rw [freshOpaqueSlab.add_ok exampleEnv _ 0 hpre, hacc]
    rfl
  · rw [PointsRenderable.added_point_count, hacc]
    decide
  · rw [freshOpaqueSlab.added_outStart exampleEnv _ 0 (by rw [hacc]; decide), hacc]
    decide

/-- When its assertions hold, `PointsRenderable::remove` returns the slab `removed`. -/
theorem PointsRenderable.remove_ok (r : PointsRenderable) (start count : Nat)
    (h1 : count ≤ r.point_count_) (h2 : (start + count) % UINT32_MOD < POINTS_PER_VBO) :
    r.remove start count = .ok (r.removed start count) := by
  unfold PointsRenderable.remove PointsRenderable.removed
  rw [if_neg (by omega), if_neg (by omega)]
  simp only [PointsRenderable.isEmpty]
  by_cases h : r.point_count_ - count = 0
  · simp [h]
  · simp [h]

/-- C8 (the code departs from it): a fresh slab accepts `POINTS_PER_VBO` points as the
allocation `(0, POINTS_PER_VBO)`, which ends exactly at the capacity and satisfies
`start + count ≤ cursor` and `count ≤ point_count_`; `PointsRenderable::remove` of that
allocation fails its second assertion. -/
theorem C8_remove_rejects_allocation_ending_at_capacity :
    ∃ r1 : PointsRenderable,
      freshOpaqueSlab.add exampleEnv (uniformBatch POINTS_PER_VBO opaqueWhite) 0
        = .ok (r1, 0, POINTS_PER_VBO) ∧
      0 + POINTS_PER_VBO ≤ r1.outStart ∧ POINTS_PER_VBO ≤ r1.point_count_ ∧
      r1.remove 0 POINTS_PER_VBO = .error Fault.assertion := by
  obtain ⟨h1, h2, h3⟩ := freshOpaqueSlab_filled
  refine ⟨_, h1, by rw [h3]; decide, by rw [h2], ?_⟩
  unfold PointsRenderable.remove
  rw [h2, if_neg (by decide), if_pos (by decide)]

/-- C9 (the code departs from it): after a fresh slab has accepted `POINTS_PER_VBO` points
and one of them has been removed, the append cursor still equals `POINTS_PER_VBO` but
`PointsRenderable::isFull` returns false. -/
theorem C9_isFull_false_at_capacity_after_remove :
    ∃ r1 r2 : PointsRenderable,
      freshOpaqueSlab.add exampleEnv (uniformBatch POINTS_PER_VBO opaqueWhite) 0
        = .ok (r1, 0, POINTS_PER_VBO) ∧
      r1.remove 0 1 = .ok r2 ∧
      r2.outStart = POINTS_PER_VBO ∧ r2.isFull = false := by
  obtain ⟨h1, h2, h3⟩ := freshOpaqueSlab_filled
  refine ⟨_, _, h1, PointsRenderable.remove_ok _ 0 1 (by rw [h2]; decide) (by decide), ?_, ?_⟩
  · have hcur : ∀ r : PointsRenderable, (r.removed 0 1).outStart = r.outStart := fun _ => rfl
    rw [hcur, h3]
  · have hpc : ∀ r : PointsRenderable, (r.removed 0 1).point_count_ = r.point_count_ - 1 :=
      fun _ => rfl
    unfold PointsRenderable.isFull
    rw [hpc, h2]
    decide

/-- C2 (the code departs from it): in a slab of one-vertex points holding the allocations
(0,1), (1,1) and (2,1), `PointsRenderable::remove(1, 1)` returns but leaves the three
position words of vertex 1 (words 4, 5, 6) as they were and stores the sentinel in the
position words of vertex 2 (words 8, 9, 10), which belongs to the allocation (2,1). -/
theorem C2_remove_overwrites_other_allocation :
    slabThreeAllocations.outStart = 3 ∧ slabThreeAllocations.getVerticesPerPoint = 1 ∧
    slabThreeAllocations.getPointStride = 16 ∧
    slabThreeAllocations.remove 1 1 = .ok slabAfterRemove ∧
    (slabThreeAllocations.vbuf 4, slabThreeAllocations.vbuf 5, slabThreeAllocations.vbuf 6)
      = (Word.float 0, Word.float 20, Word.float 0) ∧
    (slabAfterRemove.vbuf 4, slabAfterRemove.vbuf 5, slabAfterRemove.vbuf 6)
      = (Word.float 0, Word.float 20, Word.float 0) ∧
    (slabThreeAllocations.vbuf 8, slabThreeAllocations.vbuf 9, slabThreeAllocations.vbuf 10)
      = (Word.float 0, Word.float 30, Word.float 0) ∧
    (slabAfterRemove.vbuf 8, slabAfterRemove.vbuf 9, slabAfterRemove.vbuf 10)
      = (Word.float 99999999, Word.float 99999999, Word.float 99999999) := by
  refine ⟨by decide!, by decide!, by decide!, by with_unfolding_all rfl, by decide!,
    by decide!, by decide!, by decide!⟩

/-- Once the iterator of `shrinkRenderables` stands on a slab that is not empty, the loop
takes the `continue` branch without advancing it, in every iteration. -/
theorem shrinkLoop_stuck (heap : Nat → PointsRenderable) (last : Nat) (renderables : List Nat)
    (it rend empty_count : Nat) (hit : it ≠ last) (hget : renderables[it]? = some rend)
    (hne : (heap rend).isEmpty = false) (fuel : Nat) :
    shrinkLoop heap last fuel renderables it empty_count = .error Fault.fuel := by
  induction fuel with
  | zero =>
    unfold shrinkLoop
    rw [if_neg hit]
  | succ n ih =>
    unfold shrinkLoop
    rw [if_neg hit, hget]
    simp only [hne]
    exact ih

/-- C4 (the code departs from it): the store `storeAfterTwoAdds` is reached by two `add`
calls and holds the ids 1 and 2; its first slab is not empty.  The reclamation pass
`shrinkRenderables` on it does not terminate (no amount of fuel suffices), and neither
does `PointsRenderer::remove(1)`, whose tombstoning leaves the point of id 2 in that slab. -/
theorem C4_shrinkRenderables_diverges_on_nonempty_slab :
    Reachable exampleEnv exampleDesc storeAfterTwoAdds ∧
    (findPoints storeAfterTwoAdds.points_ 1).isSome = true ∧
    (∀ fuel : Nat,
      PointsRenderer.shrinkRenderables fuel storeAfterTwoAdds = .error Fault.fuel) ∧
    (∀ fuel : Nat, PointsRenderer.remove fuel storeAfterTwoAdds 1 = .error Fault.fuel) := by
  have hadd1 : PointsRenderer.add exampleEnv 1 emptyStore threeMixed
      = .ok (storeAfterOneAdd, 1) := by with_unfolding_all rfl
  have hadd2 : PointsRenderer.add exampleEnv 1 storeAfterOneAdd threeMixed
      = .ok (storeAfterTwoAdds, 2) := by with_unfolding_all rfl
  refine ⟨Reachable.add (Reachable.add Reachable.init hadd1) hadd2, by decide!, ?_, ?_⟩
  · intro fuel
    unfold PointsRenderer.shrinkRenderables
    rw [shrinkLoop_stuck storeAfterTwoAdds.heap _ storeAfterTwoAdds.renderables_ 0 0 0
      (by decide!) (by decide!) (by decide!) fuel]
  · intro fuel
    have hfind : findPoints storeAfterTwoAdds.points_ 1
        = some ⟨[⟨0, 0, 2, 1, 0, 1⟩]⟩ := by decide!
    have hrem : removeRends storeAfterTwoAdds.heap [⟨0, 0, 2, 1, 0, 1⟩]
        = .ok (heapSet (heapSet storeAfterTwoAdds.heap 0
            ((storeAfterTwoAdds.heap 0).removed 0 2)) 1
            ((heapSet storeAfterTwoAdds.heap 0
              ((storeAfterTwoAdds.heap 0).removed 0 2) 1).removed 0 1)) := by
      unfold removeRends
      rw [PointsRenderable.remove_ok _ 0 2 (by decide!) (by decide)]
      simp only
      rw [PointsRenderable.remove_ok _ 0 1 (by decide!) (by decide)]
      rfl
    unfold PointsRenderer.remove
    rw [hfind]
    simp only
    rw [hrem]
    simp only
    unfold PointsRenderer.shrinkRenderables
    simp only
    rw [shrinkLoop_stuck _ _ storeAfterTwoAdds.renderables_ 0 0 0
      (by decide!) (by decide!) (by decide!) fuel]

theorem heapSet_same (heap : Nat → PointsRenderable) (p : Nat) (r : PointsRenderable) :
    heapSet heap p r p = r := by
  simp [heapSet]

theorem heapSet_other (heap : Nat → PointsRenderable) (p q : Nat) (r : PointsRenderable)
    (h : q ≠ p) : heapSet heap p r q = heap q := by
  simp [heapSet, h]

theorem SlabOf.outStart_eq {env : Env} {desc : PointsRendererDesc} {r : PointsRenderable}
    {alpha : Bool} {count : Nat} (h : SlabOf env desc r alpha count)
    (hc : count < UINT32_MOD) : r.outStart = count := by
  unfold PointsRenderable.outStart
  rw [h.vstart, h.vcount, Nat.zero_div, Nat.zero_add,
    Nat.mul_div_cancel _ r.getVerticesPerPoint_pos, Nat.mod_eq_of_lt hc]

theorem SlabOf.isFull_eq {env : Env} {desc : PointsRendererDesc} {r : PointsRenderable}
    {alpha : Bool} {count : Nat} (h : SlabOf env desc r alpha count) :
    r.isFull = (count == POINTS_PER_VBO) := by
  unfold PointsRenderable.isFull
  rw [h.count_eq]

theorem SlabOf.new (env : Env) (desc : PointsRendererDesc) (alpha : Bool) :
    SlabOf env desc (PointsRenderable.new env desc alpha) alpha 0 :=
  ⟨rfl, rfl, rfl, rfl, rfl, by simp [PointsRenderable.new]⟩

theorem SlabOf.added {env : Env} {desc : PointsRendererDesc} {r : PointsRenderable}
    {alpha : Bool} {count : Nat} (h : SlabOf env desc r alpha count) (points : Points)
    (start acc : Nat) (hacc : r.accepted points start = acc)
    (hle : count + acc ≤ POINTS_PER_VBO) :
    SlabOf env desc (r.added env points start) alpha (count + acc) := by
  have hV36 := r.getVerticesPerPoint_le
  have hprod : acc * r.getVerticesPerPoint ≤ POINTS_PER_VBO * 36 :=
    Nat.mul_le_mul (by omega) hV36
  refine ⟨h.desc_eq, h.geom, h.vstart, h.alpha_eq, ?_, ?_⟩
  · show (r.point_count_ + r.accepted points start) % UINT32_MOD = _
    rw [hacc, h.count_eq]
    apply Nat.mod_eq_of_lt
    unfold POINTS_PER_VBO UINT32_MOD at *
    omega
  · show r.vertexCount + (r.accepted points start * r.getVerticesPerPoint) % UINT32_MOD
      = (count + acc) * r.getVerticesPerPoint
    rw [hacc, h.vcount, Nat.mod_eq_of_lt, Nat.add_mul]
    unfold POINTS_PER_VBO at hprod
    unfold UINT32_MOD
    omega

/-- For a batch that passes the assertions and is `ReadsInRange`, the reads of a call of
`PointsRenderable::add` with `start` inside the batch stay in range. -/
theorem addReadsInRange_of_validFor (r : PointsRenderable) (points : Points) (start : Nat)
    (hv : ValidFor r.desc_ points) (hrr : ReadsInRange r.desc_ points)
    (hs : start ≤ points.positions.length) : r.addReadsInRange points start = true := by
  have hlen := r.addWindow_length points start hv.1
  have hw : start + (r.addWindow points start).length ≤ points.positions.length := by
    rw [hlen]
    omega
  unfold PointsRenderable.addReadsInRange
  apply derefsInRange_of_bounds
  · rintro (hn | ⟨ho, hofn⟩)
    · rw [← hv.2.2 hn]
      exact hw
    · simp only [Bool.and_eq_true, decide_eq_true_eq] at hofn
      rw [← hofn.2]
      exact hw
  · rintro ⟨ho, hofn⟩
    cases he : points.orientations.isEmpty with
    | false => exact hw.trans (hrr ho he)
    | true =>
      rw [ho, he] at hofn
      simp only [Bool.and_self, Bool.true_and, decide_eq_false_iff_not] at hofn
      rcases hv.2.1 ho with h1 | h1
      · rw [← h1]
        exact hw
      · exact absurd h1 hofn

theorem addPre_of_validFor (r : PointsRenderable) (points : Points) (start : Nat)
    (desc : PointsRendererDesc) (hd : r.desc_ = desc) (hv : ValidFor desc points)
    (hrr : ReadsInRange desc points)
    (hs : start ≤ points.positions.length) : r.addPre points start := by
  subst hd
  exact ⟨hv.1, hv.2.1, hv.2.2, hs, addReadsInRange_of_validFor r points start hv hrr hs⟩

theorem getOrCreateRenderable_of_none (env : Env) (s : PointsRenderer) (alpha : Bool)
    (h : ∀ p ∈ s.renderables_,
      (!(s.heap p).isFull && (alpha == (s.heap p).isAlpha)) = false) :
    s.getOrCreateRenderable env alpha
      = ({ s with
            heap := heapSet s.heap s.heap_size (PointsRenderable.new env s.desc_ alpha)
            heap_size := s.heap_size + 1
            renderables_ := s.renderables_ ++ [s.heap_size] },
         s.heap_size) := by
  unfold PointsRenderer.getOrCreateRenderable
  have : s.renderables_.find?
      (fun p => !(s.heap p).isFull && (alpha == (s.heap p).isAlpha)) = none := by
    rw [List.find?_eq_none]
    intro p hp
    simp [h p hp]
  rw [this]

theorem getOrCreateRenderable_of_some (env : Env) (s : PointsRenderer) (alpha : Bool)
    (p : Nat)
    (h : s.renderables_.find?
      (fun p => !(s.heap p).isFull && (alpha == (s.heap p).isAlpha)) = some p) :
    s.getOrCreateRenderable env alpha = (s, p) := by
  unfold PointsRenderer.getOrCreateRenderable
  rw [h]

theorem getOrCreateRenderable_desc (env : Env) (s : PointsRenderer) (alpha : Bool) :
    (s.getOrCreateRenderable env alpha).1.desc_ = s.desc_ := by
  unfold PointsRenderer.getOrCreateRenderable
  split <;> rfl

/-- When the two calls of `PointsRenderable::add` in an iteration pass their assertions,
the iteration returns the state `iterationResult`. -/
theorem addBody_ok (env : Env) (points : Points) (st : AddState) (desc : PointsRendererDesc)
    (s1 : PointsRenderer) (p1 : Nat) (s3 : PointsRenderer) (p2 : Nat)
    (hv : ValidFor desc points) (hrr : ReadsInRange desc points)
    (g1 : st.store.getOrCreateRenderable env false = (s1, p1))
    (hd1 : (s1.heap p1).desc_ = desc)
    (hs1 : st.total_opaque_count ≤ points.positions.length)
    (g2 : PointsRenderer.getOrCreateRenderable env
      { s1 with heap := heapSet s1.heap p1 ((s1.heap p1).added env points
          st.total_opaque_count) } true = (s3, p2))
    (hd2 : (s3.heap p2).desc_ = desc)
    (hs2 : st.total_alpha_count ≤ points.positions.length) :
    addBody env points st
      = .ok (iterationResult env points st p1 s3 p2 (s1.heap p1) (s3.heap p2)) := by
  unfold addBody
  simp only [g1]
  rw [PointsRenderable.add_ok env _ points _ (addPre_of_validFor _ points _ desc hd1 hv hrr hs1)]
  simp only [g2]
  rw [PointsRenderable.add_ok env _ points _ (addPre_of_validFor _ points _ desc hd2 hv hrr hs2)]
  rfl

theorem POINTS_PER_VBO_eq : POINTS_PER_VBO = 8192 := rfl

theorem UINT32_MOD_eq : UINT32_MOD = 4294967296 := rfl

theorem skipsPoint_not (alpha : Bool) (col : ColorRGBA) :
    skipsPoint (!alpha) col = !skipsPoint alpha col := by
  unfold skipsPoint
  cases alpha <;> cases decide (col.a < 99 / 100) <;> rfl

/-- What a slab of the batch's classification accepts from a uniform batch. -/
theorem SlabOf.accepted_cls {env : Env} {desc : PointsRendererDesc} {r : PointsRenderable}
    {cls : Bool} {count : Nat} (h : SlabOf env desc r cls count) (points : Points)
    (start : Nat) (hv : ValidFor desc points)
    (hcls : ∀ col ∈ points.colors, skipsPoint cls col = false)
    (hc : count ≤ POINTS_PER_VBO) :
    r.accepted points start
      = min (points.positions.length - start) (POINTS_PER_VBO - count) := by
  rw [r.accepted_of_all_match points start hv.1, h.outStart_eq]
  · rw [POINTS_PER_VBO_eq] at hc
    rw [UINT32_MOD_eq]
    omega
  · intro col hcol
    rw [h.alpha_eq]
    exact hcls col (List.mem_of_mem_drop hcol)

/-- What a slab of the other classification accepts from a uniform batch. -/
theorem SlabOf.accepted_other {env : Env} {desc : PointsRendererDesc} {r : PointsRenderable}
    {cls : Bool} {count : Nat} (h : SlabOf env desc r (!cls) count) (points : Points)
    (start : Nat) (hcls : ∀ col ∈ points.colors, skipsPoint cls col = false) :
    r.accepted points start = 0 := by
  apply r.accepted_of_none_match points start
  intro col hcol
  rw [h.alpha_eq, skipsPoint_not, hcls col (List.mem_of_mem_drop hcol)]
  rfl

/-- One further iteration of the first loop of `PointsRenderer::add` on a batch of opaque
points. -/
theorem uniform_step_false (env : Env) (desc : PointsRendererDesc) (points : Points)
    (m : Nat) (st : AddState) (hv : ValidFor desc points) (hrr : ReadsInRange desc points)
    (hcls : ∀ col ∈ points.colors, skipsPoint false col = false)
    (hinv : UniformInv env desc points false m st)
    (hlt : (m + 1) * POINTS_PER_VBO < points.positions.length)
    (hb : min ((m + 2) * POINTS_PER_VBO) points.positions.length < UINT32_MOD) :
    ∃ st1, addBody env points st = .ok st1 ∧ UniformInv env desc points false (m + 1) st1 := by
  have hfirst := hinv.first
  have hother := hinv.other
  simp only [Bool.false_eq_true, if_false, Bool.not_false] at hfirst hother
  have hto : st.total_opaque_count = (m + 1) * POINTS_PER_VBO := by
    have := hinv.total_cls
    simp only [Bool.false_eq_true, if_false] at this
    rw [this]
    omega
  have hta : st.total_alpha_count = 0 := by
    have := hinv.total_other
    simpa using this
  have hnone : ∀ p ∈ st.store.renderables_,
      (!(st.store.heap p).isFull && (false == (st.store.heap p).isAlpha)) = false := by
    rw [hinv.rends]
    intro p hp
    simp only [List.mem_cons, List.mem_range'_1] at hp
    rcases hp with rfl | rfl | ⟨h2, h3⟩
    · rw [hfirst.isFull_eq]
      simp
    · simp [PointsRenderable.isAlpha, hother.alpha_eq]
    · obtain ⟨j, rfl⟩ : ∃ j, p = j + 2 := ⟨p - 2, by omega⟩
      have hj := hinv.rest j (by omega)
      rw [hj.isFull_eq]
      have : min POINTS_PER_VBO (points.positions.length - (j + 1) * POINTS_PER_VBO)
          = POINTS_PER_VBO := by
        rw [POINTS_PER_VBO_eq] at hlt ⊢
        omega
      rw [this]
      simp
  have g1 := getOrCreateRenderable_of_none env st.store false hnone
  have hnew : SlabOf env desc (PointsRenderable.new env st.store.desc_ false) false 0 := by
    rw [hinv.desc_eq]
    exact SlabOf.new env desc false
  have hacc1 : (PointsRenderable.new env st.store.desc_ false).accepted points
      st.total_opaque_count
      = min POINTS_PER_VBO (points.positions.length - (m + 1) * POINTS_PER_VBO) := by
    rw [hnew.accepted_cls points _ hv hcls (Nat.zero_le _), hto]
    omega
  have hadded := hnew.added points st.total_opaque_count _ hacc1 (by omega)
  rw [Nat.zero_add] at hadded
  have hsome : (st.store.renderables_ ++ [st.store.heap_size]).find?
      (fun p =>
        !(heapSet (heapSet st.store.heap st.store.heap_size
            (PointsRenderable.new env st.store.desc_ false)) st.store.heap_size
            ((PointsRenderable.new env st.store.desc_ false).added env points
              st.total_opaque_count) p).isFull &&
        (true == (heapSet (heapSet st.store.heap st.store.heap_size
            (PointsRenderable.new env st.store.desc_ false)) st.store.heap_size
            ((PointsRenderable.new env st.store.desc_ false).added env points
              st.total_opaque_count) p).isAlpha)) = some 1 := by
    rw [hinv.rends, hinv.heap_size]
    simp only [List.cons_append, List.find?_cons]
    rw [heapSet_other _ _ 0 _ (by omega), heapSet_other _ _ 0 _ (by omega),
      heapSet_other _ _ 1 _ (by omega), heapSet_other _ _ 1 _ (by omega)]
    simp [PointsRenderable.isAlpha, hfirst.alpha_eq, hother.alpha_eq, hother.isFull_eq,
      POINTS_PER_VBO_eq]
  have hbody := addBody_ok env points st desc _ _ _ 1 hv hrr g1
    (by simp only [heapSet_same]; exact hnew.desc_eq) (by rw [hto]; omega)
    (getOrCreateRenderable_of_some env _ true 1 (by
      simp only [heapSet_same]
      exact hsome))
    (by
      simp only
      rw [heapSet_other _ _ 1 _ (by rw [hinv.heap_size]; omega),
        heapSet_other _ _ 1 _ (by rw [hinv.heap_size]; omega)]
      exact hother.desc_eq)
    (by rw [hta]; omega)
  refine ⟨_, hbody, ?_⟩
  have hs := hinv.heap_size
  have hacc2 : (st.store.heap 1).accepted points st.total_alpha_count = 0 :=
    hother.accepted_other points _ hcls
  have h1eq : heapSet (heapSet st.store.heap st.store.heap_size
      (PointsRenderable.new env st.store.desc_ false)) st.store.heap_size
      ((PointsRenderable.new env st.store.desc_ false).added env points
        st.total_opaque_count) 1 = st.store.heap 1 := by
    rw [heapSet_other _ _ 1 _ (by omega), heapSet_other _ _ 1 _ (by omega)]
  refine
    { desc_eq := hinv.desc_eq
      heap_size := by
        simp only [iterationResult]
        omega
      rends := by
        simp only [iterationResult, hinv.rends, hs, List.cons_append]
        rw [List.range'_1_concat, Nat.add_comm 2 m]
      other := ?_
      first := ?_
      rest := ?_
      total := ?_
      total_cls := ?_
      total_other := ?_
      table := hinv.table }
  · simp only [iterationResult, Bool.false_eq_true, if_false, heapSet_same, h1eq,
      Bool.not_false]
    have := hother.added points st.total_alpha_count 0 hacc2 (by omega)
    simpa using this
  · simp only [iterationResult, Bool.false_eq_true, if_false]
    rw [heapSet_other _ _ 0 _ (by omega), heapSet_other _ _ 0 _ (by omega),
      heapSet_other _ _ 0 _ (by omega)]
    exact hfirst
  · intro j hj
    simp only [iterationResult]
    rw [heapSet_other _ _ (j + 2) _ (by omega)]
    by_cases hjm : j = m
    · subst hjm
      rw [← hs, heapSet_same, heapSet_same]
      exact hadded
    · rw [heapSet_other _ _ (j + 2) _ (by omega), heapSet_other _ _ (j + 2) _ (by omega)]
      exact hinv.rest j (by omega)
  · simp only [iterationResult, heapSet_same, h1eq, hacc2, hacc1]
    rw [hto, hta]
    rw [POINTS_PER_VBO_eq, UINT32_MOD_eq] at *
    omega
  · simp only [iterationResult, Bool.false_eq_true, if_false, heapSet_same, hacc1]
    rw [hto]
    rw [POINTS_PER_VBO_eq, UINT32_MOD_eq] at *
    omega
  · simp only [iterationResult, Bool.false_eq_true, if_false, heapSet_same, h1eq, hacc2]
    rw [hta]
    rfl

/-- One further iteration of the first loop of `PointsRenderer::add` on a batch of alpha
points. -/
theorem uniform_step_true (env : Env) (desc : PointsRendererDesc) (points : Points)
    (m : Nat) (st : AddState) (hv : ValidFor desc points) (hrr : ReadsInRange desc points)
    (hcls : ∀ col ∈ points.colors, skipsPoint true col = false)
    (hinv : UniformInv env desc points true m st)
    (hlt : (m + 1) * POINTS_PER_VBO < points.positions.length)
    (hb : min ((m + 2) * POINTS_PER_VBO) points.positions.length < UINT32_MOD) :
    ∃ st1, addBody env points st = .ok st1 ∧ UniformInv env desc points true (m + 1) st1 := by
  have hfirst := hinv.first
  have hother := hinv.other
  simp only [if_true, Bool.not_true] at hfirst hother
  have hs := hinv.heap_size
  have hta : st.total_alpha_count = (m + 1) * POINTS_PER_VBO := by
    have := hinv.total_cls
    simp only [if_true] at this
    rw [this]
    omega
  have hto : st.total_opaque_count = 0 := by
    have := hinv.total_other
    simpa using this
  have hsome : st.store.renderables_.find?
      (fun p => !(st.store.heap p).isFull && (false == (st.store.heap p).isAlpha))
      = some 0 := by
    rw [hinv.rends]
    simp [List.find?_cons, PointsRenderable.isAlpha, hother.alpha_eq, hother.isFull_eq,
      POINTS_PER_VBO_eq]
  have g1 := getOrCreateRenderable_of_some env st.store false 0 hsome
  have hacc1 : (st.store.heap 0).accepted points st.total_opaque_count = 0 :=
    @SlabOf.accepted_other _ _ _ true _ hother points _ hcls
  have hadded0 := hother.added points st.total_opaque_count 0 hacc1 (by omega)
  rw [Nat.zero_add] at hadded0
  have hnone : ∀ p ∈ st.store.renderables_,
      (!(heapSet st.store.heap 0
          ((st.store.heap 0).added env points st.total_opaque_count) p).isFull &&
        (true == (heapSet st.store.heap 0
          ((st.store.heap 0).added env points st.total_opaque_count) p).isAlpha)) = false := by
    rw [hinv.rends]
    intro p hp
    simp only [List.mem_cons, List.mem_range'_1] at hp
    rcases hp with rfl | rfl | ⟨h2, h3⟩
    · rw [heapSet_same]
      simp [PointsRenderable.isAlpha, hadded0.alpha_eq]
    · rw [heapSet_other _ _ 1 _ (by omega), hfirst.isFull_eq]
      simp
    · obtain ⟨j, rfl⟩ : ∃ j, p = j + 2 := ⟨p - 2, by omega⟩
      have hj := hinv.rest j (by omega)
      rw [heapSet_other _ _ (j + 2) _ (by omega), hj.isFull_eq]
      have : min POINTS_PER_VBO (points.positions.length - (j + 1) * POINTS_PER_VBO)
          = POINTS_PER_VBO := by
        rw [POINTS_PER_VBO_eq] at hlt ⊢
        omega
      rw [this]
      simp
  have g2 := getOrCreateRenderable_of_none env
    { st.store with
      heap := heapSet st.store.heap 0 ((st.store.heap 0).added env points
        st.total_opaque_count) } true hnone
  have hnew : SlabOf env desc (PointsRenderable.new env st.store.desc_ true) true 0 := by
    rw [hinv.desc_eq]
    exact SlabOf.new env desc true
  have hacc2 : (PointsRenderable.new env st.store.desc_ true).accepted points
      st.total_alpha_count
      = min POINTS_PER_VBO (points.positions.length - (m + 1) * POINTS_PER_VBO) := by
    rw [hnew.accepted_cls points _ hv hcls (Nat.zero_le _), hta]
    omega
  have hadded := hnew.added points st.total_alpha_count _ hacc2 (by omega)
  rw [Nat.zero_add] at hadded
  have hbody := addBody_ok env points st desc st.store 0 _ _ hv hrr g1 hother.desc_eq
    (by rw [hto]; omega) g2
    (by simp only [heapSet_same]; exact hnew.desc_eq) (by rw [hta]; omega)
  refine ⟨_, hbody, ?_⟩
  refine
    { desc_eq := hinv.desc_eq
      heap_size := by
        simp only [iterationResult]
        omega
      rends := by
        simp only [iterationResult, hinv.rends, hs, List.cons_append]
        rw [List.range'_1_concat, Nat.add_comm 2 m]
      other := ?_
      first := ?_
      rest := ?_
      total := ?_
      total_cls := ?_
      total_other := ?_
      table := hinv.table }
  · simp only [iterationResult, if_true, Bool.not_true]
    rw [heapSet_other _ _ 0 _ (by omega), heapSet_other _ _ 0 _ (by omega), heapSet_same]
    exact hadded0
  · simp only [iterationResult, if_true]
    rw [heapSet_other _ _ 1 _ (by omega), heapSet_other _ _ 1 _ (by omega),
      heapSet_other _ _ 1 _ (by omega)]
    exact hfirst
  · intro j hj
    simp only [iterationResult]
    by_cases hjm : j = m
    · subst hjm
      rw [← hs, heapSet_same, heapSet_same]
      exact hadded
    · rw [heapSet_other _ _ (j + 2) _ (by omega), heapSet_other _ _ (j + 2) _ (by omega),
        heapSet_other _ _ (j + 2) _ (by omega)]
      exact hinv.rest j (by omega)
  · simp only [iterationResult, heapSet_same, hacc2, hacc1]
    rw [hto, hta]
    rw [POINTS_PER_VBO_eq, UINT32_MOD_eq] at *
    omega
  · simp only [iterationResult, if_true, heapSet_same, hacc2]
    rw [hta]
    rw [POINTS_PER_VBO_eq, UINT32_MOD_eq] at *
    omega
  · simp only [iterationResult, if_true, hacc1]
    rw [hto]
    rfl

/-- The first iteration of the first loop of `PointsRenderer::add` on an empty store and a
batch of at least `POINTS_PER_VBO` points of one classification. -/
theorem uniform_base (env : Env) (desc : PointsRendererDesc) (points : Points) (cls : Bool)
    (hv : ValidFor desc points) (hrr : ReadsInRange desc points)
    (hcls : ∀ col ∈ points.colors, skipsPoint cls col = false)
    (hN : POINTS_PER_VBO ≤ points.positions.length) :
    ∃ st1,
      addBody env points
        { store := PointsRenderer.new env desc, pinfo := ⟨[]⟩, total_count := 0,
          total_opaque_count := 0, total_alpha_count := 0 } = .ok st1 ∧
      UniformInv env desc points cls 0 st1 := by
  have g1 := getOrCreateRenderable_of_none env (PointsRenderer.new env desc) false
    (by intro p hp; simp [PointsRenderer.new] at hp)
  have hnew0 : SlabOf env desc
      (PointsRenderable.new env (PointsRenderer.new env desc).desc_ false) false 0 :=
    SlabOf.new env desc false
  have hnew1 : SlabOf env desc
      (PointsRenderable.new env (PointsRenderer.new env desc).desc_ true) true 0 :=
    SlabOf.new env desc true
  have g2 := getOrCreateRenderable_of_none env
    { (PointsRenderer.new env desc) with
      heap := heapSet (heapSet (PointsRenderer.new env desc).heap 0
          (PointsRenderable.new env desc false)) 0
        ((PointsRenderable.new env desc false).added env points 0)
      heap_size := 1
      renderables_ := [0] } true
    (by
      intro p hp
      simp only [List.mem_singleton] at hp
      subst hp
      simp only [heapSet_same]
      have : ((PointsRenderable.new env desc false).added env points 0).isAlpha = false := rfl
      simp [this])
  have hbody := addBody_ok env points
    { store := PointsRenderer.new env desc, pinfo := ⟨[]⟩, total_count := 0,
      total_opaque_count := 0, total_alpha_count := 0 } desc _ _ _ _ hv hrr g1
    (by simp only [heapSet_same]; rfl) (Nat.zero_le _) g2
    (by simp only [heapSet_same]; rfl) (Nat.zero_le _)
  refine ⟨_, hbody, ?_⟩
  cases cls with
  | false =>
    have hacc0 : (PointsRenderable.new env (PointsRenderer.new env desc).desc_ false).accepted
        points 0 = POINTS_PER_VBO := by
      rw [hnew0.accepted_cls points _ hv hcls (Nat.zero_le _)]
      omega
    have hacc1 : (PointsRenderable.new env (PointsRenderer.new env desc).desc_ true).accepted
        points 0 = 0 :=
      @SlabOf.accepted_other _ _ _ false _ hnew1 points _ hcls
    have hadd0 := hnew0.added points 0 _ hacc0 (by omega)
    have hadd1 := hnew1.added points 0 _ hacc1 (by omega)
    rw [Nat.zero_add] at hadd0 hadd1
    refine
      { desc_eq := rfl
        heap_size := rfl
        rends := rfl
        other := ?_
        first := ?_
        rest := fun j hj => absurd hj (Nat.not_lt_zero j)
        total := ?_
        total_cls := ?_
        total_other := ?_
        table := rfl }
    · simp only [iterationResult, Bool.false_eq_true, if_false, Bool.not_false, heapSet_same]
      exact hadd1
    · simp only [iterationResult, Bool.false_eq_true, if_false]
      rw [heapSet_other _ _ 0 _ (by omega), heapSet_other _ _ 0 _ (by omega), heapSet_same]
      exact hadd0
    · simp only [iterationResult, heapSet_same, hacc0, hacc1]
      rw [POINTS_PER_VBO_eq, UINT32_MOD_eq] at *
      omega
    · simp only [iterationResult, Bool.false_eq_true, if_false, heapSet_same, hacc0]
      rw [POINTS_PER_VBO_eq, UINT32_MOD_eq] at *
      omega
    · simp only [iterationResult, Bool.false_eq_true, if_false, heapSet_same, hacc1]
      rfl
  | true =>
    have hacc0 : (PointsRenderable.new env (PointsRenderer.new env desc).desc_ false).accepted
        points 0 = 0 :=
      @SlabOf.accepted_other _ _ _ true _ hnew0 points _ hcls
    have hacc1 : (PointsRenderable.new env (PointsRenderer.new env desc).desc_ true).accepted
        points 0 = POINTS_PER_VBO := by
      rw [hnew1.accepted_cls points _ hv hcls (Nat.zero_le _)]
      omega
    have hadd0 := hnew0.added points 0 _ hacc0 (by omega)
    have hadd1 := hnew1.added points 0 _ hacc1 (by omega)
    rw [Nat.zero_add] at hadd0 hadd1
    refine
      { desc_eq := rfl
        heap_size := rfl
        rends := rfl
        other := ?_
        first := ?_
        rest := fun j hj => absurd hj (Nat.not_lt_zero j)
        total := ?_
        total_cls := ?_
        total_other := ?_
        table := rfl }
    · simp only [iterationResult, if_true, Bool.not_true]
      rw [heapSet_other _ _ 0 _ (by omega), heapSet_other _ _ 0 _ (by omega), heapSet_same]
      exact hadd0
    · simp only [iterationResult, if_true, heapSet_same]
      exact hadd1
    · simp only [iterationResult, heapSet_same, hacc0, hacc1]
      rw [POINTS_PER_VBO_eq, UINT32_MOD_eq] at *
      omega
    · simp only [iterationResult, if_true, heapSet_same, hacc1]
      rw [POINTS_PER_VBO_eq, UINT32_MOD_eq] at *
      omega
    · simp only [iterationResult, if_true, heapSet_same, hacc0]
      rfl

theorem uniform_step (env : Env) (desc : PointsRendererDesc) (points : Points) (cls : Bool)
    (m : Nat) (st : AddState) (hv : ValidFor desc points) (hrr : ReadsInRange desc points)
    (hcls : ∀ col ∈ points.colors, skipsPoint cls col = false)
    (hinv : UniformInv env desc points cls m st)
    (hlt : (m + 1) * POINTS_PER_VBO < points.positions.length)
    (hb : min ((m + 2) * POINTS_PER_VBO) points.positions.length < UINT32_MOD) :
    ∃ st1, addBody env points st = .ok st1 ∧ UniformInv env desc points cls (m + 1) st1 := by
  cases cls with
  | false => exact uniform_step_false env desc points m st hv hrr hcls hinv hlt hb
  | true => exact uniform_step_true env desc points m st hv hrr hcls hinv hlt hb

/-- The first loop of `PointsRenderer::add` on a batch of one classification, from the
state after `m + 1` iterations: it stops after `m1 + 1` iterations, the first count at
which `total_count` reaches `point_count`, or it runs out of fuel. -/
theorem uniform_loop (env : Env) (desc : PointsRendererDesc) (points : Points) (cls : Bool)
    (pc : Nat) (hv : ValidFor desc points) (hrr : ReadsInRange desc points)
    (hcls : ∀ col ∈ points.colors, skipsPoint cls col = false)
    (hpc : pc ≤ points.positions.length)
    (hb : min (pc + POINTS_PER_VBO) points.positions.length < UINT32_MOD)
    (fuel : Nat) (m : Nat) (st : AddState) (hinv : UniformInv env desc points cls m st) :
    (∃ st1 m1, addLoop env points pc fuel st = .ok st1 ∧
      UniformInv env desc points cls m1 st1 ∧ m ≤ m1 ∧
      pc ≤ min ((m1 + 1) * POINTS_PER_VBO) points.positions.length ∧
      (m < m1 → m1 * POINTS_PER_VBO < pc)) ∨
    (addLoop env points pc fuel st = .error Fault.fuel ∧
      (m + 1 + fuel) * POINTS_PER_VBO < pc) := by
  induction fuel generalizing m st with
  | zero =>
    unfold addLoop
    by_cases hlt : st.total_count < pc
    · right
      rw [if_pos hlt]
      refine ⟨rfl, ?_⟩
      rw [hinv.total] at hlt
      simp only [POINTS_PER_VBO_eq] at hlt hb hpc ⊢
      omega
    · left
      rw [if_neg hlt]
      refine ⟨st, m, rfl, hinv, Nat.le_refl _, ?_, fun h => absurd h (Nat.lt_irrefl _)⟩
      rw [hinv.total] at hlt
      simp only [POINTS_PER_VBO_eq] at hlt hb hpc ⊢
      omega
  | succ n ih =>
    unfold addLoop
    by_cases hlt : st.total_count < pc
    · rw [if_pos hlt]
      rw [hinv.total] at hlt
      have hlt2 : (m + 1) * POINTS_PER_VBO < pc := by
        simp only [POINTS_PER_VBO_eq] at hlt hb hpc ⊢
        omega
      obtain ⟨st1, hbody, hinv1⟩ := uniform_step env desc points cls m st hv hrr hcls hinv
        (by omega) (by
          simp only [POINTS_PER_VBO_eq] at hlt2 hb hpc ⊢
          omega)
      rw [hbody]
      simp only
      rcases ih (m + 1) st1 hinv1 with ⟨st2, m2, h1, h2, h3, h4, h5⟩ | ⟨h1, h2⟩
      · left
        refine ⟨st2, m2, h1, h2, by omega, h4, fun _ => ?_⟩
        by_cases hm : m + 1 < m2
        · exact h5 hm
        · have : m2 = m + 1 := by omega
          subst this
          exact hlt2
      · right
        refine ⟨h1, ?_⟩
        simp only [POINTS_PER_VBO_eq] at h2 ⊢
        omega
    · left
      rw [if_neg hlt]
      refine ⟨st, m, rfl, hinv, Nat.le_refl _, ?_, fun h => absurd h (Nat.lt_irrefl _)⟩
      rw [hinv.total] at hlt
      simp only [POINTS_PER_VBO_eq] at hlt hb hpc ⊢
      omega

/-- With an empty table the second loop of `PointsRenderer::add` returns as soon as the
generator yields a non-zero value. -/
theorem genId_ok_empty (env : Env) (fuel id drawn : Nat)
    (h : id ≠ 0 ∨ ∃ i, drawn ≤ i ∧ i < drawn + fuel ∧ env.id_gen_ i % UINT32_MOD ≠ 0) :
    ∃ id1 drawn1, genId env [] fuel id drawn = .ok (id1, drawn1) := by
  induction fuel generalizing id drawn with
  | zero =>
    unfold genId
    rcases h with h | ⟨i, h1, h2, _⟩
    · exact ⟨id, drawn, by simp [findPoints, h]⟩
    · omega
  | succ n ih =>
    unfold genId
    by_cases hid : id = 0
    · subst hid
      simp only [true_or, if_true]
      apply ih
      rcases h with h | ⟨i, h1, h2, h3⟩
      · exact absurd rfl h
      · by_cases hi : i = drawn
        · subst hi
          exact Or.inl h3
        · exact Or.inr ⟨i, by omega, by omega, h3⟩
    · exact ⟨id, drawn, by simp [findPoints, hid]⟩

/-- The point counts of the slabs of the batch's classification, read off the invariant. -/
theorem UniformInv.slabCounts_eq {env : Env} {desc : PointsRendererDesc} {points : Points}
    {cls : Bool} {m : Nat} {st : AddState} (hinv : UniformInv env desc points cls m st) :
    slabCounts st.store cls
      = POINTS_PER_VBO :: (List.range' 2 m).map
          (fun p => min POINTS_PER_VBO (points.positions.length - (p - 1) * POINTS_PER_VBO)) := by
  have hrest : ∀ p ∈ List.range' 2 m,
      ((st.store.heap p).alpha_ == cls) = true ∧
      (st.store.heap p).point_count_
        = min POINTS_PER_VBO (points.positions.length - (p - 1) * POINTS_PER_VBO) := by
    intro p hp
    simp only [List.mem_range'_1] at hp
    obtain ⟨j, rfl⟩ : ∃ j, p = j + 2 := ⟨p - 2, by omega⟩
    have hj := hinv.rest j (by omega)
    refine ⟨by simp [hj.alpha_eq], ?_⟩
    rw [hj.count_eq]
    have : j + 2 - 1 = j + 1 := by omega
    rw [this]
  have hfilter : (List.range' 2 m).filter (fun p => (st.store.heap p).alpha_ == cls)
      = List.range' 2 m :=
    List.filter_eq_self.2 (fun p hp => (hrest p hp).1)
  have hmap : (List.range' 2 m).map (fun p => (st.store.heap p).point_count_)
      = (List.range' 2 m).map
          (fun p => min POINTS_PER_VBO (points.positions.length - (p - 1) * POINTS_PER_VBO)) :=
    List.map_congr_left (fun p hp => (hrest p hp).2)
  unfold slabCounts
  rw [hinv.rends]
  have hfirst := hinv.first
  have hother := hinv.other
  cases cls with
  | false =>
    simp only [Bool.false_eq_true, if_false, Bool.not_false] at hfirst hother
    have h10 : (true == false) = false := rfl
    simp only [List.filter_cons, hfirst.alpha_eq, hother.alpha_eq, beq_self_eq_true, if_true,
      hfilter, List.map_cons, hmap, hfirst.count_eq, h10, Bool.false_eq_true, if_false]
  | true =>
    simp only [if_true, Bool.not_true] at hfirst hother
    have h01 : (false == true) = false := rfl
    simp only [List.filter_cons, hfirst.alpha_eq, hother.alpha_eq, beq_self_eq_true, if_true,
      hfilter, List.map_cons, hmap, hfirst.count_eq, h01, Bool.false_eq_true, if_false]

/-- `PointsRenderer::add` of a batch of one classification to an empty store returns when
it has enough fuel and the generator yields a non-zero value; the slabs of that
classification then hold these counts. -/
theorem uniform_add (env : Env) (desc : PointsRendererDesc) (points : Points) (cls : Bool)
    (fuel : Nat) (hv : ValidFor desc points) (hrr : ReadsInRange desc points)
    (hcls : ∀ col ∈ points.colors, skipsPoint cls col = false)
    (hN : POINTS_PER_VBO ≤ points.positions.length)
    (hb : min (points.positions.length % UINT32_MOD + POINTS_PER_VBO) points.positions.length
      < UINT32_MOD)
    (hpos : 0 < points.positions.length % UINT32_MOD)
    (hfuel : points.positions.length % UINT32_MOD ≤ fuel * POINTS_PER_VBO)
    (hgen : ∃ i, i < fuel ∧ env.id_gen_ i % UINT32_MOD ≠ 0) :
    ∃ s1 id m1, PointsRenderer.add env fuel (PointsRenderer.new env desc) points = .ok (s1, id) ∧
      slabCounts s1 cls
        = POINTS_PER_VBO :: (List.range' 2 m1).map
            (fun p =>
              min POINTS_PER_VBO (points.positions.length - (p - 1) * POINTS_PER_VBO)) ∧
      points.positions.length % UINT32_MOD
        ≤ min ((m1 + 1) * POINTS_PER_VBO) points.positions.length ∧
      (0 < m1 → m1 * POINTS_PER_VBO < points.positions.length % UINT32_MOD) := by
  obtain ⟨n, rfl⟩ : ∃ n, fuel = n + 1 := ⟨fuel - 1, by
    rcases Nat.eq_zero_or_pos fuel with h | h
    · subst h
      omega
    · omega⟩
  obtain ⟨stB, hbody, hinvB⟩ := uniform_base env desc points cls hv hrr hcls hN
  have hpcN : points.positions.length % UINT32_MOD ≤ points.positions.length :=
    Nat.mod_le _ _
  have hunfold : addLoop env points (points.positions.length % UINT32_MOD) (n + 1)
      { store := PointsRenderer.new env desc, pinfo := ⟨[]⟩, total_count := 0,
        total_opaque_count := 0, total_alpha_count := 0 }
      = addLoop env points (points.positions.length % UINT32_MOD) n stB := by
    conv => lhs; unfold addLoop
    rw [if_pos hpos, hbody]
  rcases uniform_loop env desc points cls _ hv hrr hcls hpcN hb n 0 stB hinvB with
    ⟨st1, m1, h1, h2, _, h4, h5⟩ | ⟨_, h2⟩
  · have hloop := hunfold.trans h1
    have hid : st1.store.id_gen_ = 0 := (addLoop_points env points _ _ _ st1 hloop).2
    obtain ⟨i, hi1, hi2⟩ := hgen
    obtain ⟨id1, drawn1, hg⟩ := genId_ok_empty env (n + 1) 0 0
      (Or.inr ⟨i, Nat.zero_le _, by omega, hi2⟩)
    refine ⟨{ st1.store with
              points_ := insertPoints st1.store.points_ id1 st1.pinfo
              id_gen_ := drawn1 }, id1, m1, ?_, ?_, h4, h5⟩
    · unfold PointsRenderer.add
      simp only [hloop, h2.table, hid, hg]
    · exact h2.slabCounts_eq
  · exfalso
    simp only [POINTS_PER_VBO_eq] at h2 hfuel
    omega

/-- The counts of a run of full slabs followed by the slab that takes the rest. -/
theorem fullSlabs_then_rest (N m : Nat) (hm : 0 < m) (h1 : m * POINTS_PER_VBO < N)
    (h2 : N ≤ (m + 1) * POINTS_PER_VBO) :
    POINTS_PER_VBO :: (List.range' 2 m).map
        (fun p => min POINTS_PER_VBO (N - (p - 1) * POINTS_PER_VBO))
      = List.replicate m POINTS_PER_VBO ++ [N - POINTS_PER_VBO * m] := by
  obtain ⟨k, rfl⟩ : ∃ k, m = k + 1 := ⟨m - 1, by omega⟩
  have hfull : (List.range' 2 k).map
      (fun p => min POINTS_PER_VBO (N - (p - 1) * POINTS_PER_VBO))
      = List.replicate k POINTS_PER_VBO := by
    rw [List.eq_replicate_iff]
    refine ⟨by simp, ?_⟩
    intro b hb
    simp only [List.mem_map, List.mem_range'_1] at hb
    obtain ⟨p, ⟨hp1, hp2⟩, rfl⟩ := hb
    simp only [POINTS_PER_VBO_eq] at h1 h2 ⊢
    omega
  have hlast : min POINTS_PER_VBO (N - (2 + k - 1) * POINTS_PER_VBO)
      = N - POINTS_PER_VBO * (k + 1) := by
    have : 2 + k - 1 = k + 1 := by omega
    rw [this]
    simp only [POINTS_PER_VBO_eq] at h1 h2 ⊢
    omega
  rw [List.range'_1_concat, List.map_append, hfull, List.map_cons, List.map_nil, hlast,
    List.replicate_succ, List.cons_append]

theorem uniformBatch_length (n : Nat) (col : ColorRGBA) :
    (uniformBatch n col).positions.length = n :=
  List.length_replicate n _

theorem uniformBatch_validFor (desc : PointsRendererDesc) (n : Nat) (col : ColorRGBA)
    (hn : desc.has_normals = false) (ho : desc.has_orientations = false) :
    ValidFor desc (uniformBatch n col) := by
  unfold ValidFor uniformBatch
  simp [hn, ho]

/-- C10, as amended: starting from an empty store, for every batch of `N` points of one
classification with `POINTS_PER_VBO < N < 2^32` that passes the length assertions and
whose orientations, when the descriptor has them and the sequence is not empty, are at
least as many as the positions, `PointsRenderer::add` returns (given
enough fuel and a generator that yields a non-zero value) and leaves exactly
`ceil (N / POINTS_PER_VBO)` slabs of that classification in `renderables_`; in list order
all but the last hold `POINTS_PER_VBO` points and the last holds the rest. -/
theorem C10_uniform_batch_fills_slabs (env : Env) (desc : PointsRendererDesc)
    (points : Points) (cls : Bool) (fuel : Nat) (hv : ValidFor desc points)
    (hrr : ReadsInRange desc points)
    (hcls : ∀ col ∈ points.colors, skipsPoint cls col = false)
    (hN : POINTS_PER_VBO < points.positions.length)
    (hN32 : points.positions.length < UINT32_MOD)
    (hfuel : points.positions.length ≤ fuel * POINTS_PER_VBO)
    (hgen : ∃ i, i < fuel ∧ env.id_gen_ i % UINT32_MOD ≠ 0) :
    ∃ s1 id, PointsRenderer.add env fuel (PointsRenderer.new env desc) points = .ok (s1, id) ∧
      (slabCounts s1 cls).length
        = (points.positions.length + POINTS_PER_VBO - 1) / POINTS_PER_VBO ∧
      slabCounts s1 cls
        = List.replicate
            ((points.positions.length + POINTS_PER_VBO - 1) / POINTS_PER_VBO - 1)
            POINTS_PER_VBO
          ++ [points.positions.length
              - POINTS_PER_VBO
                * ((points.positions.length + POINTS_PER_VBO - 1) / POINTS_PER_VBO - 1)] := by
  have hmod : points.positions.length % UINT32_MOD = points.positions.length :=
    Nat.mod_eq_of_lt hN32
  obtain ⟨s1, id, m1, hadd, hcounts, h4, h5⟩ := uniform_add env desc points cls fuel hv hrr hcls
    (by omega) (by rw [hmod]; omega) (by rw [hmod]; omega) (by rw [hmod]; exact hfuel) hgen
  rw [hmod] at h4 h5
  have hm1 : 0 < m1 := by
    rcases Nat.eq_zero_or_pos m1 with h | h
    · subst h
      simp only [POINTS_PER_VBO_eq] at h4 hN
      omega
    · exact h
  have hlow := h5 hm1
  have hK : (points.positions.length + POINTS_PER_VBO - 1) / POINTS_PER_VBO - 1 = m1 := by
    simp only [POINTS_PER_VBO_eq] at h4 hlow ⊢
    omega
  have hlist := fullSlabs_then_rest points.positions.length m1 hm1 hlow (by omega)
  refine ⟨s1, id, hadd, ?_, ?_⟩
  · rw [hcounts, hlist]
    simp only [List.length_append, List.length_replicate, List.length_singleton]
    simp only [POINTS_PER_VBO_eq] at h4 hlow ⊢
    omega
  · rw [hcounts, hlist, hK]

theorem C10_uniform_batch_fills_slabs_witness :
    ∃ s1 id, PointsRenderer.add exampleEnv 2 (PointsRenderer.new exampleEnv exampleDesc)
        (uniformBatch 8200 translucentRed) = .ok (s1, id) ∧
      (slabCounts s1 true).length
        = ((uniformBatch 8200 translucentRed).positions.length + POINTS_PER_VBO - 1)
            / POINTS_PER_VBO ∧
      slabCounts s1 true
        = List.replicate
            (((uniformBatch 8200 translucentRed).positions.length + POINTS_PER_VBO - 1)
              / POINTS_PER_VBO - 1)
            POINTS_PER_VBO
          ++ [(uniformBatch 8200 translucentRed).positions.length
              - POINTS_PER_VBO
                * (((uniformBatch 8200 translucentRed).positions.length + POINTS_PER_VBO - 1)
                    / POINTS_PER_VBO - 1)] :=
  C10_uniform_batch_fills_slabs exampleEnv exampleDesc (uniformBatch 8200 translucentRed)
    true 2 (uniformBatch_validFor _ _ _ rfl rfl) (fun h => absurd h (by decide))
    (by
      intro col hcol
      simp only [uniformBatch, List.mem_replicate] at hcol
      rw [hcol.2]
      exact skipsPoint_translucentRed)
    (by rw [uniformBatch_length]; decide)
    (by rw [uniformBatch_length]; decide)
    (by rw [uniformBatch_length]; decide)
    ⟨0, by decide, by decide⟩

/-- C10 as stated fails for a batch of `2^32 + 1` opaque points: `point_count` is the
`uint32_t` value 1, the loop stops after one iteration, and a single opaque slab of
`POINTS_PER_VBO` points is left where the claim asks for 524289 slabs. -/
theorem C10_counterexample_count_truncated :
    ∃ s1 id, PointsRenderer.add exampleEnv 1 emptyStore (uniformBatch 4294967297 opaqueWhite)
        = .ok (s1, id) ∧
      slabCounts s1 false = [POINTS_PER_VBO] ∧
      ((uniformBatch 4294967297 opaqueWhite).positions.length + POINTS_PER_VBO - 1)
        / POINTS_PER_VBO = 524289 := by
  have hlen : (uniformBatch 4294967297 opaqueWhite).positions.length = 4294967297 :=
    uniformBatch_length _ _
  obtain ⟨s1, id, m1, hadd, hcounts, h4, h5⟩ := uniform_add exampleEnv exampleDesc
    (uniformBatch 4294967297 opaqueWhite) false 1 (uniformBatch_validFor _ _ _ rfl rfl)
    (fun h => absurd h (by decide))
    (by
      intro col hcol
      simp only [uniformBatch, List.mem_replicate] at hcol
      rw [hcol.2]
      exact skipsPoint_opaqueWhite)
    (by rw [hlen]; decide) (by rw [hlen]; decide) (by rw [hlen]; decide)
    (by rw [hlen]; decide) ⟨0, by decide, by decide⟩
  rw [hlen] at h5
  have hm1 : m1 = 0 := by
    rcases Nat.eq_zero_or_pos m1 with h | h
    · exact h
    · have := h5 h
      simp only [POINTS_PER_VBO_eq, UINT32_MOD_eq] at this
      omega
  subst hm1
  refine ⟨s1, id, hadd, ?_, ?_⟩
  · rw [hcounts]
    rfl
  · rw [hlen]
    decide

theorem observe_eq_some {α β : Type} (f : α → β) (x : Except Fault α) (b : β)
    (h : observe f x = some b) : ∃ a, x = .ok a ∧ f a = b := by
  cases x with
  | error e => simp [observe] at h
  | ok a =>
    simp only [observe, Option.some.injEq] at h
    exact ⟨a, rfl, h⟩

theorem okOr_eq {α : Type} (d : α) (x : Except Fault α)
    (h : observe (fun _ => true) x = some true) : x = .ok (okOr d x) := by
  cases x with
  | error e => simp [observe] at h
  | ok a => rfl

/-- C1 (the code departs from it): `PointsRenderer::add` of one alpha point followed by
8193 opaque points to the empty store returns, and the allocations recorded under the
returned id hold 8194 opaque points and 1 alpha point, 8195 in all, although the batch
has 8194 points of which 8193 are opaque. -/
theorem C1_add_places_a_point_twice :
    ∃ s1 id,
      PointsRenderer.add exampleEnv 3 emptyStore batchAlphaThenOpaque = .ok (s1, id) ∧
      opaqueTotal s1 id = 8194 ∧ alphaTotal s1 id = 1 ∧
      batchAlphaThenOpaque.positions.length = 8194 ∧
      batchAlphaThenOpaque.colors.countP (fun col => decide (¬ col.a < 99 / 100)) = 8193 ∧
      batchAlphaThenOpaque.colors.countP (fun col => decide (col.a < 99 / 100)) = 1 := by
  have h : observe (fun v : PointsRenderer × Nat => (opaqueTotal v.1 v.2, alphaTotal v.1 v.2))
      (PointsRenderer.add exampleEnv 3 emptyStore batchAlphaThenOpaque)
      = some (8194, 1) := by decide!
  obtain ⟨⟨s1, id⟩, hx, hf⟩ := observe_eq_some _ _ _ h
  simp only [Prod.mk.injEq] at hf
  exact ⟨s1, id, hx, hf.1, hf.2, by decide!, by decide!, by decide!⟩

theorem slabCheck_iff (r : PointsRenderable) (alpha : Bool) (count : Nat) :
    slabCheck r alpha count = true ↔ SlabOf exampleEnv exampleDesc r alpha count := by
  simp only [slabCheck, Bool.and_eq_true, decide_eq_true_eq]
  constructor
  · rintro ⟨⟨⟨⟨⟨h1, h2⟩, h3⟩, h4⟩, h5⟩, h6⟩
    exact ⟨h1, h2, h3, h4, h5, h6⟩
  · rintro ⟨h1, h2, h3, h4, h5, h6⟩
    exact ⟨⟨⟨⟨⟨h1, h2⟩, h3⟩, h4⟩, h5⟩, h6⟩

theorem stuckInv_of_check (st : AddState) (h : stuckCheck st = true) : StuckInv st := by
  simp only [stuckCheck, Bool.and_eq_true, decide_eq_true_eq, slabCheck_iff] at h
  obtain ⟨⟨⟨⟨⟨⟨⟨h1, h2⟩, h3⟩, h4⟩, h5⟩, h6⟩, h7⟩, h8⟩ := h
  exact ⟨h1, h2, h3, h4, h5, h6, h7, h8⟩

/-- What `PointsRenderable::add` accepts depends on the slab only through its cursor and
its classification. -/
theorem PointsRenderable.accepted_congr (r r1 : PointsRenderable) (points : Points)
    (start : Nat) (h1 : r.outStart = r1.outStart) (h2 : r.alpha_ = r1.alpha_) :
    r.accepted points start = r1.accepted points start := by
  unfold PointsRenderable.accepted PointsRenderable.addWindow PointsRenderable.addEnd
  rw [h1, h2]

theorem batchAlphaFullThenOpaque_length :
    batchAlphaFullThenOpaque.positions.length = 8193 :=
  List.length_replicate _ _

theorem batchAlphaFullThenOpaque_colors_length :
    batchAlphaFullThenOpaque.colors.length = 8193 := by
  show (List.replicate 8192 translucentRed ++ [opaqueWhite]).length = 8193
  rw [List.length_append, List.length_replicate]
  rfl

theorem addLoop_zero_of_lt (env : Env) (points : Points) (pc : Nat) (st : AddState)
    (h : st.total_count < pc) : addLoop env points pc 0 st = .error Fault.fuel := by
  unfold addLoop
  rw [if_pos h]

theorem addLoop_succ_of_ok (env : Env) (points : Points) (pc fuel : Nat) (st st1 : AddState)
    (h : st.total_count < pc) (hbody : addBody env points st = .ok st1) :
    addLoop env points pc (fuel + 1) st = addLoop env points pc fuel st1 := by
  conv => lhs; unfold addLoop
  rw [if_pos h, hbody]

/-- What `PointsRenderable::add` accepts, in terms of the colours alone. -/
theorem PointsRenderable.accepted_eq_countP_colors (r : PointsRenderable) (points : Points)
    (start : Nat) (hlen : points.positions.length = points.colors.length) :
    r.accepted points start
      = ((points.colors.drop start).take (r.addEnd points start - r.outStart)).countP
          (fun col => !skipsPoint r.alpha_ col) := by
  unfold PointsRenderable.accepted PointsRenderable.addWindow
  have hsnd : (points.positions.zip points.colors).map Prod.snd = points.colors :=
    List.map_snd_zip _ _ (by omega)
  have hcomp : (fun pc : Vector3 × ColorRGBA => !skipsPoint r.alpha_ pc.2)
      = (fun col => !skipsPoint r.alpha_ col) ∘ Prod.snd := rfl
  rw [hcomp, ← List.countP_map, List.map_take, List.map_drop, hsnd]

/-- An empty opaque slab accepts nothing from the head of `batchAlphaFullThenOpaque`. -/
theorem accepted_head_by_opaque (r : PointsRenderable)
    (h : SlabOf exampleEnv exampleDesc r false 0) :
    r.accepted batchAlphaFullThenOpaque 0 = 0 := by
  have hout : r.outStart = 0 := h.outStart_eq (by decide)
  have hn : r.addEnd batchAlphaFullThenOpaque 0 - r.outStart = 8192 := by
    unfold PointsRenderable.addEnd
    rw [hout, batchAlphaFullThenOpaque_length]
    rfl
  rw [r.accepted_eq_countP_colors _ 0
    (by rw [batchAlphaFullThenOpaque_length, batchAlphaFullThenOpaque_colors_length]), hn,
    h.alpha_eq]
  show ((List.replicate 8192 translucentRed ++ [opaqueWhite]).drop 0 |>.take 8192).countP _ = 0
  rw [List.drop_zero, List.take_left' (List.length_replicate _ _), List.countP_replicate]
  have : skipsPoint false translucentRed = true := by with_unfolding_all rfl
  simp [this]

/-- An empty alpha slab accepts nothing from the tail of `batchAlphaFullThenOpaque`. -/
theorem accepted_tail_by_alpha (r : PointsRenderable)
    (h : SlabOf exampleEnv exampleDesc r true 0) :
    r.accepted batchAlphaFullThenOpaque 8192 = 0 := by
  have hout : r.outStart = 0 := h.outStart_eq (by decide)
  have hn : r.addEnd batchAlphaFullThenOpaque 8192 - r.outStart = 1 := by
    unfold PointsRenderable.addEnd
    rw [hout, batchAlphaFullThenOpaque_length]
    rfl
  rw [r.accepted_eq_countP_colors _ 8192
    (by rw [batchAlphaFullThenOpaque_length, batchAlphaFullThenOpaque_colors_length]), hn,
    h.alpha_eq]
  show ((List.replicate 8192 translucentRed ++ [opaqueWhite]).drop 8192 |>.take 1).countP _ = 0
  rw [List.drop_left' (List.length_replicate _ _)]
  have : skipsPoint true opaqueWhite = true := by with_unfolding_all rfl
  simp [this]

/-- In the state `StuckInv` an iteration of the first loop of `PointsRenderer::add` on
`batchAlphaFullThenOpaque` accepts no point and leaves the state in `StuckInv`. -/
theorem stuck_step (st : AddState) (hinv : StuckInv st) :
    ∃ st1, addBody exampleEnv batchAlphaFullThenOpaque st = .ok st1 ∧ StuckInv st1 := by
  have h0 := hinv.slab0
  have h1 := hinv.slab1
  have h2 := hinv.slab2
  have hlen := batchAlphaFullThenOpaque_length
  have hv : ValidFor exampleDesc batchAlphaFullThenOpaque :=
    ⟨by rw [hlen, batchAlphaFullThenOpaque_colors_length], fun h => absurd h (by decide),
      fun h => absurd h (by decide)⟩
  have hsome0 : st.store.renderables_.find?
      (fun p => !(st.store.heap p).isFull && (false == (st.store.heap p).isAlpha))
      = some 0 := by
    rw [hinv.rends]
    simp [List.find?_cons, PointsRenderable.isAlpha, h0.alpha_eq, h0.isFull_eq,
      POINTS_PER_VBO_eq]
  have g1 := getOrCreateRenderable_of_some exampleEnv st.store false 0 hsome0
  have hacc0 : (st.store.heap 0).accepted batchAlphaFullThenOpaque st.total_opaque_count
      = 0 := by
    rw [hinv.total_opaque]
    exact accepted_head_by_opaque _ h0
  have hadded0 := h0.added batchAlphaFullThenOpaque st.total_opaque_count 0 hacc0 (by omega)
  rw [Nat.zero_add] at hadded0
  have hsome2 : st.store.renderables_.find?
      (fun p =>
        !(heapSet st.store.heap 0 ((st.store.heap 0).added exampleEnv
            batchAlphaFullThenOpaque st.total_opaque_count) p).isFull &&
        (true == (heapSet st.store.heap 0 ((st.store.heap 0).added exampleEnv
            batchAlphaFullThenOpaque st.total_opaque_count) p).isAlpha)) = some 2 := by
    rw [hinv.rends]
    simp only [List.find?_cons]
    rw [heapSet_same, heapSet_other _ _ 1 _ (by omega), heapSet_other _ _ 2 _ (by omega)]
    simp [PointsRenderable.isAlpha, hadded0.alpha_eq, h1.alpha_eq, h1.isFull_eq, h2.alpha_eq,
      h2.isFull_eq, POINTS_PER_VBO_eq]
  have g2 := getOrCreateRenderable_of_some exampleEnv
    { st.store with
      heap := heapSet st.store.heap 0 ((st.store.heap 0).added exampleEnv
        batchAlphaFullThenOpaque st.total_opaque_count) } true 2 hsome2
  have hacc2 : (st.store.heap 2).accepted batchAlphaFullThenOpaque st.total_alpha_count
      = 0 := by
    rw [hinv.total_alpha]
    exact accepted_tail_by_alpha _ h2
  have hadded2 := h2.added batchAlphaFullThenOpaque st.total_alpha_count 0 hacc2 (by omega)
  rw [Nat.zero_add] at hadded2
  have h2eq : heapSet st.store.heap 0 ((st.store.heap 0).added exampleEnv
      batchAlphaFullThenOpaque st.total_opaque_count) 2 = st.store.heap 2 :=
    heapSet_other _ _ 2 _ (by omega)
  have hbody := addBody_ok exampleEnv batchAlphaFullThenOpaque st exampleDesc st.store 0 _ 2
    hv (fun h => absurd h (by decide)) g1 h0.desc_eq (by rw [hinv.total_opaque]; exact Nat.zero_le _) g2
    (by simp only [h2eq]; exact h2.desc_eq)
    (by rw [hinv.total_alpha, hlen]; decide)
  refine ⟨_, hbody, ?_⟩
  refine
    { desc_eq := hinv.desc_eq
      rends := hinv.rends
      slab0 := ?_
      slab1 := ?_
      slab2 := ?_
      total_opaque := ?_
      total_alpha := ?_
      total := ?_ }
  · simp only [iterationResult]
    rw [heapSet_other _ _ 0 _ (by omega), heapSet_same]
    exact hadded0
  · simp only [iterationResult]
    rw [heapSet_other _ _ 1 _ (by omega), heapSet_other _ _ 1 _ (by omega)]
    exact h1
  · simp only [iterationResult, heapSet_same, h2eq]
    exact hadded2
  · simp only [iterationResult, hacc0]
    rw [hinv.total_opaque]
    rfl
  · simp only [iterationResult, h2eq, hacc2]
    rw [hinv.total_alpha]
    rfl
  · simp only [iterationResult, h2eq, hacc2, hacc0]
    rw [hinv.total_alpha, hinv.total_opaque]
    rfl

theorem stuck_loop (fuel : Nat) (st : AddState) (hinv : StuckInv st) :
    addLoop exampleEnv batchAlphaFullThenOpaque 8193 fuel st = .error Fault.fuel := by
  have hlt : st.total_count < 8193 := by
    rw [hinv.total]
    decide
  induction fuel generalizing st with
  | zero => exact addLoop_zero_of_lt _ _ _ _ hlt
  | succ n ih =>
    obtain ⟨st1, hbody, hinv1⟩ := stuck_step st hinv
    rw [addLoop_succ_of_ok _ _ _ _ _ _ hlt hbody]
    exact ih st1 hinv1 (by rw [hinv1.total]; decide)

/-- C3 (the code departs from it): on the empty store and the batch of 8192 alpha points
followed by one opaque point (all attribute sequences of equal length),
`PointsRenderer::add` does not terminate: whatever the fuel, its first loop is still
running when the fuel is spent.  From the second iteration on no point is consumed. -/
theorem C3_add_diverges :
    batchAlphaFullThenOpaque.positions.length = batchAlphaFullThenOpaque.colors.length ∧
    ∀ fuel : Nat,
      PointsRenderer.add exampleEnv fuel emptyStore batchAlphaFullThenOpaque
        = .error Fault.fuel := by
  have hlen := batchAlphaFullThenOpaque_length
  refine ⟨by rw [hlen, batchAlphaFullThenOpaque_colors_length], ?_⟩
  have hrun :
      observe (fun _ => true) (addBody exampleEnv batchAlphaFullThenOpaque entryState)
        = some true ∧
      observe (fun _ => true) (addBody exampleEnv batchAlphaFullThenOpaque stateAfterFirst)
        = some true ∧
      stateAfterFirst.total_count < 8193 ∧ stuckCheck stateAfterSecond = true := by
    decide!
  have hb1 : addBody exampleEnv batchAlphaFullThenOpaque entryState = .ok stateAfterFirst :=
    okOr_eq _ _ hrun.1
  have hb2 : addBody exampleEnv batchAlphaFullThenOpaque stateAfterFirst
      = .ok stateAfterSecond := okOr_eq _ _ hrun.2.1
  have ht1 : stateAfterFirst.total_count < 8193 := hrun.2.2.1
  have hstuck : StuckInv stateAfterSecond := stuckInv_of_check _ hrun.2.2.2
  have hpc : batchAlphaFullThenOpaque.positions.length % UINT32_MOD = 8193 := by
    rw [hlen]
    decide
  intro fuel
  unfold PointsRenderer.add
  simp only [hpc]
  have hloop : addLoop exampleEnv batchAlphaFullThenOpaque 8193 fuel entryState
      = .error Fault.fuel := by
    have h0 : entryState.total_count < 8193 := by decide
    match fuel with
    | 0 => exact addLoop_zero_of_lt _ _ _ _ h0
    | 1 =>
      rw [addLoop_succ_of_ok _ _ _ _ _ _ h0 hb1]
      exact addLoop_zero_of_lt _ _ _ _ ht1
    | n + 2 =>
      rw [addLoop_succ_of_ok _ _ _ _ _ _ h0 hb1, addLoop_succ_of_ok _ _ _ _ _ _ ht1 hb2]
      exact stuck_loop n stateAfterSecond hstuck
  unfold entryState at hloop
  rw [hloop]

/-- The example of the specification: three points with alpha 1.0, 0.3, 1.0 added to the
empty store are recorded as 2 opaque points and 1 alpha point. -/
theorem add_threeMixed_counts :
    PointsRenderer.add exampleEnv 1 emptyStore threeMixed = .ok (storeAfterOneAdd, 1) ∧
    opaqueTotal storeAfterOneAdd 1 = 2 ∧ alphaTotal storeAfterOneAdd 1 = 1 :=
  ⟨by with_unfolding_all rfl, by decide!, by decide!⟩

/-! ## Classification, slab lookup and vertex counts -/

/-- Whether a slab accepts a point that its loop visits depends on the colour alpha only:
the alpha test reads no other field, an alpha slab accepts the point iff `a < 0.99`, an
opaque slab iff `a ≥ 0.99`, whatever the position, the other channels and the loop state;
alpha 0.999 is opaque and alpha 0.5 is alpha-blended.  Which points the loop visits is
another matter: it depends on the index in the batch. -/
theorem skipsPoint_by_alpha_only :
    (∀ (alpha : Bool) (col col1 : ColorRGBA), col.a = col1.a →
      skipsPoint alpha col = skipsPoint alpha col1) ∧
    (∀ (env : Env) (r : PointsRenderable) (points : Points) (ofn : Bool) (V : Nat)
        (p : Vector3) (col : ColorRGBA) (c : AddCursor),
      (r.alpha_ = true →
        ((addPoints env r points ofn V [(p, col)] c).out_count = c.out_count + 1
          ↔ col.a < 99 / 100) ∧
        ((addPoints env r points ofn V [(p, col)] c).out_count = c.out_count
          ↔ 99 / 100 ≤ col.a)) ∧
      (r.alpha_ = false →
        ((addPoints env r points ofn V [(p, col)] c).out_count = c.out_count + 1
          ↔ 99 / 100 ≤ col.a) ∧
        ((addPoints env r points ofn V [(p, col)] c).out_count = c.out_count
          ↔ col.a < 99 / 100))) ∧
    skipsPoint false ⟨0, 0, 0, 999 / 1000⟩ = false ∧
    skipsPoint true ⟨0, 0, 0, 999 / 1000⟩ = true ∧
    skipsPoint true ⟨0, 0, 0, 1 / 2⟩ = false ∧
    skipsPoint false ⟨0, 0, 0, 1 / 2⟩ = true := by
  refine ⟨?_, ?_, by with_unfolding_all rfl, by with_unfolding_all rfl,
    by with_unfolding_all rfl, by with_unfolding_all rfl⟩
  · intro alpha col col1 h
    unfold skipsPoint
    rw [h]
  · intro env r points ofn V p col c
    rw [addPoints_out_count]
    by_cases ha : col.a < 99 / 100
    · have hnot : ¬ (99 / 100 ≤ col.a) := not_le.2 ha
      constructor
      · intro hr
        simp [skipsPoint, hr, ha, hnot]
      · intro hr
        simp [skipsPoint, hr, ha, hnot]
    · have hle : 99 / 100 ≤ col.a := not_lt.1 ha
      constructor
      · intro hr
        simp [skipsPoint, hr, ha, hle]
      · intro hr
        simp [skipsPoint, hr, ha, hle]

set_option maxHeartbeats 4000000 in
/-- C18 (the code departs from it): whether an opaque slab accepts a point depends on the
index of the point in the batch.  `PointsRenderer::add` of one alpha point followed by
8192 opaque points to the empty store returns the id 1 with two allocations on the opaque
slab 0, of 8191 points and of 1 point.  The four calls of `PointsRenderable::add` (opaque
slab, alpha slab, opaque slab, alpha slab) accept 8191, 1, 1 and 0 points: the input of
index 8191 is accepted by both calls on the opaque slab, and the input of index 8192,
whose alpha 1.0 passes the alpha test of an opaque slab, by no call. -/
theorem C18_opaque_point_accepted_by_no_slab :
    batchMarked.positions.length = 8193 ∧ batchMarked.colors.length = 8193 ∧
    (batchMarked.positions.zip batchMarked.colors)[8191]?
      = some (⟨8191, 0, 0⟩, opaqueBlue) ∧
    (batchMarked.positions.zip batchMarked.colors)[8192]?
      = some (⟨8192, 0, 0⟩, opaqueGreen) ∧
    (batchMarked.positions.zip batchMarked.colors).count (⟨8191, 0, 0⟩, opaqueBlue) = 1 ∧
    (batchMarked.positions.zip batchMarked.colors).count (⟨8192, 0, 0⟩, opaqueGreen) = 1 ∧
    skipsPoint false opaqueBlue = false ∧ skipsPoint false opaqueGreen = false ∧
    observe (fun v : PointsRenderer × Nat => (v.2, findPoints v.1.points_ v.2))
        (PointsRenderer.add exampleEnv 2 emptyStore batchMarked)
      = some (1, some ⟨[⟨0, 0, 8191, 1, 0, 1⟩, ⟨0, 8191, 1, 1, 1, 0⟩]⟩) ∧
    (PointsRenderer.addAccepted exampleEnv 2 emptyStore batchMarked).map
        (fun l => (l.length, l.count (⟨8191, 0, 0⟩, opaqueBlue),
          l.count (⟨8192, 0, 0⟩, opaqueGreen)))
      = [(8191, 1, 0), (1, 0, 0), (1, 1, 0), (0, 0, 0)] := by
  decide!

/-- C19: `getOrCreateRenderable(alpha)` returns the first slab of `renderables_`, in list
order, for which `isFull()` is false and `isAlpha()` equals `alpha`, and then leaves the
store as it is; when the list has no such slab it appends exactly one pointer, to a new
slab of that classification with cursor 0 and no points, and returns it. -/
theorem C19_getOrCreateRenderable_first_fit (env : Env) (s : PointsRenderer) (alpha : Bool) :
    (∃ front p back,
      s.renderables_ = front ++ p :: back ∧
      (∀ q ∈ front, ¬ ((s.heap q).isFull = false ∧ (s.heap q).isAlpha = alpha)) ∧
      (s.heap p).isFull = false ∧ (s.heap p).isAlpha = alpha ∧
      s.getOrCreateRenderable env alpha = (s, p)) ∨
    ((∀ q ∈ s.renderables_, ¬ ((s.heap q).isFull = false ∧ (s.heap q).isAlpha = alpha)) ∧
      (s.getOrCreateRenderable env alpha).2 = s.heap_size ∧
      (s.getOrCreateRenderable env alpha).1.renderables_ = s.renderables_ ++ [s.heap_size] ∧
      ((s.getOrCreateRenderable env alpha).1.heap s.heap_size).isAlpha = alpha ∧
      ((s.getOrCreateRenderable env alpha).1.heap s.heap_size).outStart = 0 ∧
      ((s.getOrCreateRenderable env alpha).1.heap s.heap_size).point_count_ = 0 ∧
      (∀ q, q ≠ s.heap_size → (s.getOrCreateRenderable env alpha).1.heap q = s.heap q) ∧
      (s.getOrCreateRenderable env alpha).1.points_ = s.points_ ∧
      (s.getOrCreateRenderable env alpha).1.bounding_box_ = s.bounding_box_) := by
  cases hfind : s.renderables_.find?
      (fun p => !(s.heap p).isFull && (alpha == (s.heap p).isAlpha)) with
  | some p =>
    left
    obtain ⟨hp, front, back, hl, hfront⟩ := List.find?_eq_some.1 hfind
    refine ⟨front, p, back, hl, ?_, ?_, ?_, getOrCreateRenderable_of_some env s alpha p hfind⟩
    · intro q hq hcon
      have := hfront q hq
      simp [hcon.1, hcon.2] at this
    · simp only [Bool.and_eq_true, Bool.not_eq_true', beq_iff_eq] at hp
      exact hp.1
    · simp only [Bool.and_eq_true, Bool.not_eq_true', beq_iff_eq] at hp
      exact hp.2.symm
  | none =>
    right
    have hnone := List.find?_eq_none.1 hfind
    have hall : ∀ q ∈ s.renderables_,
        (!(s.heap q).isFull && (alpha == (s.heap q).isAlpha)) = false := by
      intro q hq
      simpa using hnone q hq
    rw [getOrCreateRenderable_of_none env s alpha hall]
    refine ⟨?_, rfl, rfl, ?_, ?_, ?_, ?_, rfl, rfl⟩
    · intro q hq hcon
      have := hall q hq
      simp [hcon.1, hcon.2] at this
    · simp only [heapSet_same]
      rfl
    · simp only [heapSet_same]
      unfold PointsRenderable.outStart
      simp [PointsRenderable.new]
    · simp only [heapSet_same]
      rfl
    · intro q hq
      exact heapSet_other _ _ q _ hq

/-- C16, as amended: a slab built for a render configuration has `specVerticesPerPoint`
vertices per point (1 for points, 6 for billboards and billboard spheres, 36 for boxes)
when the renderer has no geometry programs, and 1 vertex per point for every primitive
kind when it has. -/
theorem C16_vertices_per_point (env : Env) (desc : PointsRendererDesc) (alpha : Bool) :
    (PointsRenderable.new env desc alpha).getVerticesPerPoint
      = if env.useGeometryShaders = true then 1 else specVerticesPerPoint desc.type := by
  unfold PointsRenderable.getVerticesPerPoint verticesPerPoint
  cases hg : env.useGeometryShaders <;> cases ht : desc.type <;>
    simp [PointsRenderable.new, hg, ht, specVerticesPerPoint]

/-- C16 as stated fails: with geometry programs a slab for boxes has 1 vertex per point,
not 36. -/
theorem C16_counterexample_geometry_programs :
    (PointsRenderable.new geometryEnv boxDesc false).getVerticesPerPoint = 1 ∧
    specVerticesPerPoint boxDesc.type = 36 := by
  decide

/-! ## Slab counters -/

/-- A call of `PointsRenderable::add` that returns has passed the assertions, and its
results are `added`, `outStart` and `accepted`. -/
theorem PointsRenderable.add_eq_ok (env : Env) (r : PointsRenderable) (points : Points)
    (start : Nat) (x : PointsRenderable × Nat × Nat) (h : r.add env points start = .ok x) :
    r.addPre points start ∧
    x = (r.added env points start, r.outStart, r.accepted points start) := by
  have hpre : r.addPre points start := by
    unfold PointsRenderable.add at h
    split at h
    · exact absurd h (by simp)
    · split at h
      · exact absurd h (by simp)
      · split at h
        · exact absurd h (by simp)
        · split at h
          · exact absurd h (by simp)
          · split at h
            · exact absurd h (by simp)
            · rename_i h1 h2 h3 h4 h5
              refine ⟨by simpa using h1, ?_, ?_, by omega, by simpa using h5⟩
              · intro ho
                by_contra hcon
                exact h2 ⟨ho, hcon⟩
              · intro hn
                by_contra hcon
                exact h3 ⟨hn, hcon⟩
  refine ⟨hpre, ?_⟩
  rw [r.add_ok env points start hpre] at h
  injection h with h
  exact h.symm

/-- A call of `PointsRenderable::remove` that returns has passed the assertions, and its
result is `removed`. -/
theorem PointsRenderable.remove_eq_ok (r r1 : PointsRenderable) (start count : Nat)
    (h : r.remove start count = .ok r1) :
    count ≤ r.point_count_ ∧ (start + count) % UINT32_MOD < POINTS_PER_VBO ∧
    r1 = r.removed start count := by
  have h12 : count ≤ r.point_count_ ∧ (start + count) % UINT32_MOD < POINTS_PER_VBO := by
    unfold PointsRenderable.remove at h
    split at h
    · exact absurd h (by simp)
    · split at h
      · exact absurd h (by simp)
      · rename_i h1 h2
        exact ⟨by omega, by omega⟩
  refine ⟨h12.1, h12.2, ?_⟩
  rw [r.remove_ok start count h12.1 h12.2] at h
  injection h with h
  exact h.symm

/-- `PointsRenderable::add` accepts no more points than fit between the cursor and the
local `end`. -/
theorem PointsRenderable.accepted_le (r : PointsRenderable) (points : Points) (start : Nat) :
    r.accepted points start ≤ r.addEnd points start - r.outStart := by
  unfold PointsRenderable.accepted PointsRenderable.addWindow
  exact (List.countP_le_length _).trans (by simp [List.length_take])

theorem PointsRenderable.addEnd_le (r : PointsRenderable) (points : Points) (start : Nat) :
    r.addEnd points start ≤ POINTS_PER_VBO := by
  unfold PointsRenderable.addEnd
  exact Nat.min_le_left _ _

/-- C20: in every state of a slab reached from its construction by calls of
`PointsRenderable::add` and `PointsRenderable::remove` that return,
`0 ≤ point_count_ ≤ cursor ≤ POINTS_PER_VBO`; a further `add` does not decrease the cursor
and a further `remove` leaves it as it is. -/
theorem C20_slab_counters_ordered (env : Env) (desc : PointsRendererDesc) (alpha : Bool)
    (r : PointsRenderable) (h : SlabReachable env desc alpha r) :
    0 ≤ r.point_count_ ∧ r.point_count_ ≤ r.outStart ∧ r.outStart ≤ POINTS_PER_VBO ∧
    (∀ (points : Points) (start : Nat) (r1 : PointsRenderable) (out_start out_count : Nat),
      r.add env points start = .ok (r1, out_start, out_count) →
      r.outStart ≤ r1.outStart) ∧
    (∀ (start count : Nat) (r1 : PointsRenderable),
      r.remove start count = .ok r1 → r1.outStart = r.outStart) := by
  have hinv : r.point_count_ ≤ r.outStart ∧ r.outStart ≤ POINTS_PER_VBO := by
    induction h with
    | new =>
      have h0 : (PointsRenderable.new env desc alpha).outStart = 0 := by
        unfold PointsRenderable.outStart
        simp [PointsRenderable.new]
      rw [h0]
      exact ⟨Nat.le_refl 0, Nat.zero_le _⟩
    | @add r0 r1 points start a b _ hadd ih =>
      obtain ⟨_, hx⟩ := r0.add_eq_ok env points start _ hadd
      injection hx with hr1 _
      subst hr1
      have hacc := r0.accepted_le points start
      have hend := r0.addEnd_le points start
      have hcur := r0.added_outStart env points start (by omega)
      rw [hcur, PointsRenderable.added_point_count]
      have hmod : (r0.point_count_ + r0.accepted points start) % UINT32_MOD
          = r0.point_count_ + r0.accepted points start := by
        apply Nat.mod_eq_of_lt
        simp only [POINTS_PER_VBO_eq, UINT32_MOD_eq] at *
        omega
      rw [hmod]
      omega
    | @remove r0 r1 start count _ hrem ih =>
      obtain ⟨hc, _, hr1⟩ := r0.remove_eq_ok r1 start count hrem
      subst hr1
      have hcur : (r0.removed start count).outStart = r0.outStart := rfl
      have hpc : (r0.removed start count).point_count_ = r0.point_count_ - count := rfl
      rw [hcur, hpc]
      omega
  refine ⟨Nat.zero_le _, hinv.1, hinv.2, ?_, ?_⟩
  · intro points start r1 a b hadd
    obtain ⟨_, hx⟩ := r.add_eq_ok env points start _ hadd
    injection hx with hr1 _
    subst hr1
    have hacc := r.accepted_le points start
    have hend := r.addEnd_le points start
    rw [r.added_outStart env points start (by omega)]
    omega
  · intro start count r1 hrem
    obtain ⟨_, _, hr1⟩ := r.remove_eq_ok r1 start count hrem
    subst hr1
    rfl

theorem C20_slab_counters_ordered_witness :
    0 ≤ slabAfterRemove.point_count_ ∧ slabAfterRemove.point_count_ ≤ slabAfterRemove.outStart ∧
    slabAfterRemove.outStart ≤ POINTS_PER_VBO ∧
    (∀ (points : Points) (start : Nat) (r1 : PointsRenderable) (out_start out_count : Nat),
      slabAfterRemove.add exampleEnv points start = .ok (r1, out_start, out_count) →
      slabAfterRemove.outStart ≤ r1.outStart) ∧
    (∀ (start count : Nat) (r1 : PointsRenderable),
      slabAfterRemove.remove start count = .ok r1 →
      r1.outStart = slabAfterRemove.outStart) :=
  C20_slab_counters_ordered exampleEnv exampleDesc false slabAfterRemove
    (SlabReachable.remove
      (SlabReachable.add
        (SlabReachable.add
          (SlabReachable.add SlabReachable.new
            (show freshOpaqueSlab.add exampleEnv (onePoint ⟨0, 0, 10⟩) 0 = .ok (_, 0, 1) from
              by with_unfolding_all rfl))
          (show PointsRenderable.add exampleEnv _ (onePoint ⟨0, 0, 20⟩) 0 = .ok (_, 1, 1) from
            by with_unfolding_all rfl))
        (show PointsRenderable.add exampleEnv _ (onePoint ⟨0, 0, 30⟩) 0
            = .ok (slabThreeAllocations, 2, 1) from by with_unfolding_all rfl))
      (show slabThreeAllocations.remove 1 1 = .ok slabAfterRemove from
        by with_unfolding_all rfl))

/-! ## Validation in `PointsRenderer::add` -/

/-- `PointsRenderable::add` stops at an assertion exactly when the lengths of the attribute
sequences disagree for the descriptor of the slab. -/
theorem PointsRenderable.add_assertion_iff (env : Env) (r : PointsRenderable)
    (points : Points) (start : Nat) :
    r.add env points start = .error .assertion ↔ ¬ ValidFor r.desc_ points := by
  unfold PointsRenderable.add ValidFor
  split_ifs with h1 h2 h3 h4 h5 <;> simp_all <;> assumption

theorem PointsRenderable.added_desc (env : Env) (r : PointsRenderable) (points : Points)
    (start : Nat) : (r.added env points start).desc_ = r.desc_ := rfl

theorem descInv_new (env : Env) (desc : PointsRendererDesc) :
    DescInv desc (PointsRenderer.new env desc) :=
  ⟨rfl, fun _ => rfl⟩

theorem descInv_heapSet {desc : PointsRendererDesc} {s : PointsRenderer}
    (h : DescInv desc s) (p : Nat) (r : PointsRenderable) (hr : r.desc_ = desc) :
    DescInv desc { s with heap := heapSet s.heap p r } := by
  refine ⟨h.1, fun q => ?_⟩
  by_cases hq : q = p
  · subst hq
    simp only [heapSet_same]
    exact hr
  · simp only [heapSet_other _ _ _ _ hq]
    exact h.2 q

theorem descInv_getOrCreateRenderable {desc : PointsRendererDesc} {s : PointsRenderer}
    (env : Env) (alpha : Bool) (h : DescInv desc s) :
    DescInv desc (s.getOrCreateRenderable env alpha).1 := by
  unfold PointsRenderer.getOrCreateRenderable
  split
  · exact h
  · refine ⟨h.1, fun q => ?_⟩
    by_cases hq : q = s.heap_size
    · subst hq
      simp only [heapSet_same]
      exact h.1
    · simp only [heapSet_other _ _ _ _ hq]
      exact h.2 q

theorem PointsRenderable.add_ok_desc (env : Env) (r r1 : PointsRenderable) (points : Points)
    (start a b : Nat) (h : r.add env points start = .ok (r1, a, b)) : r1.desc_ = r.desc_ := by
  obtain ⟨_, hx⟩ := r.add_eq_ok env points start _ h
  injection hx with hr1 _
  subst hr1
  rfl

/-- An iteration of the first loop of `PointsRenderer::add` that returns keeps `DescInv`;
one that stops at an assertion was given sequences whose lengths disagree. -/
theorem addBody_descInv (env : Env) (points : Points) (st : AddState)
    (desc : PointsRendererDesc) (hd : DescInv desc st.store) :
    (∀ st1, addBody env points st = .ok st1 → DescInv desc st1.store) ∧
    (addBody env points st = .error .assertion → ¬ ValidFor desc points) := by
  have hg1 := descInv_getOrCreateRenderable env false hd
  unfold addBody
  simp only
  split
  · rename_i e he
    refine ⟨fun st1 h => absurd h (by simp), fun h => ?_⟩
    injection h with h
    subst h
    have := (PointsRenderable.add_assertion_iff env _ points _).1 he
    rwa [hg1.2] at this
  · rename_i r1 a b hadd1
    have hr1 : r1.desc_ = desc :=
      (PointsRenderable.add_ok_desc env _ r1 points _ a b hadd1).trans (hg1.2 _)
    have hs2 := descInv_heapSet hg1 (st.store.getOrCreateRenderable env false).2 r1 hr1
    have hg2 := descInv_getOrCreateRenderable env true hs2
    split
    · rename_i e he
      refine ⟨fun st1 h => absurd h (by simp), fun h => ?_⟩
      injection h with h
      subst h
      have := (PointsRenderable.add_assertion_iff env _ points _).1 he
      rwa [hg2.2] at this
    · rename_i r2 a2 b2 hadd2
      have hr2 : r2.desc_ = desc :=
        (PointsRenderable.add_ok_desc env _ r2 points _ a2 b2 hadd2).trans (hg2.2 _)
      refine ⟨fun st1 h => ?_, fun h => absurd h (by simp)⟩
      injection h with h
      subst h
      exact descInv_heapSet hg2 _ r2 hr2

theorem addLoop_descInv (env : Env) (points : Points) (pc : Nat) (desc : PointsRendererDesc)
    (fuel : Nat) (st : AddState) (hd : DescInv desc st.store) :
    (∀ st1, addLoop env points pc fuel st = .ok st1 → DescInv desc st1.store) ∧
    (addLoop env points pc fuel st = .error .assertion → ¬ ValidFor desc points) := by
  induction fuel generalizing st with
  | zero =>
    unfold addLoop
    split
    · exact ⟨fun st1 h => absurd h (by simp), fun h => absurd h (by simp)⟩
    · refine ⟨fun st1 h => ?_, fun h => absurd h (by simp)⟩
      injection h with h
      subst h
      exact hd
  | succ n ih =>
    have hb := addBody_descInv env points st desc hd
    unfold addLoop
    split
    · split
      · rename_i e he
        refine ⟨fun st1 h => absurd h (by simp), fun h => ?_⟩
        injection h with h
        subst h
        exact hb.2 he
      · rename_i st2 he
        exact ih st2 (hb.1 st2 he)
    · refine ⟨fun st1 h => ?_, fun h => absurd h (by simp)⟩
      injection h with h
      subst h
      exact hd

/-- The second loop of `PointsRenderer::add` contains no assertion. -/
theorem genId_error (env : Env) (points_ : List (Nat × PointsInfo)) (fuel id drawn : Nat)
    (e : Fault) (h : genId env points_ fuel id drawn = .error e) : e = .fuel := by
  induction fuel generalizing id drawn with
  | zero =>
    unfold genId at h
    split at h
    · injection h with h
      exact h.symm
    · exact absurd h (by simp)
  | succ n ih =>
    unfold genId at h
    split at h
    · exact ih _ _ h
    · exact absurd h (by simp)

theorem add_descInv (env : Env) (desc : PointsRendererDesc) (fuel : Nat)
    (s s1 : PointsRenderer) (points : Points) (id : Nat) (hd : DescInv desc s)
    (h : PointsRenderer.add env fuel s points = .ok (s1, id)) : DescInv desc s1 := by
  unfold PointsRenderer.add at h
  simp only at h
  split at h
  · exact absurd h (by simp)
  · rename_i st hloop
    have hst := (addLoop_descInv env points _ desc fuel _ hd).1 st hloop
    split at h
    · exact absurd h (by simp)
    · injection h with h
      injection h with h1 h2
      subst h1
      exact hst

theorem removeRends_desc (heap heap1 : Nat → PointsRenderable) (rends : List RenderableInfo)
    (desc : PointsRendererDesc) (hd : ∀ p, (heap p).desc_ = desc)
    (h : removeRends heap rends = .ok heap1) : ∀ p, (heap1 p).desc_ = desc := by
  induction rends generalizing heap with
  | nil =>
    unfold removeRends at h
    injection h with h
    subst h
    exact hd
  | cons rinfo rest ih =>
    unfold removeRends at h
    split at h
    · exact absurd h (by simp)
    · rename_i r1 hr1
      simp only at h
      split at h
      · exact absurd h (by simp)
      · rename_i r2 hr2
        have e1 := (PointsRenderable.remove_eq_ok _ r1 _ _ hr1).2.2
        have e2 := (PointsRenderable.remove_eq_ok _ r2 _ _ hr2).2.2
        have hd1 : ∀ p, (heapSet heap rinfo.opaque_rend r1 p).desc_ = desc := by
          intro p
          by_cases hp : p = rinfo.opaque_rend
          · subst hp
            rw [heapSet_same, e1]
            exact hd _
          · rw [heapSet_other _ _ _ _ hp]
            exact hd p
        refine ih _ ?_ h
        intro p
        by_cases hp : p = rinfo.alpha_rend
        · subst hp
          rw [heapSet_same, e2]
          exact hd1 _
        · rw [heapSet_other _ _ _ _ hp]
          exact hd1 p

theorem remove_descInv (desc : PointsRendererDesc) (fuel : Nat) (s s1 : PointsRenderer)
    (id : Nat) (hd : DescInv desc s) (h : PointsRenderer.remove fuel s id = .ok s1) :
    DescInv desc s1 := by
  unfold PointsRenderer.remove at h
  split at h
  · injection h with h
    subst h
    exact hd
  · rename_i pinfo _
    split at h
    · exact absurd h (by simp)
    · rename_i heap1 hrem
      unfold PointsRenderer.shrinkRenderables at h
      simp only at h
      split at h
      · exact absurd h (by simp)
      · injection h with h
        subst h
        exact ⟨hd.1, removeRends_desc s.heap heap1 pinfo.rends desc hd.2 hrem⟩

theorem reachable_descInv (env : Env) (desc : PointsRendererDesc) (s : PointsRenderer)
    (h : Reachable env desc s) : DescInv desc s := by
  induction h with
  | init => exact descInv_new env desc
  | add _ hadd ih => exact add_descInv env desc _ _ _ _ _ ih hadd
  | remove _ hrem ih => exact remove_descInv desc _ _ _ _ ih hrem
  | clear _ ih => exact ih

/-- When the lengths disagree and there is a point to place, the first iteration of the
first loop of `PointsRenderer::add` stops at the assertion of the opaque slab, and the
store is then the one `getOrCreateRenderable(false)` left. -/
theorem addLoop_invalid (env : Env) (points : Points) (pc : Nat) (desc : PointsRendererDesc)
    (fuel : Nat) (st : AddState) (hd : DescInv desc st.store)
    (hv : ¬ ValidFor desc points) (hlt : st.total_count < pc) :
    addLoop env points pc (fuel + 1) st = .error .assertion ∧
    addLoopExitStore env points pc (fuel + 1) st
      = (st.store.getOrCreateRenderable env false).1 := by
  have hg1 := descInv_getOrCreateRenderable env false hd
  have hadd : ((st.store.getOrCreateRenderable env false).1.heap
      (st.store.getOrCreateRenderable env false).2).add env points st.total_opaque_count
      = .error .assertion := by
    rw [PointsRenderable.add_assertion_iff, hg1.2]
    exact hv
  have hbody : addBody env points st = .error .assertion := by
    unfold addBody
    simp only [hadd]
  have hexit : addBodyExitStore env points st
      = (st.store.getOrCreateRenderable env false).1 := by
    unfold addBodyExitStore
    simp only [hadd]
  constructor
  · unfold addLoop
    rw [if_pos hlt, hbody]
  · unfold addLoopExitStore
    rw [if_pos hlt, hbody]
    exact hexit

/-- C11 (amended): for a store reached from construction, `PointsRenderer::add` stops at
an assertion exactly when the lengths of the attribute sequences disagree (colors against
positions; normals against positions under `has_normals`; neither orientations nor
normals of positions' length under `has_orientations`) and the 32-bit point count
`positions.size()` is not zero.  A batch without positions is never checked. -/
theorem C11_add_asserts_iff_lengths_disagree_and_nonempty (env : Env)
    (desc : PointsRendererDesc) (fuel : Nat) (s : PointsRenderer) (points : Points)
    (hs : Reachable env desc s) (hfuel : 0 < fuel) :
    PointsRenderer.add env fuel s points = .error .assertion ↔
      (¬ ValidFor desc points ∧ 0 < points.positions.length % UINT32_MOD) := by
  have hd := reachable_descInv env desc s hs
  constructor
  · intro h
    unfold PointsRenderer.add at h
    simp only at h
    split at h
    · rename_i e hloop
      injection h with h
      subst h
      refine ⟨(addLoop_descInv env points _ desc fuel _ hd).2 hloop, ?_⟩
      by_contra hz
      have hz0 : ¬ (0 < points.positions.length % UINT32_MOD) := hz
      cases fuel with
      | zero => exact absurd hfuel (by decide)
      | succ n =>
        unfold addLoop at hloop
        rw [if_neg hz0] at hloop
        exact absurd hloop (by simp)
    · split at h
      · rename_i e hgen
        injection h with h
        subst h
        exact absurd (genId_error env _ _ _ _ _ hgen) (by simp)
      · exact absurd h (by simp)
  · rintro ⟨hv, hpos⟩
    obtain ⟨n, rfl⟩ : ∃ n, fuel = n + 1 := ⟨fuel - 1, by omega⟩
    have hloop := (addLoop_invalid env points (points.positions.length % UINT32_MOD) desc n
      { store := s, pinfo := ⟨[]⟩, total_count := 0, total_opaque_count := 0,
        total_alpha_count := 0 } hd hv hpos).1
    unfold PointsRenderer.add
    simp only [hloop]

theorem C11_add_asserts_iff_lengths_disagree_and_nonempty_witness :
    PointsRenderer.add exampleEnv 1 emptyStore positionOnlyBatch = .error .assertion ↔
      (¬ ValidFor exampleDesc positionOnlyBatch ∧
        0 < positionOnlyBatch.positions.length % UINT32_MOD) :=
  C11_add_asserts_iff_lengths_disagree_and_nonempty exampleEnv exampleDesc 1 emptyStore
    positionOnlyBatch Reachable.init (by decide)

/-- C11, counterexample: a batch with no position and one colour has sequences of
different lengths, and `PointsRenderer::add` on the empty store returns the id 1. -/
theorem C11_counterexample_empty_positions :
    colourOnlyBatch.colors.length ≠ colourOnlyBatch.positions.length ∧
    ¬ ValidFor exampleDesc colourOnlyBatch ∧
    observe (fun x => x.2) (PointsRenderer.add exampleEnv 1 emptyStore colourOnlyBatch)
      = some 1 := by
  refine ⟨by decide, fun h => absurd h.1 (by decide), by with_unfolding_all rfl⟩

/-- When the lengths disagree and there is a point to place, `PointsRenderer::add` is left
with the store that `getOrCreateRenderable(false)` produced. -/
theorem addExitStore_invalid (env : Env) (desc : PointsRendererDesc) (fuel : Nat)
    (s : PointsRenderer) (points : Points) (hd : DescInv desc s)
    (hv : ¬ ValidFor desc points) (hpos : 0 < points.positions.length % UINT32_MOD) :
    PointsRenderer.addExitStore env (fuel + 1) s points
      = (s.getOrCreateRenderable env false).1 := by
  have hloop := addLoop_invalid env points (points.positions.length % UINT32_MOD) desc fuel
    { store := s, pinfo := ⟨[]⟩, total_count := 0, total_opaque_count := 0,
      total_alpha_count := 0 } hd hv hpos
  unfold PointsRenderer.addExitStore
  simp only [hloop.1]
  exact hloop.2

/-- When `PointsRenderer::add` returns, the store it is left with is the store it
returns. -/
theorem addExitStore_of_ok (env : Env) (fuel : Nat) (s s1 : PointsRenderer) (points : Points)
    (id : Nat) (h : PointsRenderer.add env fuel s points = .ok (s1, id)) :
    PointsRenderer.addExitStore env fuel s points = s1 := by
  unfold PointsRenderer.add at h
  unfold PointsRenderer.addExitStore
  simp only at h ⊢
  generalize addLoop env points (points.positions.length % UINT32_MOD) fuel _ = x at h ⊢
  cases x with
  | error e => exact absurd h (by simp)
  | ok st =>
    simp only at h ⊢
    generalize genId env st.store.points_ fuel 0 st.store.id_gen_ = y at h ⊢
    cases y with
    | error e => exact absurd h (by simp)
    | ok v =>
      simp only at h ⊢
      injection h with h
      injection h with h1 h2

/-- C12 (amended): when `PointsRenderer::add` on a store reached from construction stops
at an assertion, the handle table, the id generator, the aggregate box and every slab
object that existed are as before the call; the slab list is as before when it held an
opaque slab that is not full, and otherwise it has one more entry, a new empty opaque
slab. -/
theorem C12_failed_add_may_attach_one_slab (env : Env) (desc : PointsRendererDesc)
    (fuel : Nat) (s : PointsRenderer) (points : Points) (hs : Reachable env desc s)
    (h : PointsRenderer.add env fuel s points = .error .assertion) :
    (PointsRenderer.addExitStore env fuel s points).points_ = s.points_ ∧
    (PointsRenderer.addExitStore env fuel s points).id_gen_ = s.id_gen_ ∧
    (PointsRenderer.addExitStore env fuel s points).bounding_box_ = s.bounding_box_ ∧
    (∀ p, p ≠ s.heap_size →
      (PointsRenderer.addExitStore env fuel s points).heap p = s.heap p) ∧
    (((∃ p ∈ s.renderables_, (s.heap p).isFull = false ∧ (s.heap p).isAlpha = false) ∧
        (PointsRenderer.addExitStore env fuel s points).renderables_ = s.renderables_ ∧
        (PointsRenderer.addExitStore env fuel s points).heap = s.heap) ∨
     ((∀ p ∈ s.renderables_, ¬ ((s.heap p).isFull = false ∧ (s.heap p).isAlpha = false)) ∧
        (PointsRenderer.addExitStore env fuel s points).renderables_
          = s.renderables_ ++ [s.heap_size] ∧
        (PointsRenderer.addExitStore env fuel s points).heap s.heap_size
          = PointsRenderable.new env desc false)) := by
  have hd := reachable_descInv env desc s hs
  have hfuel : 0 < fuel := by
    by_contra hz
    have hz0 : fuel = 0 := by omega
    subst hz0
    unfold PointsRenderer.add at h
    simp only at h
    split at h
    · rename_i e hloop
      injection h with h
      subst h
      unfold addLoop at hloop
      split at hloop
      · exact absurd hloop (by simp)
      · exact absurd hloop (by simp)
    · split at h
      · rename_i e hgen
        injection h with h
        subst h
        exact absurd (genId_error env _ _ _ _ _ hgen) (by simp)
      · exact absurd h (by simp)
  have hv : ¬ ValidFor desc points ∧ 0 < points.positions.length % UINT32_MOD := by
    unfold PointsRenderer.add at h
    simp only at h
    split at h
    · rename_i e hloop
      injection h with h
      subst h
      refine ⟨(addLoop_descInv env points _ desc fuel _ hd).2 hloop, ?_⟩
      by_contra hz
      have hz0 : ¬ (0 < points.positions.length % UINT32_MOD) := hz
      cases fuel with
      | zero => exact absurd hfuel (by decide)
      | succ n =>
        unfold addLoop at hloop
        rw [if_neg hz0] at hloop
        exact absurd hloop (by simp)
    · split at h
      · rename_i e hgen
        injection h with h
        subst h
        exact absurd (genId_error env _ _ _ _ _ hgen) (by simp)
      · exact absurd h (by simp)
  obtain ⟨n, rfl⟩ : ∃ n, fuel = n + 1 := ⟨fuel - 1, by omega⟩
  rw [addExitStore_invalid env desc n s points hd hv.1 hv.2]
  cases hfind : s.renderables_.find?
      (fun p => !(s.heap p).isFull && (false == (s.heap p).isAlpha)) with
  | some p =>
    rw [getOrCreateRenderable_of_some env s false p hfind]
    have hp := List.find?_some hfind
    have hmem := List.mem_of_find?_eq_some hfind
    simp only [Bool.and_eq_true, Bool.not_eq_true', beq_iff_eq] at hp
    exact ⟨rfl, rfl, rfl, fun _ _ => rfl, Or.inl ⟨⟨p, hmem, hp.1, hp.2.symm⟩, rfl, rfl⟩⟩
  | none =>
    rw [List.find?_eq_none] at hfind
    rw [getOrCreateRenderable_of_none env s false (fun p hp => by simpa using hfind p hp)]
    refine ⟨rfl, rfl, rfl, fun p hp => heapSet_other _ _ _ _ hp, Or.inr ⟨?_, rfl, ?_⟩⟩
    · intro p hp hc
      have := hfind p hp
      simp [hc.1, hc.2] at this
    · simp only [heapSet_same]
      rw [hd.1]

theorem C12_failed_add_may_attach_one_slab_witness :
    (PointsRenderer.addExitStore exampleEnv 1 emptyStore positionOnlyBatch).points_
      = emptyStore.points_ ∧
    (PointsRenderer.addExitStore exampleEnv 1 emptyStore positionOnlyBatch).id_gen_
      = emptyStore.id_gen_ ∧
    (PointsRenderer.addExitStore exampleEnv 1 emptyStore positionOnlyBatch).bounding_box_
      = emptyStore.bounding_box_ ∧
    (∀ p, p ≠ emptyStore.heap_size →
      (PointsRenderer.addExitStore exampleEnv 1 emptyStore positionOnlyBatch).heap p
        = emptyStore.heap p) ∧
    (((∃ p ∈ emptyStore.renderables_,
          (emptyStore.heap p).isFull = false ∧ (emptyStore.heap p).isAlpha = false) ∧
        (PointsRenderer.addExitStore exampleEnv 1 emptyStore positionOnlyBatch).renderables_
          = emptyStore.renderables_ ∧
        (PointsRenderer.addExitStore exampleEnv 1 emptyStore positionOnlyBatch).heap
          = emptyStore.heap) ∨
     ((∀ p ∈ emptyStore.renderables_,
          ¬ ((emptyStore.heap p).isFull = false ∧ (emptyStore.heap p).isAlpha = false)) ∧
        (PointsRenderer.addExitStore exampleEnv 1 emptyStore positionOnlyBatch).renderables_
          = emptyStore.renderables_ ++ [emptyStore.heap_size] ∧
        (PointsRenderer.addExitStore exampleEnv 1 emptyStore positionOnlyBatch).heap
          emptyStore.heap_size
          = PointsRenderable.new exampleEnv exampleDesc false)) :=
  C12_failed_add_may_attach_one_slab exampleEnv exampleDesc 1 emptyStore positionOnlyBatch
    Reachable.init (by with_unfolding_all rfl)

/-- C12, counterexample: `PointsRenderer::add` of one position without a colour on the
empty store stops at the assertion, and the slab list, empty before the call, then holds
the slab that `getOrCreateRenderable(false)` created. -/
theorem C12_counterexample_slab_attached :
    PointsRenderer.add exampleEnv 1 emptyStore positionOnlyBatch = .error .assertion ∧
    emptyStore.renderables_ = [] ∧
    (PointsRenderer.addExitStore exampleEnv 1 emptyStore positionOnlyBatch).renderables_
      = [0] ∧
    (PointsRenderer.addExitStore exampleEnv 1 emptyStore positionOnlyBatch).heap_size = 1 := by
  refine ⟨by with_unfolding_all rfl, rfl, by with_unfolding_all rfl,
    by with_unfolding_all rfl⟩

/-! ## The reclamation pass on empty slabs -/

/-- An iteration of the loop of `shrinkRenderables` that stands on an empty slab erases it
and leaves the iterator where it is: `empty_count` has just been incremented, so the test
`empty_count > 0` holds. -/
theorem shrinkLoop_erase (heap : Nat → PointsRenderable) (last fuel : Nat)
    (renderables : List Nat) (it rend empty_count : Nat) (hit : it ≠ last)
    (hget : renderables[it]? = some rend) (he : (heap rend).isEmpty = true)
    (hec : 0 < (empty_count + 1) % UINT32_MOD) :
    shrinkLoop heap last (fuel + 1) renderables it empty_count
      = shrinkLoop heap last fuel (renderables.eraseIdx it) it
          ((empty_count + 1) % UINT32_MOD) := by
  rw [shrinkLoop, if_neg hit, hget]
  simp only [he, if_true]
  rw [if_pos hec]

/-- An iteration of the loop of `shrinkRenderables` whose iterator differs from the value
of `end()` taken before the loop and stands past the last element reads outside the
vector. -/
theorem shrinkLoop_past_end (heap : Nat → PointsRenderable) (last fuel : Nat)
    (renderables : List Nat) (it empty_count : Nat) (hit : it ≠ last)
    (hget : renderables[it]? = none) :
    shrinkLoop heap last (fuel + 1) renderables it empty_count = .error Fault.undefined := by
  rw [shrinkLoop, if_neg hit, hget]

/-- C15 (the code departs from it): `storeOpaqueOnly` is reached by one `add` and holds
the id 1.  `remove(1)` tombstones its allocation, after which the slab list holds two
empty slabs, one opaque and one alpha.  The loop of `shrinkRenderables` erases both, so
no empty slab is retained, and then reads the vector past its end; neither
`shrinkRenderables` nor `remove(1)` returns. -/
theorem C15_shrinkRenderables_erases_every_empty_slab :
    Reachable exampleEnv exampleDesc storeOpaqueOnly ∧
    findPoints storeOpaqueOnly.points_ 1 = some ⟨[⟨0, 0, 3, 1, 0, 0⟩]⟩ ∧
    removeRends storeOpaqueOnly.heap [⟨0, 0, 3, 1, 0, 0⟩] = .ok storeTombstoned.heap ∧
    storeTombstoned.renderables_ = [0, 1] ∧
    (storeTombstoned.heap 0).isEmpty = true ∧ (storeTombstoned.heap 0).isAlpha = false ∧
    (storeTombstoned.heap 1).isEmpty = true ∧ (storeTombstoned.heap 1).isAlpha = true ∧
    (∀ fuel : Nat,
      shrinkLoop storeTombstoned.heap 2 (fuel + 2) [0, 1] 0 0
        = shrinkLoop storeTombstoned.heap 2 fuel [] 0 2) ∧
    (∀ fuel : Nat,
      PointsRenderer.shrinkRenderables (fuel + 3) storeTombstoned = .error Fault.undefined) ∧
    (∀ (fuel : Nat) (s1 : PointsRenderer),
      PointsRenderer.shrinkRenderables fuel storeTombstoned ≠ .ok s1) ∧
    (∀ (fuel : Nat) (s1 : PointsRenderer),
      PointsRenderer.remove fuel storeOpaqueOnly 1 ≠ .ok s1) := by
  have hadd : PointsRenderer.add exampleEnv 1 emptyStore threeOpaque
      = .ok (storeOpaqueOnly, 1) := by with_unfolding_all rfl
  have hfind : findPoints storeOpaqueOnly.points_ 1 = some ⟨[⟨0, 0, 3, 1, 0, 0⟩]⟩ := by
    decide!
  have hrem : removeRends storeOpaqueOnly.heap [⟨0, 0, 3, 1, 0, 0⟩]
      = .ok storeTombstoned.heap := by
    have h1 : removeRends storeOpaqueOnly.heap [⟨0, 0, 3, 1, 0, 0⟩]
        = .ok (heapSet (heapSet storeOpaqueOnly.heap 0
            ((storeOpaqueOnly.heap 0).removed 0 3)) 1
            ((heapSet storeOpaqueOnly.heap 0
              ((storeOpaqueOnly.heap 0).removed 0 3) 1).removed 0 0)) := by
      unfold removeRends
      rw [PointsRenderable.remove_ok _ 0 3 (by decide!) (by decide)]
      simp only
      rw [PointsRenderable.remove_ok _ 0 0 (by decide!) (by decide)]
      rfl
    have h2 : storeTombstoned.heap
        = okOr storeOpaqueOnly.heap
            (removeRends storeOpaqueOnly.heap [⟨0, 0, 3, 1, 0, 0⟩]) := rfl
    rw [h2, h1]
    rfl
  have hrends : storeTombstoned.renderables_ = [0, 1] := by decide!
  have he0 : (storeTombstoned.heap 0).isEmpty = true := by decide!
  have he1 : (storeTombstoned.heap 1).isEmpty = true := by decide!
  have hstep : ∀ fuel : Nat,
      shrinkLoop storeTombstoned.heap 2 (fuel + 2) [0, 1] 0 0
        = shrinkLoop storeTombstoned.heap 2 fuel [] 0 2 := by
    intro fuel
    rw [shrinkLoop_erase storeTombstoned.heap 2 (fuel + 1) [0, 1] 0 0 0 (by decide) rfl he0
      (by decide)]
    rw [shrinkLoop_erase storeTombstoned.heap 2 fuel _ 0 1 _ (by decide) rfl he1 (by decide)]
    rfl
  have hloop : ∀ fuel : Nat, ∃ e,
      shrinkLoop storeTombstoned.heap storeTombstoned.renderables_.length fuel
        storeTombstoned.renderables_ 0 0 = .error e := by
    intro fuel
    rw [hrends]
    show ∃ e, shrinkLoop storeTombstoned.heap 2 fuel [0, 1] 0 0 = .error e
    match fuel with
    | 0 => exact ⟨Fault.fuel, by rw [shrinkLoop, if_neg (by decide)]⟩
    | 1 =>
      refine ⟨Fault.fuel, ?_⟩
      rw [shrinkLoop_erase storeTombstoned.heap 2 0 [0, 1] 0 0 0 (by decide) rfl he0
        (by decide)]
      rw [shrinkLoop, if_neg (by decide)]
    | 2 =>
      refine ⟨Fault.fuel, ?_⟩
      rw [hstep 0, shrinkLoop, if_neg (by decide)]
    | n + 3 =>
      refine ⟨Fault.undefined, ?_⟩
      rw [hstep (n + 1)]
      exact shrinkLoop_past_end _ 2 n [] 0 2 (by decide) rfl
  have hshrink : ∀ (fuel : Nat) (s1 : PointsRenderer),
      PointsRenderer.shrinkRenderables fuel storeTombstoned ≠ .ok s1 := by
    intro fuel s1 h
    obtain ⟨e, he⟩ := hloop fuel
    unfold PointsRenderer.shrinkRenderables at h
    rw [he] at h
    exact absurd h (by simp)
  refine ⟨Reachable.add Reachable.init hadd, hfind, hrem, hrends, he0, by decide!, he1,
    by decide!, hstep, ?_, hshrink, ?_⟩
  · intro fuel
    have hl : shrinkLoop storeTombstoned.heap storeTombstoned.renderables_.length (fuel + 3)
        storeTombstoned.renderables_ 0 0 = .error Fault.undefined := by
      rw [hrends]
      show shrinkLoop storeTombstoned.heap 2 (fuel + 3) [0, 1] 0 0 = _
      rw [hstep (fuel + 1)]
      exact shrinkLoop_past_end _ 2 fuel [] 0 2 (by decide) rfl
    unfold PointsRenderer.shrinkRenderables
    rw [hl]
  · intro fuel s1 h
    unfold PointsRenderer.remove at h
    rw [hfind] at h
    simp only at h
    rw [hrem] at h
    exact hshrink fuel s1 h

/-! ## Bounding boxes under `remove` -/

theorem PointsRenderable.removed_point_count (r : PointsRenderable) (start count : Nat) :
    (r.removed start count).point_count_ = r.point_count_ - count := rfl

theorem PointsRenderable.removed_mBox (r : PointsRenderable) (start count : Nat) :
    (r.removed start count).mBox
      = if r.point_count_ - count = 0 then AxisAlignedBox.null else r.mBox := rfl

/-- One round of the tombstone loop of `PointsRenderer::remove`: the two slabs named by an
allocation lose points; a slab that still holds points keeps its box, a slab named by the
allocation that holds none has the null box, and every other slab is untouched. -/
theorem removeStep_box (heap : Nat → PointsRenderable) (rinfo : RenderableInfo)
    (r1 r2 : PointsRenderable)
    (h1 : (heap rinfo.opaque_rend).remove rinfo.opaque_start rinfo.opaque_count = .ok r1)
    (h2 : (heapSet heap rinfo.opaque_rend r1 rinfo.alpha_rend).remove rinfo.alpha_start
      rinfo.alpha_count = .ok r2) (p : Nat) :
    (heapSet (heapSet heap rinfo.opaque_rend r1) rinfo.alpha_rend r2 p).point_count_
      ≤ (heap p).point_count_ ∧
    ((heapSet (heapSet heap rinfo.opaque_rend r1) rinfo.alpha_rend r2 p).point_count_ ≠ 0 →
      (heapSet (heapSet heap rinfo.opaque_rend r1) rinfo.alpha_rend r2 p).mBox
        = (heap p).mBox) ∧
    ((rinfo.opaque_rend = p ∨ rinfo.alpha_rend = p) →
      (heapSet (heapSet heap rinfo.opaque_rend r1) rinfo.alpha_rend r2 p).point_count_ = 0 →
      (heapSet (heapSet heap rinfo.opaque_rend r1) rinfo.alpha_rend r2 p).mBox
        = AxisAlignedBox.null) ∧
    (rinfo.opaque_rend ≠ p → rinfo.alpha_rend ≠ p →
      heapSet (heapSet heap rinfo.opaque_rend r1) rinfo.alpha_rend r2 p = heap p) := by
  have e1 := (PointsRenderable.remove_eq_ok _ r1 _ _ h1).2.2
  have e2 := (PointsRenderable.remove_eq_ok _ r2 _ _ h2).2.2
  have hone : ∀ (r : PointsRenderable) (st c : Nat),
      (r.removed st c).point_count_ ≤ r.point_count_ ∧
      ((r.removed st c).point_count_ ≠ 0 → (r.removed st c).mBox = r.mBox) ∧
      ((r.removed st c).point_count_ = 0 → (r.removed st c).mBox = AxisAlignedBox.null) := by
    intro r st c
    rw [PointsRenderable.removed_point_count, PointsRenderable.removed_mBox]
    refine ⟨Nat.sub_le _ _, fun h => by rw [if_neg h], fun h => by rw [if_pos h]⟩
  have hr1 := hone (heap rinfo.opaque_rend) rinfo.opaque_start rinfo.opaque_count
  rw [← e1] at hr1
  have hr2 := hone (heapSet heap rinfo.opaque_rend r1 rinfo.alpha_rend) rinfo.alpha_start
    rinfo.alpha_count
  rw [← e2] at hr2
  by_cases ha : p = rinfo.alpha_rend
  · subst ha
    rw [heapSet_same]
    by_cases ho : rinfo.alpha_rend = rinfo.opaque_rend
    · rw [ho] at hr2 ⊢
      rw [heapSet_same] at hr2
      refine ⟨hr2.1.trans hr1.1, fun h => ?_, fun _ h => hr2.2.2 h, fun h => absurd rfl h⟩
      have h1ne : r1.point_count_ ≠ 0 := by omega
      rw [hr2.2.1 h, hr1.2.1 h1ne]
    · rw [heapSet_other _ _ _ _ ho] at hr2
      exact ⟨hr2.1, hr2.2.1, fun _ h => hr2.2.2 h, fun _ h => absurd rfl h⟩
  · rw [heapSet_other _ _ _ _ ha]
    by_cases ho : p = rinfo.opaque_rend
    · subst ho
      rw [heapSet_same]
      exact ⟨hr1.1, hr1.2.1, fun _ h => hr1.2.2 h, fun h => absurd rfl h⟩
    · rw [heapSet_other _ _ _ _ ho]
      exact ⟨Nat.le_refl _, fun _ => rfl,
        fun h => absurd h (by
          rintro (h | h)
          · exact ho h.symm
          · exact ha h.symm),
        fun _ _ => rfl⟩

/-- The tombstone loop of `PointsRenderer::remove`: a slab that still holds points
afterwards has the box it had before, a slab named by an allocation that holds none
afterwards has the null box, and a slab named by no allocation is untouched. -/
theorem removeRends_box (heap heap1 : Nat → PointsRenderable) (rends : List RenderableInfo)
    (h : removeRends heap rends = .ok heap1) (p : Nat) :
    (heap1 p).point_count_ ≤ (heap p).point_count_ ∧
    ((heap1 p).point_count_ ≠ 0 → (heap1 p).mBox = (heap p).mBox) ∧
    (touches rends p = true → (heap1 p).point_count_ = 0 →
      (heap1 p).mBox = AxisAlignedBox.null) ∧
    (touches rends p = false → heap1 p = heap p) := by
  induction rends generalizing heap with
  | nil =>
    unfold removeRends at h
    injection h with h
    subst h
    exact ⟨Nat.le_refl _, fun _ => rfl, fun ht => absurd ht (by simp [touches]),
      fun _ => rfl⟩
  | cons rinfo rest ih =>
    unfold removeRends at h
    split at h
    · exact absurd h (by simp)
    · rename_i r1 hr1
      simp only at h
      split at h
      · exact absurd h (by simp)
      · rename_i r2 hr2
        have hstep := removeStep_box heap rinfo r1 r2 hr1 hr2 p
        have hrest := ih _ h
        have htouch : touches (rinfo :: rest) p
            = ((rinfo.opaque_rend == p || rinfo.alpha_rend == p) || touches rest p) := by
          simp [touches]
        refine ⟨hrest.1.trans hstep.1, fun hne => ?_, fun ht hz => ?_, fun ht => ?_⟩
        · have hne1 : (heapSet (heapSet heap rinfo.opaque_rend r1) rinfo.alpha_rend r2
              p).point_count_ ≠ 0 := by
            have := hrest.1
            omega
          rw [hrest.2.1 hne, hstep.2.1 hne1]
        · cases hr : touches rest p with
          | true => exact hrest.2.2.1 hr hz
          | false =>
            have heq := hrest.2.2.2 hr
            rw [htouch, hr, Bool.or_false] at ht
            have hor : rinfo.opaque_rend = p ∨ rinfo.alpha_rend = p := by
              simpa using ht
            rw [heq] at hz ⊢
            exact hstep.2.2.1 hor hz
        · rw [htouch] at ht
          simp only [Bool.or_eq_false_iff, beq_eq_false_iff_ne, ne_eq] at ht
          rw [hrest.2.2.2 ht.2]
          exact hstep.2.2.2 ht.1.1 ht.1.2

theorem foldl_merge_congr (f g : Nat → AxisAlignedBox) (l : List Nat)
    (h : ∀ p ∈ l, f p = g p) (b : AxisAlignedBox) :
    l.foldl (fun box p => box.merge (f p)) b = l.foldl (fun box p => box.merge (g p)) b := by
  induction l generalizing b with
  | nil => rfl
  | cons q rest ih =>
    simp only [List.foldl_cons]
    rw [h q (List.mem_cons_self _ _)]
    exact ih (fun p hp => h p (List.mem_cons_of_mem _ hp)) _

/-- C13 (amended): after the tombstone loop of `PointsRenderer::remove` over the
allocations `rends` of an id, a slab that still holds points has the box it had before the
`remove` (the positions of the removed points stay in it), a slab of the id that holds no
point has the null box, and the other slabs are untouched; `recalculateBounds` over the
slab list then gives the merge of exactly these boxes.  The aggregate box before the `add`
comes back only through slabs that become empty. -/
theorem C13_tombstoning_keeps_box_of_live_slab (s : PointsRenderer)
    (rends : List RenderableInfo) (heap1 : Nat → PointsRenderable)
    (hrem : removeRends s.heap rends = .ok heap1) :
    (∀ p, ((heap1 p).isEmpty = false → (heap1 p).mBox = (s.heap p).mBox) ∧
      (touches rends p = true → (heap1 p).isEmpty = true →
        (heap1 p).mBox = AxisAlignedBox.null) ∧
      (touches rends p = false → heap1 p = s.heap p)) ∧
    (PointsRenderer.recalculateBounds { s with heap := heap1 }).bounding_box_
      = s.renderables_.foldl
          (fun box p => box.merge
            (if (touches rends p && (heap1 p).isEmpty) = true then AxisAlignedBox.null
             else (s.heap p).mBox))
          AxisAlignedBox.null := by
  have hall : ∀ p, ((heap1 p).isEmpty = false → (heap1 p).mBox = (s.heap p).mBox) ∧
      (touches rends p = true → (heap1 p).isEmpty = true →
        (heap1 p).mBox = AxisAlignedBox.null) ∧
      (touches rends p = false → heap1 p = s.heap p) := by
    intro p
    have hb := removeRends_box s.heap heap1 rends hrem p
    refine ⟨fun he => hb.2.1 ?_, fun ht he => hb.2.2.1 ht ?_, hb.2.2.2⟩
    · simpa [PointsRenderable.isEmpty] using he
    · simpa [PointsRenderable.isEmpty] using he
  refine ⟨hall, ?_⟩
  show s.renderables_.foldl (fun box p => box.merge (heap1 p).mBox) AxisAlignedBox.null = _
  apply foldl_merge_congr
  intro p _
  cases ht : touches rends p with
  | false =>
    rw [(hall p).2.2 ht]
    simp
  | true =>
    cases he : (heap1 p).isEmpty with
    | true =>
      rw [(hall p).2.1 ht he]
      simp
    | false =>
      rw [(hall p).1 he]
      simp

theorem C13_tombstoning_keeps_box_of_live_slab_witness :
    (∀ p, ((heapFarTombstoned p).isEmpty = false →
        (heapFarTombstoned p).mBox = (storeFar.heap p).mBox) ∧
      (touches [⟨0, 2, 1, 1, 1, 0⟩] p = true → (heapFarTombstoned p).isEmpty = true →
        (heapFarTombstoned p).mBox = AxisAlignedBox.null) ∧
      (touches [⟨0, 2, 1, 1, 1, 0⟩] p = false → heapFarTombstoned p = storeFar.heap p)) ∧
    (PointsRenderer.recalculateBounds
        { storeFar with heap := heapFarTombstoned }).bounding_box_
      = storeFar.renderables_.foldl
          (fun box p => box.merge
            (if (touches [⟨0, 2, 1, 1, 1, 0⟩] p && (heapFarTombstoned p).isEmpty) = true
             then AxisAlignedBox.null
             else (storeFar.heap p).mBox))
          AxisAlignedBox.null :=
  C13_tombstoning_keeps_box_of_live_slab storeFar [⟨0, 2, 1, 1, 1, 0⟩] heapFarTombstoned
    (by with_unfolding_all rfl)

/-- C13, counterexample: `storeAfterOneAdd` is reached by one `add`; its aggregate box
spans z from -2 to 0.  `add(farBatch)`, a valid batch, returns the id 2 and puts its point
in slab 0, which holds two live points of id 1.  `remove(2)` never returns; and the box
that `recalculateBounds` computes after its tombstone loop spans z from -50 to 0, not the
box before the `add`. -/
theorem C13_counterexample_box_not_restored :
    Reachable exampleEnv exampleDesc storeAfterOneAdd ∧
    ValidFor exampleDesc farBatch ∧
    PointsRenderer.add exampleEnv 1 storeAfterOneAdd farBatch = .ok (storeFar, 2) ∧
    storeAfterOneAdd.bounding_box_ = AxisAlignedBox.finite ⟨0, 0, -2⟩ ⟨0, 0, 0⟩ ∧
    (∀ fuel : Nat, PointsRenderer.remove fuel storeFar 2 = .error Fault.fuel) ∧
    findPoints storeFar.points_ 2 = some ⟨[⟨0, 2, 1, 1, 1, 0⟩]⟩ ∧
    removeRends storeFar.heap [⟨0, 2, 1, 1, 1, 0⟩] = .ok heapFarTombstoned ∧
    (PointsRenderer.recalculateBounds
        { storeFar with
          heap := heapFarTombstoned, points_ := erasePoints storeFar.points_ 2 }).bounding_box_
      = AxisAlignedBox.finite ⟨0, 0, -50⟩ ⟨0, 0, 0⟩ := by
  have hadd1 : PointsRenderer.add exampleEnv 1 emptyStore threeMixed
      = .ok (storeAfterOneAdd, 1) := by with_unfolding_all rfl
  have hfind : findPoints storeFar.points_ 2 = some ⟨[⟨0, 2, 1, 1, 1, 0⟩]⟩ := by decide!
  have hrem : removeRends storeFar.heap [⟨0, 2, 1, 1, 1, 0⟩] = .ok heapFarTombstoned := by
    with_unfolding_all rfl
  refine ⟨Reachable.add Reachable.init hadd1, ⟨rfl, by decide, by decide⟩,
    by with_unfolding_all rfl, by decide!, ?_, hfind, hrem, by decide!⟩
  intro fuel
  unfold PointsRenderer.remove
  rw [hfind]
  simp only
  rw [hrem]
  simp only
  unfold PointsRenderer.shrinkRenderables
  simp only
  rw [shrinkLoop_stuck _ _ storeFar.renderables_ 0 0 0 (by decide!) (by decide!) (by decide!)
    fuel]

/-! ## The aggregate bounding box -/

theorem AxisAlignedBox.merge_null (b : AxisAlignedBox) :
    b.merge AxisAlignedBox.null = b := by
  cases b <;> rfl

theorem AxisAlignedBox.null_merge (b : AxisAlignedBox) :
    AxisAlignedBox.null.merge b = b := by
  cases b <;> rfl

theorem AxisAlignedBox.merge_assoc (a b c : AxisAlignedBox) :
    (a.merge b).merge c = a.merge (b.merge c) := by
  cases a <;> cases b <;> cases c <;>
    simp [AxisAlignedBox.merge, Vector3.makeFloor, Vector3.makeCeil, min_assoc, max_assoc]

theorem AxisAlignedBox.merge_comm (a b : AxisAlignedBox) : a.merge b = b.merge a := by
  cases a <;> cases b <;>
    simp [AxisAlignedBox.merge, Vector3.makeFloor, Vector3.makeCeil, min_comm, max_comm]

theorem AxisAlignedBox.merge_self (a : AxisAlignedBox) : a.merge a = a := by
  cases a <;> simp [AxisAlignedBox.merge, Vector3.makeFloor, Vector3.makeCeil]

theorem AxisAlignedBox.merge_right_comm (a b c : AxisAlignedBox) :
    (a.merge b).merge c = (a.merge c).merge b := by
  rw [AxisAlignedBox.merge_assoc, AxisAlignedBox.merge_comm b c,
    ← AxisAlignedBox.merge_assoc]

/-- Merging a point is merging the box that holds just that point. -/
theorem AxisAlignedBox.mergePoint_eq (b : AxisAlignedBox) (p : Vector3) :
    b.mergePoint p = b.merge (AxisAlignedBox.finite p p) := by
  cases b <;> rfl

/-- The point loop of `PointsRenderable::add` only merges into the box. -/
theorem addPoints_mBox (env : Env) (r : PointsRenderable) (points : Points) (ofn : Bool)
    (V : Nat) (w : List (Vector3 × ColorRGBA)) (c : AddCursor) :
    ∃ X, (addPoints env r points ofn V w c).mBox = c.mBox.merge X := by
  induction w generalizing c with
  | nil => exact ⟨AxisAlignedBox.null, (AxisAlignedBox.merge_null _).symm⟩
  | cons pc rest ih =>
    obtain ⟨p, col⟩ := pc
    unfold addPoints
    split
    · exact ih c
    · obtain ⟨X, hX⟩ := ih
        { fptr := c.fptr + (pointWords env r points ofn (env.fromRobot p)
            (env.convertColourValue col % UINT32_MOD) c.norm_it c.orient_it V).length
          out_count := c.out_count + 1
          norm_it := if r.desc_.has_normals || ofn then c.norm_it + 1 else c.norm_it
          orient_it :=
            if r.desc_.has_orientations && !ofn then c.orient_it + 1 else c.orient_it
          mBox := c.mBox.mergePoint (env.fromRobot p)
          vbuf := writeWords c.vbuf c.fptr (pointWords env r points ofn (env.fromRobot p)
            (env.convertColourValue col % UINT32_MOD) c.norm_it c.orient_it V) }
      refine ⟨(AxisAlignedBox.finite (env.fromRobot p) (env.fromRobot p)).merge X, ?_⟩
      simp only at hX ⊢
      rw [hX, AxisAlignedBox.mergePoint_eq, AxisAlignedBox.merge_assoc]

theorem PointsRenderable.added_mBox (env : Env) (r : PointsRenderable) (points : Points)
    (start : Nat) : ∃ X, (r.added env points start).mBox = r.mBox.merge X :=
  addPoints_mBox env r points _ _ _ _

theorem foldl_merge_init (f : Nat → AxisAlignedBox) (l : List Nat) (b : AxisAlignedBox) :
    l.foldl (fun box p => box.merge (f p)) b
      = b.merge (l.foldl (fun box p => box.merge (f p)) AxisAlignedBox.null) := by
  induction l generalizing b with
  | nil => exact (AxisAlignedBox.merge_null b).symm
  | cons q rest ih =>
    simp only [List.foldl_cons]
    rw [ih (b.merge (f q)), ih (AxisAlignedBox.null.merge (f q)), AxisAlignedBox.null_merge,
      AxisAlignedBox.merge_assoc]

/-- The box of a slab of the list is inside the merge over the list. -/
theorem foldl_merge_absorb (f : Nat → AxisAlignedBox) (l : List Nat) (q : Nat) (hq : q ∈ l)
    (b : AxisAlignedBox) :
    (l.foldl (fun box p => box.merge (f p)) b).merge (f q)
      = l.foldl (fun box p => box.merge (f p)) b := by
  induction l generalizing b with
  | nil => exact absurd hq (List.not_mem_nil q)
  | cons p rest ih =>
    simp only [List.foldl_cons]
    rcases List.mem_cons.1 hq with h | h
    · subst h
      rw [foldl_merge_init f rest (b.merge (f q)), AxisAlignedBox.merge_right_comm,
        AxisAlignedBox.merge_assoc b (f q) (f q), AxisAlignedBox.merge_self]
    · exact ih h _

/-- When the box of one slab of the list grows by `X`, the merge over the list grows by
`X`. -/
theorem foldl_merge_update (f g : Nat → AxisAlignedBox) (l : List Nat) (q : Nat)
    (X : AxisAlignedBox) (hq : q ∈ l) (hother : ∀ p ∈ l, p ≠ q → g p = f p)
    (hself : g q = (f q).merge X) (b : AxisAlignedBox) :
    l.foldl (fun box p => box.merge (g p)) b
      = (l.foldl (fun box p => box.merge (f p)) b).merge X := by
  induction l generalizing b with
  | nil => exact absurd hq (List.not_mem_nil q)
  | cons p rest ih =>
    simp only [List.foldl_cons]
    have hrest : ∀ p1 ∈ rest, p1 ≠ q → g p1 = f p1 :=
      fun p1 h1 => hother p1 (List.mem_cons_of_mem _ h1)
    by_cases hp : p = q
    · subst hp
      rw [hself]
      by_cases hmem : p ∈ rest
      · rw [ih hmem hrest, foldl_merge_init f rest ((b.merge ((f p).merge X))),
          foldl_merge_init f rest (b.merge (f p)), ← AxisAlignedBox.merge_assoc b (f p) X,
          AxisAlignedBox.merge_right_comm (b.merge (f p)) X, AxisAlignedBox.merge_assoc _ X X,
          AxisAlignedBox.merge_self]
      · have hc : ∀ p1 ∈ rest, g p1 = f p1 := by
          intro p1 h1
          exact hrest p1 h1 (fun h => hmem (h ▸ h1))
        rw [foldl_merge_congr g f rest hc, foldl_merge_init f rest ((b.merge ((f p).merge X))),
          foldl_merge_init f rest (b.merge (f p)), ← AxisAlignedBox.merge_assoc b (f p) X,
          AxisAlignedBox.merge_right_comm (b.merge (f p)) X]
    · rw [hother p (List.mem_cons_self _ _) hp]
      rcases List.mem_cons.1 hq with h | h
      · exact absurd h.symm hp
      · exact ih h hrest _
/-- The box arithmetic of one iteration of `PointsRenderer::add` when the two slabs
differ. -/
theorem box_step_other (A B1 B2 X Y : AxisAlignedBox) (h1 : A.merge B1 = A)
    (h2 : (A.merge X).merge B2 = A.merge X) :
    (A.merge (B1.merge X)).merge (B2.merge Y) = (A.merge X).merge Y := by
  rw [← AxisAlignedBox.merge_assoc A B1 X, h1, ← AxisAlignedBox.merge_assoc (A.merge X) B2 Y,
    h2]

/-- The box arithmetic of one iteration of `PointsRenderer::add` when the two calls of
`getOrCreateRenderable` return the same slab. -/
theorem box_step_same (A B1 X Y : AxisAlignedBox) (h1 : A.merge B1 = A) :
    (A.merge ((B1.merge X).merge Y)).merge ((B1.merge X).merge Y) = (A.merge X).merge Y := by
  rw [AxisAlignedBox.merge_assoc A, AxisAlignedBox.merge_self,
    ← AxisAlignedBox.merge_assoc A (B1.merge X) Y, ← AxisAlignedBox.merge_assoc A B1 X, h1]
/-- `getOrCreateRenderable` returns a slab of the list, keeps the slabs that were in the
list and their objects, and does not change the merge of the boxes over the list. -/
theorem getOrCreateRenderable_box (env : Env) (s : PointsRenderer) (alpha : Bool)
    (hwf : ∀ p ∈ s.renderables_, p < s.heap_size) :
    (∀ p ∈ (s.getOrCreateRenderable env alpha).1.renderables_,
      p < (s.getOrCreateRenderable env alpha).1.heap_size) ∧
    (s.getOrCreateRenderable env alpha).2
      ∈ (s.getOrCreateRenderable env alpha).1.renderables_ ∧
    (∀ p ∈ s.renderables_, p ∈ (s.getOrCreateRenderable env alpha).1.renderables_) ∧
    (∀ p ∈ s.renderables_, (s.getOrCreateRenderable env alpha).1.heap p = s.heap p) ∧
    (s.getOrCreateRenderable env alpha).1.bounding_box_ = s.bounding_box_ ∧
    (s.getOrCreateRenderable env alpha).1.renderables_.foldl
        (fun box p => box.merge ((s.getOrCreateRenderable env alpha).1.heap p).mBox)
        AxisAlignedBox.null
      = s.renderables_.foldl (fun box p => box.merge (s.heap p).mBox)
          AxisAlignedBox.null := by
  cases hfind : s.renderables_.find?
      (fun p => !(s.heap p).isFull && (alpha == (s.heap p).isAlpha)) with
  | some p =>
    rw [getOrCreateRenderable_of_some env s alpha p hfind]
    exact ⟨hwf, List.mem_of_find?_eq_some hfind, fun _ h => h, fun _ _ => rfl, rfl, rfl⟩
  | none =>
    rw [List.find?_eq_none] at hfind
    rw [getOrCreateRenderable_of_none env s alpha (fun p hp => by simpa using hfind p hp)]
    have hold : ∀ p ∈ s.renderables_,
        heapSet s.heap s.heap_size (PointsRenderable.new env s.desc_ alpha) p = s.heap p := by
      intro p hp
      exact heapSet_other _ _ _ _ (Nat.ne_of_lt (hwf p hp))
    refine ⟨?_, ?_, ?_, hold, rfl, ?_⟩
    · intro p hp
      rcases List.mem_append.1 hp with h | h
      · exact Nat.lt_succ_of_lt (hwf p h)
      · rw [List.mem_singleton.1 h]
        exact Nat.lt_succ_self _
    · exact List.mem_append_right _ (List.mem_singleton_self _)
    · intro p hp
      exact List.mem_append_left _ hp
    · show (s.renderables_ ++ [s.heap_size]).foldl
          (fun box p => box.merge
            (heapSet s.heap s.heap_size (PointsRenderable.new env s.desc_ alpha) p).mBox)
          AxisAlignedBox.null = _
      rw [List.foldl_append, List.foldl_cons, List.foldl_nil, heapSet_same]
      rw [foldl_merge_congr
        (fun p => (heapSet s.heap s.heap_size (PointsRenderable.new env s.desc_ alpha) p).mBox)
        (fun p => (s.heap p).mBox) s.renderables_
        (fun p hp => congrArg PointsRenderable.mBox (hold p hp))]
      exact AxisAlignedBox.merge_null _

/-- An iteration of the first loop of `PointsRenderer::add` that returns keeps `BoxInv`. -/
theorem addBody_boxInv (env : Env) (points : Points) (st st1 : AddState)
    (hinv : BoxInv st.store) (h : addBody env points st = .ok st1) : BoxInv st1.store := by
  obtain ⟨hwf1, hmem1, hsub1, hheap1, hbb1, hfold1⟩ :=
    getOrCreateRenderable_box env st.store false hinv.1
  unfold addBody at h
  simp only at h
  split at h
  · exact absurd h (by simp)
  · rename_i r1 a1 b1 hadd1
    have hr1 := (PointsRenderable.add_eq_ok env _ points _ _ hadd1).2
    injection hr1 with hr1 _
    obtain ⟨X, hX⟩ := PointsRenderable.added_mBox env
      ((st.store.getOrCreateRenderable env false).1.heap
        (st.store.getOrCreateRenderable env false).2) points st.total_opaque_count
    rw [← hr1] at hX
    obtain ⟨hwf2, hmem2, hsub2, hheap2, hbb2, hfold2⟩ :=
      getOrCreateRenderable_box env
        { (st.store.getOrCreateRenderable env false).1 with
          heap := heapSet (st.store.getOrCreateRenderable env false).1.heap
            (st.store.getOrCreateRenderable env false).2 r1 } true hwf1
    split at h
    · exact absurd h (by simp)
    · rename_i r2 a2 b2 hadd2
      have hr2 := (PointsRenderable.add_eq_ok env _ points _ _ hadd2).2
      injection hr2 with hr2 _
      obtain ⟨Y, hY⟩ := PointsRenderable.added_mBox env
        ((PointsRenderer.getOrCreateRenderable env
          { (st.store.getOrCreateRenderable env false).1 with
            heap := heapSet (st.store.getOrCreateRenderable env false).1.heap
              (st.store.getOrCreateRenderable env false).2 r1 } true).1.heap
          (PointsRenderer.getOrCreateRenderable env
          { (st.store.getOrCreateRenderable env false).1 with
            heap := heapSet (st.store.getOrCreateRenderable env false).1.heap
              (st.store.getOrCreateRenderable env false).2 r1 } true).2)
        points st.total_alpha_count
      rw [← hr2] at hY
      injection h with h
      subst h
      generalize hg1 : st.store.getOrCreateRenderable env false = g1 at *
      generalize hg2 : PointsRenderer.getOrCreateRenderable env
        { g1.1 with heap := heapSet g1.1.heap g1.2 r1 } true = g2 at *
      refine ⟨hwf2, ?_⟩
      show (g2.1.bounding_box_.merge (heapSet g2.1.heap g2.2 r2 g1.2).mBox).merge
          (heapSet g2.1.heap g2.2 r2 g2.2).mBox
        = g2.1.renderables_.foldl
            (fun box p => box.merge (heapSet g2.1.heap g2.2 r2 p).mBox) AxisAlignedBox.null
      -- the merge over the list after the two appends
      have hagg2 : g1.1.renderables_.foldl
          (fun box p => box.merge (heapSet g1.1.heap g1.2 r1 p).mBox) AxisAlignedBox.null
          = st.store.bounding_box_.merge X := by
        rw [foldl_merge_update (fun p => (g1.1.heap p).mBox)
          (fun p => (heapSet g1.1.heap g1.2 r1 p).mBox) g1.1.renderables_ g1.2 X hmem1
          (fun p _ hp => by simp only [heapSet_other _ _ _ _ hp])
          (by simp only [heapSet_same]; exact hX), hfold1, ← hinv.2]
      have hagg3 : g2.1.renderables_.foldl
          (fun box p => box.merge (g2.1.heap p).mBox) AxisAlignedBox.null
          = st.store.bounding_box_.merge X := hfold2.trans hagg2
      have hagg4 : g2.1.renderables_.foldl
          (fun box p => box.merge (heapSet g2.1.heap g2.2 r2 p).mBox) AxisAlignedBox.null
          = (st.store.bounding_box_.merge X).merge Y := by
        rw [foldl_merge_update (fun p => (g2.1.heap p).mBox)
          (fun p => (heapSet g2.1.heap g2.2 r2 p).mBox) g2.1.renderables_ g2.2 Y hmem2
          (fun p _ hp => by simp only [heapSet_other _ _ _ _ hp])
          (by simp only [heapSet_same]; exact hY), hagg3]
      -- what the two slabs hold
      have hB1 : st.store.bounding_box_.merge (g1.1.heap g1.2).mBox
          = st.store.bounding_box_ := by
        have := foldl_merge_absorb (fun p => (g1.1.heap p).mBox) g1.1.renderables_ g1.2 hmem1
          AxisAlignedBox.null
        rw [hfold1, ← hinv.2] at this
        exact this
      have hB2 : (st.store.bounding_box_.merge X).merge (g2.1.heap g2.2).mBox
          = st.store.bounding_box_.merge X := by
        have := foldl_merge_absorb (fun p => (g2.1.heap p).mBox) g2.1.renderables_ g2.2 hmem2
          AxisAlignedBox.null
        rw [hagg3] at this
        exact this
      have hkeep : g2.1.heap g1.2 = r1 := by
        rw [hheap2 g1.2 hmem1]
        exact heapSet_same _ _ _
      have hbb : g2.1.bounding_box_ = st.store.bounding_box_ := hbb2.trans hbb1
      rw [hagg4, hbb, heapSet_same, hY]
      by_cases hq : g1.2 = g2.2
      · have hB : (g2.1.heap g2.2).mBox = (g1.1.heap g1.2).mBox.merge X := by
          rw [← hq, hkeep, hX]
        rw [hq, heapSet_same, hY, hB]
        exact box_step_same _ _ X Y hB1
      · rw [heapSet_other _ _ _ _ hq, hkeep, hX]
        exact box_step_other _ _ _ X Y hB1 hB2
theorem addLoop_boxInv (env : Env) (points : Points) (pc : Nat) (fuel : Nat)
    (st st1 : AddState) (hinv : BoxInv st.store)
    (h : addLoop env points pc fuel st = .ok st1) : BoxInv st1.store := by
  induction fuel generalizing st with
  | zero =>
    unfold addLoop at h
    split at h
    · exact absurd h (by simp)
    · injection h with h
      subst h
      exact hinv
  | succ n ih =>
    unfold addLoop at h
    split at h
    · split at h
      · exact absurd h (by simp)
      · rename_i st2 hb
        exact ih st2 (addBody_boxInv env points st st2 hinv hb) h
    · injection h with h
      subst h
      exact hinv

theorem add_boxInv (env : Env) (fuel : Nat) (s s1 : PointsRenderer) (points : Points)
    (id : Nat) (hinv : BoxInv s) (h : PointsRenderer.add env fuel s points = .ok (s1, id)) :
    BoxInv s1 := by
  unfold PointsRenderer.add at h
  simp only at h
  split at h
  · exact absurd h (by simp)
  · rename_i st hloop
    have hst := addLoop_boxInv env points _ fuel _ st hinv hloop
    split at h
    · exact absurd h (by simp)
    · injection h with h
      injection h with h1 h2
      subst h1
      exact hst

/-- The loop of `shrinkRenderables` only erases entries of the list. -/
theorem shrinkLoop_subset (heap : Nat → PointsRenderable) (last fuel : Nat)
    (renderables : List Nat) (it empty_count : Nat) (l1 : List Nat)
    (h : shrinkLoop heap last fuel renderables it empty_count = .ok l1) :
    ∀ p ∈ l1, p ∈ renderables := by
  induction fuel generalizing renderables it empty_count with
  | zero =>
    unfold shrinkLoop at h
    split at h
    · injection h with h
      subst h
      exact fun _ hp => hp
    · exact absurd h (by simp)
  | succ n ih =>
    unfold shrinkLoop at h
    split at h
    · injection h with h
      subst h
      exact fun _ hp => hp
    · split at h
      · exact absurd h (by simp)
      · split at h
        · simp only at h
          split at h
          · intro p hp
            exact List.mem_of_mem_eraseIdx (ih _ _ _ h p hp)
          · exact ih _ _ _ h
        · exact ih _ _ _ h

theorem remove_boxInv (fuel : Nat) (s s1 : PointsRenderer) (id : Nat) (hinv : BoxInv s)
    (h : PointsRenderer.remove fuel s id = .ok s1) : BoxInv s1 := by
  unfold PointsRenderer.remove at h
  split at h
  · injection h with h
    subst h
    exact hinv
  · split at h
    · exact absurd h (by simp)
    · rename_i heap1 _
      unfold PointsRenderer.shrinkRenderables at h
      simp only at h
      split at h
      · exact absurd h (by simp)
      · rename_i l1 hloop
        injection h with h
        subst h
        exact ⟨fun p hp => hinv.1 p (shrinkLoop_subset _ _ _ _ _ _ l1 hloop p hp), rfl⟩

theorem reachable_boxInv (env : Env) (desc : PointsRendererDesc) (s : PointsRenderer)
    (h : Reachable env desc s) : BoxInv s := by
  induction h with
  | init => exact ⟨fun p hp => absurd hp (List.not_mem_nil p), rfl⟩
  | add _ hadd ih => exact add_boxInv env _ _ _ _ _ ih hadd
  | remove _ hrem ih => exact remove_boxInv _ _ _ _ ih hrem
  | clear _ _ => exact ⟨fun p hp => absurd hp (List.not_mem_nil p), rfl⟩

theorem foldl_merge_null (f : Nat → AxisAlignedBox) (l : List Nat)
    (h : ∀ p ∈ l, f p = AxisAlignedBox.null) :
    l.foldl (fun box p => box.merge (f p)) AxisAlignedBox.null = AxisAlignedBox.null := by
  induction l with
  | nil => rfl
  | cons q rest ih =>
    simp only [List.foldl_cons]
    rw [h q (List.mem_cons_self _ _)]
    exact ih (fun p hp => h p (List.mem_cons_of_mem _ hp))

/-- The stores of the example cycle: `remove(1)` finds its id, and afterwards the ids 2 and
3 are bound to allocations on the slabs 0 and 1. -/
theorem storeCycleFar_facts :
    findPoints storeEmptyHandle.points_ 1 = some ⟨[]⟩ ∧
    findPoints storeHandleRemoved.points_ 1 = none ∧
    findPoints storeAfterCycle.points_ 2 = some ⟨[⟨0, 0, 2, 1, 0, 1⟩]⟩ ∧
    findPoints storeCycleFar.points_ 3 = some ⟨[⟨0, 2, 1, 1, 1, 0⟩]⟩ ∧
    storeCycleFar.renderables_ = [0, 1] ∧
    (storeCycleFar.heap 0).point_count_ = 3 ∧ (storeCycleFar.heap 1).point_count_ = 1 ∧
    observe (fun heap1 => ((heap1 0).point_count_, (heap1 1).point_count_))
        (removeRends storeCycleFar.heap [⟨0, 0, 2, 1, 0, 1⟩]) = some (1, 0) ∧
    allocatedAt (erasePoints storeCycleFar.points_ 2) 0 = 1 ∧
    allocatedAt (erasePoints storeCycleFar.points_ 2) 1 = 0 := by
  decide!

/-- C14: in every store built from a fresh `PointsRenderer` by `add`, `remove` and `clear`
calls that return, the aggregate box `bounding_box_` is the merge of the boxes of the
slabs in `renderables_`; it is null when the list is empty and when the box of every slab
in it is null, and it contains the box of every slab of the list.  In `remove` of a
present id, once the tombstone loop has returned and the id is erased,
`recalculateBounds` sets the aggregate box to the merge of the boxes of the slabs of the
list it finds, whatever slabs the reclamation pass has left in it, and that box lies inside
the aggregate box from before the call.  For every store whatsoever, a
`shrinkRenderables` that returns, and so a `remove` of a present id that returns, leaves
the aggregate box equal to the merge of the boxes of the slabs in the list. -/
theorem C14_aggregate_box_is_merge_of_slab_boxes (env : Env) (desc : PointsRendererDesc)
    (s : PointsRenderer) (h : Reachable env desc s) :
    s.bounding_box_
      = s.renderables_.foldl (fun box p => box.merge (s.heap p).mBox) AxisAlignedBox.null ∧
    (s.renderables_ = [] → s.bounding_box_ = AxisAlignedBox.null) ∧
    ((∀ p ∈ s.renderables_, (s.heap p).mBox = AxisAlignedBox.null) →
      s.bounding_box_ = AxisAlignedBox.null) ∧
    (∀ p ∈ s.renderables_, s.bounding_box_.merge (s.heap p).mBox = s.bounding_box_) ∧
    (∀ (id : Nat) (pinfo : PointsInfo) (heap1 : Nat → PointsRenderable) (l : List Nat),
      findPoints s.points_ id = some pinfo → removeRends s.heap pinfo.rends = .ok heap1 →
      (PointsRenderer.recalculateBounds
          { s with heap := heap1, points_ := erasePoints s.points_ id,
                   renderables_ := l }).bounding_box_
        = l.foldl (fun box p => box.merge (heap1 p).mBox) AxisAlignedBox.null ∧
      ((∀ p ∈ l, p ∈ s.renderables_) →
        s.bounding_box_.merge
            (PointsRenderer.recalculateBounds
              { s with heap := heap1, points_ := erasePoints s.points_ id,
                       renderables_ := l }).bounding_box_
          = s.bounding_box_)) ∧
    (∀ (s0 s1 : PointsRenderer) (fuel : Nat),
      PointsRenderer.shrinkRenderables fuel s0 = .ok s1 →
      s1.bounding_box_
        = s1.renderables_.foldl (fun box p => box.merge (s1.heap p).mBox)
            AxisAlignedBox.null) ∧
    (∀ (s0 s1 : PointsRenderer) (fuel id : Nat),
      (findPoints s0.points_ id).isSome = true →
      PointsRenderer.remove fuel s0 id = .ok s1 →
      s1.bounding_box_
        = s1.renderables_.foldl (fun box p => box.merge (s1.heap p).mBox)
            AxisAlignedBox.null) := by
  have hinv := (reachable_boxInv env desc s h).2
  have hshrink : ∀ (s0 s1 : PointsRenderer) (fuel : Nat),
      PointsRenderer.shrinkRenderables fuel s0 = .ok s1 →
      s1.bounding_box_
        = s1.renderables_.foldl (fun box p => box.merge (s1.heap p).mBox)
            AxisAlignedBox.null := by
    intro s0 s1 fuel hs
    unfold PointsRenderer.shrinkRenderables at hs
    split at hs
    · exact absurd hs (by simp)
    · injection hs with hs
      subst hs
      rfl
  refine ⟨hinv, fun hnil => ?_, fun hall => ?_, fun p hp => ?_, ?_, hshrink, ?_⟩
  · rw [hinv, hnil]
    rfl
  · rw [hinv]
    exact foldl_merge_null (fun p => (s.heap p).mBox) s.renderables_ hall
  · rw [hinv]
    exact foldl_merge_absorb (fun p => (s.heap p).mBox) s.renderables_ p hp _
  · intro id pinfo heap1 l _ hrem
    refine ⟨rfl, fun hsub => ?_⟩
    show s.bounding_box_.merge
        (l.foldl (fun box p => box.merge (heap1 p).mBox) AxisAlignedBox.null)
      = s.bounding_box_
    have hstep : ∀ p ∈ l, s.bounding_box_.merge (heap1 p).mBox = s.bounding_box_ := by
      intro p hp
      have hb := removeRends_box s.heap heap1 pinfo.rends hrem p
      by_cases hz : (heap1 p).point_count_ = 0
      · cases ht : touches pinfo.rends p with
        | true =>
          rw [hb.2.2.1 ht hz]
          exact AxisAlignedBox.merge_null _
        | false =>
          rw [hb.2.2.2 ht, hinv]
          exact foldl_merge_absorb (fun p => (s.heap p).mBox) s.renderables_ p (hsub p hp) _
      · rw [hb.2.1 hz, hinv]
        exact foldl_merge_absorb (fun p => (s.heap p).mBox) s.renderables_ p (hsub p hp) _
    have hgen : ∀ (A : AxisAlignedBox) (l : List Nat),
        (∀ p ∈ l, A.merge (heap1 p).mBox = A) → ∀ (B : AxisAlignedBox), A.merge B = A →
        A.merge (l.foldl (fun box p => box.merge (heap1 p).mBox) B) = A := by
      intro A l
      induction l with
      | nil => exact fun _ B hB => hB
      | cons q rest ih =>
        intro hst B hB
        simp only [List.foldl_cons]
        apply ih (fun p hp => hst p (List.mem_cons_of_mem _ hp))
        rw [← AxisAlignedBox.merge_assoc A B (heap1 q).mBox, hB]
        exact hst q (List.mem_cons_self _ _)
    exact hgen s.bounding_box_ l hstep AxisAlignedBox.null (AxisAlignedBox.merge_null _)
  · intro s0 s1 fuel id hsome hrem
    unfold PointsRenderer.remove at hrem
    split at hrem
    · rename_i hnone
      rw [hnone] at hsome
      exact absurd hsome (by simp)
    · split at hrem
      · exact absurd hrem (by simp)
      · exact hshrink _ s1 fuel hrem

theorem C14_aggregate_box_is_merge_of_slab_boxes_witness :
    storeAfterCycle.bounding_box_
      = storeAfterCycle.renderables_.foldl
          (fun box p => box.merge (storeAfterCycle.heap p).mBox) AxisAlignedBox.null ∧
    (storeAfterCycle.renderables_ = [] →
      storeAfterCycle.bounding_box_ = AxisAlignedBox.null) ∧
    ((∀ p ∈ storeAfterCycle.renderables_,
        (storeAfterCycle.heap p).mBox = AxisAlignedBox.null) →
      storeAfterCycle.bounding_box_ = AxisAlignedBox.null) ∧
    (∀ p ∈ storeAfterCycle.renderables_,
      storeAfterCycle.bounding_box_.merge (storeAfterCycle.heap p).mBox
        = storeAfterCycle.bounding_box_) ∧
    (∀ (id : Nat) (pinfo : PointsInfo) (heap1 : Nat → PointsRenderable) (l : List Nat),
      findPoints storeAfterCycle.points_ id = some pinfo →
      removeRends storeAfterCycle.heap pinfo.rends = .ok heap1 →
      (PointsRenderer.recalculateBounds
          { storeAfterCycle with
            heap := heap1, points_ := erasePoints storeAfterCycle.points_ id,
            renderables_ := l }).bounding_box_
        = l.foldl (fun box p => box.merge (heap1 p).mBox) AxisAlignedBox.null ∧
      ((∀ p ∈ l, p ∈ storeAfterCycle.renderables_) →
        storeAfterCycle.bounding_box_.merge
            (PointsRenderer.recalculateBounds
              { storeAfterCycle with
                heap := heap1, points_ := erasePoints storeAfterCycle.points_ id,
                renderables_ := l }).bounding_box_
          = storeAfterCycle.bounding_box_)) ∧
    (∀ (s0 s1 : PointsRenderer) (fuel : Nat),
      PointsRenderer.shrinkRenderables fuel s0 = .ok s1 →
      s1.bounding_box_
        = s1.renderables_.foldl (fun box p => box.merge (s1.heap p).mBox)
            AxisAlignedBox.null) ∧
    (∀ (s0 s1 : PointsRenderer) (fuel id : Nat),
      (findPoints s0.points_ id).isSome = true →
      PointsRenderer.remove fuel s0 id = .ok s1 →
      s1.bounding_box_
        = s1.renderables_.foldl (fun box p => box.merge (s1.heap p).mBox)
            AxisAlignedBox.null) :=
  C14_aggregate_box_is_merge_of_slab_boxes exampleEnv exampleDesc storeAfterCycle
    (Reachable.add
      (Reachable.remove
        (Reachable.add Reachable.init
          (show PointsRenderer.add exampleEnv 1 emptyStore emptyBatch
              = .ok (storeEmptyHandle, 1) from by with_unfolding_all rfl))
        (show PointsRenderer.remove 0 storeEmptyHandle 1 = .ok storeHandleRemoved from
          by with_unfolding_all rfl))
      (show PointsRenderer.add exampleEnv 1 storeHandleRemoved threeMixed
          = .ok (storeAfterCycle, 2) from by with_unfolding_all rfl))

/-! ## The vertices of an accepted point -/

theorem writeWords_append (buf : Nat → Word) (fptr : Nat) (a b : List Word) :
    writeWords buf fptr (a ++ b) = writeWords (writeWords buf fptr a) (fptr + a.length) b := by
  induction a generalizing buf fptr with
  | nil => rfl
  | cons w ws ih =>
    show writeWords (fun i => if i = fptr then w else buf i) (fptr + 1) (ws ++ b)
      = writeWords (writeWords (fun i => if i = fptr then w else buf i) (fptr + 1) ws)
          (fptr + (ws.length + 1)) b
    rw [ih, Nat.add_assoc, Nat.add_comm 1]

/-- Reading back after `writeWords`: the words stand at consecutive indices from `fptr`,
and no other word changes. -/
theorem writeWords_get (buf : Nat → Word) (fptr : Nat) (ws : List Word) (i : Nat) :
    writeWords buf fptr ws i
      = if fptr ≤ i ∧ i < fptr + ws.length then (ws[i - fptr]?).getD Word.indeterminate
        else buf i := by
  induction ws generalizing buf fptr with
  | nil =>
    simp only [writeWords, List.length_nil, Nat.add_zero]
    rw [if_neg (by omega)]
  | cons w ws ih =>
    simp only [writeWords, List.length_cons]
    rw [ih]
    by_cases h1 : fptr + 1 ≤ i ∧ i < fptr + 1 + ws.length
    · rw [if_pos h1, if_pos (by omega)]
      obtain ⟨d, hd⟩ : ∃ d, i - fptr = d + 1 := ⟨i - fptr - 1, by omega⟩
      rw [hd, List.getElem?_cons_succ]
      have : i - (fptr + 1) = d := by omega
      rw [this]
    · rw [if_neg h1]
      by_cases h2 : i = fptr
      · subst h2
        rw [if_pos rfl, if_pos (by omega), Nat.sub_self]
        simp
      · rw [if_neg h2, if_neg (by omega)]

/-- The point loop of `PointsRenderable::add` in closed form: the cursor advances by the
words of the records, which are stored consecutively, and the box is merged with the
converted positions of the accepted points and nothing else. -/
theorem addPoints_records (env : Env) (r : PointsRenderable) (points : Points) (ofn : Bool)
    (V : Nat) (w : List (Vector3 × ColorRGBA)) (c : AddCursor) :
    (addPoints env r points ofn V w c).vbuf
      = writeWords c.vbuf c.fptr
          (addRecords env r points ofn V w c.norm_it c.orient_it).flatten.flatten ∧
    (addPoints env r points ofn V w c).fptr
      = c.fptr + (addRecords env r points ofn V w c.norm_it c.orient_it).flatten.flatten.length ∧
    (addPoints env r points ofn V w c).mBox
      = (w.filter (fun pc => !skipsPoint r.alpha_ pc.2)).foldl
          (fun b pc => b.mergePoint (env.fromRobot pc.1)) c.mBox := by
  induction w generalizing c with
  | nil => exact ⟨rfl, rfl, rfl⟩
  | cons pc rest ih =>
    obtain ⟨p, col⟩ := pc
    unfold addPoints addRecords
    by_cases hs : skipsPoint r.alpha_ col = true
    · simp only [hs, if_true]
      have := ih c
      refine ⟨this.1, this.2.1, ?_⟩
      rw [this.2.2, List.filter_cons_of_neg (by simp [hs])]
    · simp only [hs]
      have := ih
        { fptr := c.fptr + (pointWords env r points ofn (env.fromRobot p)
            (env.convertColourValue col % UINT32_MOD) c.norm_it c.orient_it V).length
          out_count := c.out_count + 1
          norm_it := if r.desc_.has_normals || ofn then c.norm_it + 1 else c.norm_it
          orient_it :=
            if r.desc_.has_orientations && !ofn then c.orient_it + 1 else c.orient_it
          mBox := c.mBox.mergePoint (env.fromRobot p)
          vbuf := writeWords c.vbuf c.fptr (pointWords env r points ofn (env.fromRobot p)
            (env.convertColourValue col % UINT32_MOD) c.norm_it c.orient_it V) }
      simp only at this
      simp only [Bool.false_eq_true, if_false, List.flatten_cons, List.flatten_append]
      refine ⟨?_, ?_, ?_⟩
      · rw [this.1, writeWords_append]
        rfl
      · rw [this.2.1, List.length_append, Nat.add_assoc]
        rfl
      · rw [this.2.2, List.filter_cons_of_pos (by simp [hs])]
        rfl

/-- One list of records per accepted point, in order, each of `V` records that carry the
converted position and the packed colour of that point. -/
theorem addRecords_get (env : Env) (r : PointsRenderable) (points : Points) (ofn : Bool)
    (V : Nat) (w : List (Vector3 × ColorRGBA)) (n o : Nat) :
    (addRecords env r points ofn V w n o).length
      = (w.filter (fun pc => !skipsPoint r.alpha_ pc.2)).length ∧
    ∀ (k : Nat) (p : Vector3) (col : ColorRGBA),
      (w.filter (fun pc => !skipsPoint r.alpha_ pc.2))[k]? = some (p, col) →
      ∃ n1 o1, (addRecords env r points ofn V w n o)[k]?
        = some ((List.range V).map
            (vertexWords env r points ofn (env.fromRobot p)
              (env.convertColourValue col % UINT32_MOD) n1 o1)) := by
  induction w generalizing n o with
  | nil =>
    refine ⟨rfl, fun k p col h => ?_⟩
    simp at h
  | cons pc rest ih =>
    obtain ⟨p0, col0⟩ := pc
    unfold addRecords
    by_cases hs : skipsPoint r.alpha_ col0 = true
    · simp only [hs, if_true]
      rw [List.filter_cons_of_neg (by simp [hs])]
      exact ih n o
    · simp only [hs, Bool.false_eq_true, if_false]
      rw [List.filter_cons_of_pos (by simp [hs])]
      have := ih (if r.desc_.has_normals || ofn then n + 1 else n)
        (if r.desc_.has_orientations && !ofn then o + 1 else o)
      refine ⟨by simp only [List.length_cons, this.1], fun k p col h => ?_⟩
      cases k with
      | zero =>
        simp only [List.getElem?_cons_zero, Option.some.injEq, Prod.mk.injEq] at h
        obtain ⟨h1, h2⟩ := h
        subst h1 h2
        exact ⟨n, o, List.getElem?_cons_zero⟩
      | succ k =>
        rw [List.getElem?_cons_succ] at h
        obtain ⟨n1, o1, h1⟩ := this.2 k p col h
        exact ⟨n1, o1, by rw [List.getElem?_cons_succ]; exact h1⟩

/-- The fields that the constructor sets from the renderer and the descriptor do not change
afterwards. -/
theorem slabReachable_fields (env : Env) (desc : PointsRendererDesc) (alpha : Bool)
    (r : PointsRenderable) (h : SlabReachable env desc alpha r) :
    r.desc_ = desc ∧ r.alpha_ = alpha ∧
    r.supports_geometry_programs_ = env.useGeometryShaders ∧
    r.needs_offsets_ = (!env.useGeometryShaders && decide (desc.type ≠ .TYPE_POINTS)) ∧
    r.needs_normals_ = (!env.useGeometryShaders && decide (desc.type = .TYPE_BOXES)) := by
  induction h with
  | new => exact ⟨rfl, rfl, rfl, rfl, rfl⟩
  | @add r0 r1 points start a b _ hadd ih =>
    obtain ⟨_, hx⟩ := r0.add_eq_ok env points start _ hadd
    injection hx with hr1 _
    subst hr1
    exact ih
  | @remove r0 r1 start count _ hrem ih =>
    obtain ⟨_, _, hr1⟩ := r0.remove_eq_ok r1 start count hrem
    subst hr1
    exact ih

/-- The 36 entries of `g_box_normals` take exactly 6 values. -/
theorem g_box_normals_distinct :
    ((List.range 36).map (tableEntry g_box_normals)).toFinset.card = 6 := by
  decide!

theorem buildDeclaration_size (nn no : Bool) (desc : PointsRendererDesc) :
    getVertexSize (buildDeclaration nn no desc) 0
      = 4 * (3 + (if nn = true then 3 else 0) + (if no = true then 3 else 0)
          + (if desc.has_normals = true then 3 else 0)
          + (if desc.has_orientations = true then 4 else 0) + 1) := by
  obtain ⟨t, hn, ho, sc⟩ := desc
  cases nn <;> cases no <;> cases hn <;> cases ho <;> rfl

theorem vertexWords_length (env : Env) (r : PointsRenderable) (points : Points) (ofn : Bool)
    (pos : Vector3) (color n o j : Nat) :
    (vertexWords env r points ofn pos color n o j).length
      = 3 + (if r.needs_normals_ = true then 3 else 0)
          + (if r.needs_offsets_ = true then 3 else 0)
          + (if r.desc_.has_normals = true then 3 else 0)
          + (if r.desc_.has_orientations = true then 4 else 0) + 1 := by
  unfold vertexWords
  cases r.needs_normals_ <;> cases r.needs_offsets_ <;> cases r.desc_.has_normals <;>
    cases r.desc_.has_orientations <;> cases ofn <;> cases points.normals[n]? <;>
    cases points.orientations[o]? <;> rfl

/-- A vertex record fills one vertex of the buffer: its words are `getPointStride` bytes. -/
theorem vertexWords_stride (env : Env) (desc : PointsRendererDesc) (alpha : Bool)
    (r : PointsRenderable) (hr : SlabReachable env desc alpha r) (points : Points)
    (ofn : Bool) (pos : Vector3) (color n o j : Nat) :
    4 * (vertexWords env r points ofn pos color n o j).length = r.getPointStride := by
  have hdecl : r.vertexDeclaration = buildDeclaration r.needs_normals_ r.needs_offsets_ r.desc_ := by
    induction hr with
    | new => rfl
    | @add r0 r1 points start a b _ hadd ih =>
      obtain ⟨_, hx⟩ := r0.add_eq_ok env points start _ hadd
      injection hx with hr1 _
      subst hr1
      exact ih
    | @remove r0 r1 start count _ hrem ih =>
      obtain ⟨_, _, hr1⟩ := r0.remove_eq_ok r1 start count hrem
      subst hr1
      exact ih
  unfold PointsRenderable.getPointStride
  rw [hdecl, buildDeclaration_size, vertexWords_length, Nat.mod_eq_of_lt]
  unfold UINT32_MOD
  split_ifs <;> omega
/-- The record of vertex `j`: position, then entry `j` of the normal table for boxes and
of the offset table for every kind but points (both only without geometry programs), then
the per-point normal and orientation, then the colour. -/
theorem vertexWords_shape (env : Env) (desc : PointsRendererDesc) (alpha : Bool)
    (r : PointsRenderable) (hr : SlabReachable env desc alpha r) (points : Points)
    (ofn : Bool) (pos : Vector3) (color n o j : Nat) :
    ∃ tail, vertexWords env r points ofn pos color n o j
      = [Word.float pos.x, Word.float pos.y, Word.float pos.z]
        ++ (if env.useGeometryShaders = false ∧ desc.type = PointsType.TYPE_BOXES
            then tableEntry g_box_normals j else [])
        ++ (if env.useGeometryShaders = false ∧ desc.type ≠ PointsType.TYPE_POINTS
            then tableEntry (offsetTable desc.type) j else [])
        ++ tail ++ [Word.uint color] := by
  obtain ⟨hd, _, hg, hno, hnn⟩ := slabReachable_fields env desc alpha r hr
  refine ⟨(if r.desc_.has_normals then
        match points.normals[n]? with
        | some v =>
          [Word.float (env.normalFromRobot v).x, Word.float (env.normalFromRobot v).y,
            Word.float (env.normalFromRobot v).z]
        | none => [Word.indeterminate, Word.indeterminate, Word.indeterminate]
      else [])
    ++ (if r.desc_.has_orientations then
        if ofn then
          match points.normals[n]? with
          | some v =>
            [Word.float (env.getRotationTo (env.normalFromRobot v)).x,
              Word.float (env.getRotationTo (env.normalFromRobot v)).y,
              Word.float (env.getRotationTo (env.normalFromRobot v)).z,
              Word.float (env.getRotationTo (env.normalFromRobot v)).w]
          | none =>
            [Word.indeterminate, Word.indeterminate, Word.indeterminate, Word.indeterminate]
        else
          match points.orientations[o]? with
          | some q => [Word.float q.x, Word.float q.y, Word.float q.z, Word.float q.w]
          | none =>
            [Word.indeterminate, Word.indeterminate, Word.indeterminate, Word.indeterminate]
      else []), ?_⟩
  unfold vertexWords
  have hN : (if r.needs_normals_ = true then
        [readTable r.getNormals (j * 3), readTable r.getNormals (j * 3 + 1),
          readTable r.getNormals (j * 3 + 2)]
      else [])
      = (if env.useGeometryShaders = false ∧ desc.type = PointsType.TYPE_BOXES
          then tableEntry g_box_normals j else []) := by
    rw [hnn]
    unfold PointsRenderable.getNormals tableEntry
    rw [hg, hd]
    cases env.useGeometryShaders <;> cases desc.type <;> simp
  have hO : (if r.needs_offsets_ = true then
        [readTable r.getVertices (j * 3), readTable r.getVertices (j * 3 + 1),
          readTable r.getVertices (j * 3 + 2)]
      else [])
      = (if env.useGeometryShaders = false ∧ desc.type ≠ PointsType.TYPE_POINTS
          then tableEntry (offsetTable desc.type) j else []) := by
    rw [hno]
    unfold PointsRenderable.getVertices tableEntry offsetTable
    rw [hg, hd]
    cases env.useGeometryShaders <;> cases desc.type <;> simp
  rw [hN, hO]
  simp only [List.append_assoc]

/-- C17 (amended): a call of `PointsRenderable::add` on a slab built by the constructor,
with a batch that passes the assertions and whose normals and orientations are read inside
their sequences (`addPre`), returns, and for every point it accepts it stores exactly `V`
consecutive vertex records,
where `V` is 1 with geometry programs and otherwise 1, 6, 6, 36 by primitive kind.  The
records of the accepted points follow each other from the word the lock starts at, and
each fills one vertex of `getPointStride` bytes; every record carries the converted
position and the packed colour of its point; without
geometry programs record `j` carries entry `j` of `g_box_normals` for boxes and entry `j`
of the offset table for every kind but points, and with geometry programs neither.  Only
the converted positions of the accepted points are merged into the box.  For boxes
without geometry programs `V` is 36 and the normals take exactly 6 values. -/
theorem C17_accepted_point_writes_V_vertices (env : Env) (desc : PointsRendererDesc)
    (alpha : Bool) (r : PointsRenderable) (points : Points) (start : Nat)
    (hr : SlabReachable env desc alpha r) (hpre : r.addPre points start) :
    r.getVerticesPerPoint
      = (if env.useGeometryShaders = true then 1 else specVerticesPerPoint desc.type) ∧
    r.add env points start
      = .ok (r.added env points start, r.outStart, (r.acceptedPoints points start).length) ∧
    (r.recordsOf env points start).length = (r.acceptedPoints points start).length ∧
    (∀ (k : Nat) (p : Vector3) (col : ColorRGBA),
      (r.acceptedPoints points start)[k]? = some (p, col) →
      ∃ n o, (r.recordsOf env points start)[k]?
        = some ((List.range r.getVerticesPerPoint).map
            (vertexWords env r points (r.orientationFromNormal points) (env.fromRobot p)
              (env.convertColourValue col % UINT32_MOD) n o))) ∧
    (∀ (pos : Vector3) (color n o j : Nat),
      ∃ tail, vertexWords env r points (r.orientationFromNormal points) pos color n o j
        = [Word.float pos.x, Word.float pos.y, Word.float pos.z]
          ++ (if env.useGeometryShaders = false ∧ desc.type = PointsType.TYPE_BOXES
              then tableEntry g_box_normals j else [])
          ++ (if env.useGeometryShaders = false ∧ desc.type ≠ PointsType.TYPE_POINTS
              then tableEntry (offsetTable desc.type) j else [])
          ++ tail ++ [Word.uint color]) ∧
    (∀ (pos : Vector3) (color n o j : Nat),
      4 * (vertexWords env r points (r.orientationFromNormal points) pos color n o j).length
        = r.getPointStride) ∧
    (∀ i : Nat,
      (r.added env points start).vbuf i
        = if (r.addLock points start).1 / 4 ≤ i ∧
              i < (r.addLock points start).1 / 4
                + (r.recordsOf env points start).flatten.flatten.length
          then ((r.recordsOf env points start).flatten.flatten[
              i - (r.addLock points start).1 / 4]?).getD Word.indeterminate
          else r.vbuf i) ∧
    (r.added env points start).mBox
      = (r.acceptedPoints points start).foldl
          (fun b pc => b.mergePoint (env.fromRobot pc.1)) r.mBox ∧
    (env.useGeometryShaders = false → desc.type = PointsType.TYPE_BOXES →
      r.getVerticesPerPoint = 36 ∧
      ((List.range 36).map (tableEntry g_box_normals)).toFinset.card = 6) := by
  obtain ⟨hd, _, hg, _, _⟩ := slabReachable_fields env desc alpha r hr
  have hV : r.getVerticesPerPoint
      = (if env.useGeometryShaders = true then 1 else specVerticesPerPoint desc.type) := by
    unfold PointsRenderable.getVerticesPerPoint verticesPerPoint specVerticesPerPoint
    rw [hg, hd]
  have hrec := addPoints_records env r points (r.orientationFromNormal points)
    r.getVerticesPerPoint (r.addWindow points start)
    { fptr := (r.addLock points start).1 / 4
      out_count := 0
      norm_it := start
      orient_it := start
      mBox := r.mBox
      vbuf := r.vbuf }
  have hget := addRecords_get env r points (r.orientationFromNormal points)
    r.getVerticesPerPoint (r.addWindow points start) start start
  refine ⟨hV, ?_, hget.1, hget.2, ?_,
    fun pos color n o j => vertexWords_stride env desc alpha r hr points _ pos color n o j,
    ?_, hrec.2.2, ?_⟩
  · rw [r.add_ok env points start hpre]
    have : r.accepted points start = (r.acceptedPoints points start).length := by
      unfold PointsRenderable.accepted PointsRenderable.acceptedPoints
      exact List.countP_eq_length_filter _ _
    rw [this]
  · intro pos color n o j
    exact vertexWords_shape env desc alpha r hr points _ pos color n o j
  · intro i
    have hbuf : (r.added env points start).vbuf
        = writeWords r.vbuf ((r.addLock points start).1 / 4)
            (r.recordsOf env points start).flatten.flatten := hrec.1
    rw [hbuf, writeWords_get]
  · intro hgs hbox
    refine ⟨?_, g_box_normals_distinct⟩
    rw [hV, hgs, hbox]
    rfl

theorem C17_accepted_point_writes_V_vertices_witness :
    boxSlab.getVerticesPerPoint
      = (if exampleEnv.useGeometryShaders = true then 1
         else specVerticesPerPoint boxDesc.type) ∧
    boxSlab.add exampleEnv (onePoint ⟨1, 2, 3⟩) 0
      = .ok (boxSlab.added exampleEnv (onePoint ⟨1, 2, 3⟩) 0, boxSlab.outStart,
          (boxSlab.acceptedPoints (onePoint ⟨1, 2, 3⟩) 0).length) ∧
    (boxSlab.recordsOf exampleEnv (onePoint ⟨1, 2, 3⟩) 0).length
      = (boxSlab.acceptedPoints (onePoint ⟨1, 2, 3⟩) 0).length ∧
    (∀ (k : Nat) (p : Vector3) (col : ColorRGBA),
      (boxSlab.acceptedPoints (onePoint ⟨1, 2, 3⟩) 0)[k]? = some (p, col) →
      ∃ n o, (boxSlab.recordsOf exampleEnv (onePoint ⟨1, 2, 3⟩) 0)[k]?
        = some ((List.range boxSlab.getVerticesPerPoint).map
            (vertexWords exampleEnv boxSlab (onePoint ⟨1, 2, 3⟩)
              (boxSlab.orientationFromNormal (onePoint ⟨1, 2, 3⟩)) (exampleEnv.fromRobot p)
              (exampleEnv.convertColourValue col % UINT32_MOD) n o))) ∧
    (∀ (pos : Vector3) (color n o j : Nat),
      ∃ tail, vertexWords exampleEnv boxSlab (onePoint ⟨1, 2, 3⟩)
          (boxSlab.orientationFromNormal (onePoint ⟨1, 2, 3⟩)) pos color n o j
        = [Word.float pos.x, Word.float pos.y, Word.float pos.z]
          ++ (if exampleEnv.useGeometryShaders = false ∧ boxDesc.type = PointsType.TYPE_BOXES
              then tableEntry g_box_normals j else [])
          ++ (if exampleEnv.useGeometryShaders = false ∧
                boxDesc.type ≠ PointsType.TYPE_POINTS
              then tableEntry (offsetTable boxDesc.type) j else [])
          ++ tail ++ [Word.uint color]) ∧
    (∀ (pos : Vector3) (color n o j : Nat),
      4 * (vertexWords exampleEnv boxSlab (onePoint ⟨1, 2, 3⟩)
          (boxSlab.orientationFromNormal (onePoint ⟨1, 2, 3⟩)) pos color n o j).length
        = boxSlab.getPointStride) ∧
    (∀ i : Nat,
      (boxSlab.added exampleEnv (onePoint ⟨1, 2, 3⟩) 0).vbuf i
        = if (boxSlab.addLock (onePoint ⟨1, 2, 3⟩) 0).1 / 4 ≤ i ∧
              i < (boxSlab.addLock (onePoint ⟨1, 2, 3⟩) 0).1 / 4
                + (boxSlab.recordsOf exampleEnv (onePoint ⟨1, 2, 3⟩) 0).flatten.flatten.length
          then ((boxSlab.recordsOf exampleEnv (onePoint ⟨1, 2, 3⟩) 0).flatten.flatten[
              i - (boxSlab.addLock (onePoint ⟨1, 2, 3⟩) 0).1 / 4]?).getD Word.indeterminate
          else boxSlab.vbuf i) ∧
    (boxSlab.added exampleEnv (onePoint ⟨1, 2, 3⟩) 0).mBox
      = (boxSlab.acceptedPoints (onePoint ⟨1, 2, 3⟩) 0).foldl
          (fun b pc => b.mergePoint (exampleEnv.fromRobot pc.1)) boxSlab.mBox ∧
    (exampleEnv.useGeometryShaders = false → boxDesc.type = PointsType.TYPE_BOXES →
      boxSlab.getVerticesPerPoint = 36 ∧
      ((List.range 36).map (tableEntry g_box_normals)).toFinset.card = 6) :=
  C17_accepted_point_writes_V_vertices exampleEnv boxDesc false boxSlab (onePoint ⟨1, 2, 3⟩) 0
    SlabReachable.new (by decide!)

/-- C17, counterexample: with geometry programs a slab for boxes stores one vertex for the
accepted point, not 36, and the vertex carries the position and the colour only: four
words, with no entry of `g_box_normals` or `g_box_vertices`. -/
theorem C17_counterexample_box_with_geometry_programs :
    geometryBoxSlab.desc_.type = PointsType.TYPE_BOXES ∧
    (geometryBoxSlab.acceptedPoints (onePoint ⟨1, 2, 3⟩) 0).length = 1 ∧
    geometryBoxSlab.getVerticesPerPoint = 1 ∧
    observe (fun x => (x.1.vertexCount, x.2.2))
        (geometryBoxSlab.add geometryEnv (onePoint ⟨1, 2, 3⟩) 0) = some (1, 1) ∧
    geometryBoxSlab.recordsOf geometryEnv (onePoint ⟨1, 2, 3⟩) 0
      = [[[Word.float (-2), Word.float 3, Word.float (-1), Word.uint 255]]] ∧
    specVerticesPerPoint geometryBoxSlab.desc_.type = 36 := by
  refine ⟨rfl, by decide!, by decide, by decide!, by decide!, rfl⟩

/-! ## The box tables -/

/-- C22 (the code departs from it): both box tables hold 36 entries and every entry of
`g_box_normals` is a signed unit axis vector, but for the 12 entries of the faces
commented `front` and `back` the normal points into the cube: the vertices of `front` lie
at z = -0.5 and their normal is (0, 0, 1), so the dot product with the vertex is -0.5.
For the other 24 entries it is 0.5. -/
theorem C22_box_normals_inward_on_front_and_back :
    g_box_vertices.length = 108 ∧ g_box_normals.length = 108 ∧
    (List.range 36).all (fun i => decide (tableVector g_box_normals i ∈ signedUnitAxes))
      = true ∧
    tableVector g_box_vertices 0 = ⟨-1 / 2, 1 / 2, -1 / 2⟩ ∧
    tableVector g_box_normals 0 = ⟨0, 0, 1⟩ ∧
    (tableVector g_box_vertices 0).dot (tableVector g_box_normals 0) = -1 / 2 ∧
    (List.range 36).map
        (fun i => (tableVector g_box_vertices i).dot (tableVector g_box_normals i))
      = List.replicate 12 (-1 / 2) ++ List.replicate 24 (1 / 2) := by
  refine ⟨rfl, rfl, by decide!, by decide!, by decide!, by decide!, by decide!⟩

/-! ## Per-point normals and orientations -/

/-- The record list of the `k`-th accepted point is written with `norm_it` and `orient_it`
advanced `k` times from their start, whatever the index of the point in the batch: the
loop advances them for accepted points only. -/
theorem addRecords_iterators (env : Env) (r : PointsRenderable) (points : Points)
    (ofn : Bool) (V : Nat) (w : List (Vector3 × ColorRGBA)) (n o : Nat)
    (k : Nat) (p : Vector3) (col : ColorRGBA)
    (h : (w.filter (fun pc => !skipsPoint r.alpha_ pc.2))[k]? = some (p, col)) :
    (addRecords env r points ofn V w n o)[k]?
      = some ((List.range V).map
          (vertexWords env r points ofn (env.fromRobot p)
            (env.convertColourValue col % UINT32_MOD)
            (if r.desc_.has_normals || ofn then n + k else n)
            (if r.desc_.has_orientations && !ofn then o + k else o))) := by
  induction w generalizing n o k with
  | nil => simp at h
  | cons pc rest ih =>
    obtain ⟨p0, col0⟩ := pc
    unfold addRecords
    by_cases hs : skipsPoint r.alpha_ col0 = true
    · simp only [hs, if_true]
      rw [List.filter_cons_of_neg (by simp [hs])] at h
      exact ih n o k h
    · simp only [hs, Bool.false_eq_true, if_false]
      rw [List.filter_cons_of_pos (by simp [hs])] at h
      cases k with
      | zero =>
        simp only [List.getElem?_cons_zero, Option.some.injEq, Prod.mk.injEq] at h
        obtain ⟨h1, h2⟩ := h
        subst h1 h2
        simp
      | succ k =>
        rw [List.getElem?_cons_succ] at h
        have hn : (if (r.desc_.has_normals || ofn) = true
            then (if (r.desc_.has_normals || ofn) = true then n + 1 else n) + k
            else (if (r.desc_.has_normals || ofn) = true then n + 1 else n))
            = if (r.desc_.has_normals || ofn) = true then n + (k + 1) else n := by
          split_ifs <;> omega
        have ho : (if (r.desc_.has_orientations && !ofn) = true
            then (if (r.desc_.has_orientations && !ofn) = true then o + 1 else o) + k
            else (if (r.desc_.has_orientations && !ofn) = true then o + 1 else o))
            = if (r.desc_.has_orientations && !ofn) = true then o + (k + 1) else o := by
          split_ifs <;> omega
        rw [List.getElem?_cons_succ, ih _ _ k h, hn, ho]

/-- Where `derefsInRange` holds, the iterators with which the `k`-th accepted point is
written (`addRecords_iterators`) are inside their sequences wherever a vertex reads
them. -/
theorem derefsInRange_get (r : PointsRenderable) (points : Points) (ofn : Bool) (V : Nat)
    (hV : 0 < V) (w : List (Vector3 × ColorRGBA)) (n o : Nat)
    (h : derefsInRange r points ofn V w n o = true)
    (k : Nat) (hk : k < (w.filter (fun pc => !skipsPoint r.alpha_ pc.2)).length) :
    (r.desc_.has_normals = true →
      (if r.desc_.has_normals || ofn then n + k else n) < points.normals.length) ∧
    (r.desc_.has_orientations = true → ofn = true →
      (if r.desc_.has_normals || ofn then n + k else n) < points.normals.length) ∧
    (r.desc_.has_orientations = true → ofn = false →
      (if r.desc_.has_orientations && !ofn then o + k else o)
        < points.orientations.length) := by
  induction w generalizing n o k with
  | nil => simp at hk
  | cons pc rest ih =>
    obtain ⟨p0, col0⟩ := pc
    unfold derefsInRange at h
    by_cases hs : skipsPoint r.alpha_ col0 = true
    · simp only [hs, if_true] at h
      rw [List.filter_cons_of_neg (by simp [hs])] at hk
      exact ih n o h k hk
    · simp only [hs, Bool.false_eq_true, if_false, Bool.and_eq_true] at h
      rw [List.filter_cons_of_pos (by simp [hs])] at hk
      cases k with
      | zero =>
        have h1 := h.1
        have hV0 : decide (V = 0) = false := by simp; omega
        rw [hV0, Bool.false_or] at h1
        simp only [Bool.and_eq_true, Bool.or_eq_true, Bool.not_eq_true',
          decide_eq_true_eq] at h1
        refine ⟨fun hn => ?_, fun ho hofn => ?_, fun ho hofn => ?_⟩
        · rw [hn] at h1 ⊢
          simpa using h1.1
        · rw [ho, hofn] at h1
          rw [hofn]
          simpa using h1.2
        · rw [ho, hofn] at h1
          rw [ho, hofn]
          simpa using h1.2
      | succ k =>
        have hk1 : k < (rest.filter (fun pc => !skipsPoint r.alpha_ pc.2)).length := by
          simpa using hk
        have := ih _ _ h.2 k hk1
        refine ⟨fun hn => ?_, fun ho hofn => ?_, fun ho hofn => ?_⟩
        · have h1 := this.1 hn
          rw [hn] at h1 ⊢
          simp only [Bool.true_or, if_true] at h1 ⊢
          omega
        · have h1 := this.2.1 ho hofn
          rw [hofn] at h1 ⊢
          simp only [Bool.or_true, if_true] at h1 ⊢
          omega
        · have h1 := this.2.2 ho hofn
          rw [ho, hofn] at h1 ⊢
          simp only [Bool.not_false, Bool.and_self, Bool.and_true, and_self, if_true] at h1 ⊢
          omega

/-- In a call of `PointsRenderable::add` that returns, the normal and the orientation read
for the `k`-th accepted point are elements of their sequences: the branches of
`vertexWords` for a read outside the sequence are not taken. -/
theorem PointsRenderable.add_reads_in_range (env : Env) (r : PointsRenderable)
    (points : Points) (start : Nat) (x : PointsRenderable × Nat × Nat)
    (h : r.add env points start = .ok x) (hV : 0 < r.getVerticesPerPoint)
    (k : Nat) (hk : k < (r.acceptedPoints points start).length) :
    (r.desc_.has_normals = true → start + k < points.normals.length) ∧
    (r.desc_.has_orientations = true → r.orientationFromNormal points = true →
      start + k < points.normals.length) ∧
    (r.desc_.has_orientations = true → r.orientationFromNormal points = false →
      start + k < points.orientations.length) := by
  have hpre := (r.add_eq_ok env points start x h).1
  have hd := derefsInRange_get r points (r.orientationFromNormal points)
    r.getVerticesPerPoint hV (r.addWindow points start) start start hpre.2.2.2.2 k hk
  refine ⟨fun hn => ?_, fun ho hofn => ?_, fun ho hofn => ?_⟩
  · have h1 := hd.1 hn
    rw [hn] at h1
    simpa using h1
  · have h1 := hd.2.1 ho hofn
    rw [hofn] at h1
    simpa using h1
  · have h1 := hd.2.2 ho hofn
    rw [ho, hofn] at h1
    simpa using h1

/-- C21 (the code departs from it): `mixedAttributeBatch` has two points with a normal and
an orientation each; point 0 is alpha-blended and point 1 opaque.  An opaque slab with
per-point normals skips point 0, accepts point 1 and stores for it the position of index 1
with the converted normal of index 0; an opaque slab with per-point orientations stores
the orientation of index 0. -/
theorem C21_accepted_point_gets_attribute_of_earlier_index :
    normalsSlab.addPre mixedAttributeBatch 0 ∧
    normalsSlab.acceptedPoints mixedAttributeBatch 0 = [(⟨2, 0, 0⟩, opaqueWhite)] ∧
    mixedAttributeBatch.positions[1]? = some ⟨2, 0, 0⟩ ∧
    (mixedAttributeBatch.normals[1]?).map exampleEnv.normalFromRobot = some ⟨-1, 0, 0⟩ ∧
    (mixedAttributeBatch.normals[0]?).map exampleEnv.normalFromRobot = some ⟨0, 1, 0⟩ ∧
    normalsSlab.recordsOf exampleEnv mixedAttributeBatch 0
      = [[[Word.float 0, Word.float 0, Word.float (-2),
           Word.float 0, Word.float 1, Word.float 0, Word.uint 255]]] ∧
    observe (fun x => (x.2.1, x.2.2, (List.range 7).map x.1.vbuf))
        (normalsSlab.add exampleEnv mixedAttributeBatch 0)
      = some (0, 1, [Word.float 0, Word.float 0, Word.float (-2),
           Word.float 0, Word.float 1, Word.float 0, Word.uint 255]) ∧
    orientationsSlab.addPre mixedAttributeBatch 0 ∧
    orientationsSlab.acceptedPoints mixedAttributeBatch 0 = [(⟨2, 0, 0⟩, opaqueWhite)] ∧
    mixedAttributeBatch.orientations[1]? = some ⟨1, 0, 0, 0⟩ ∧
    mixedAttributeBatch.orientations[0]? = some ⟨0, 0, 0, 1⟩ ∧
    orientationsSlab.recordsOf exampleEnv mixedAttributeBatch 0
      = [[[Word.float 0, Word.float 0, Word.float (-2),
           Word.float 0, Word.float 0, Word.float 0, Word.float 1, Word.uint 255]]] ∧
    observe (fun x => (x.2.1, x.2.2, (List.range 8).map x.1.vbuf))
        (orientationsSlab.add exampleEnv mixedAttributeBatch 0)
      = some (0, 1, [Word.float 0, Word.float 0, Word.float (-2),
           Word.float 0, Word.float 0, Word.float 0, Word.float 1, Word.uint 255]) := by
  refine ⟨by decide!, by decide!, rfl, by decide!, by decide!, by decide!, by decide!,
    by decide!, by decide!, rfl, rfl, by decide!, by decide!⟩

/-! ## The locked byte range -/

/-- `PointsRenderable::add` keeps `point_count_ ≤ cursor ≤ POINTS_PER_VBO` and adds the
number of accepted points to both. -/
theorem PointsRenderable.added_counters (env : Env) (r : PointsRenderable) (points : Points)
    (start : Nat) (h1 : r.point_count_ ≤ r.outStart) (h2 : r.outStart ≤ POINTS_PER_VBO) :
    (r.added env points start).point_count_ = r.point_count_ + r.accepted points start ∧
    (r.added env points start).outStart = r.outStart + r.accepted points start ∧
    r.outStart + r.accepted points start ≤ POINTS_PER_VBO := by
  have hacc := r.accepted_le points start
  have hend := r.addEnd_le points start
  have hle : r.outStart + r.accepted points start ≤ POINTS_PER_VBO := by omega
  refine ⟨?_, r.added_outStart env points start hle, hle⟩
  rw [PointsRenderable.added_point_count]
  apply Nat.mod_eq_of_lt
  simp only [POINTS_PER_VBO_eq, UINT32_MOD_eq] at *
  omega

/-- The counters of a slab built by the constructor. -/
theorem slabReachable_counters (env : Env) (desc : PointsRendererDesc) (alpha : Bool)
    (r : PointsRenderable) (h : SlabReachable env desc alpha r) :
    r.point_count_ ≤ r.outStart ∧ r.outStart ≤ POINTS_PER_VBO ∧
    r.numVertices = POINTS_PER_VBO * r.getVerticesPerPoint := by
  induction h with
  | new =>
    have h0 : (PointsRenderable.new env desc alpha).outStart = 0 := by
      unfold PointsRenderable.outStart
      simp [PointsRenderable.new]
    rw [h0]
    exact ⟨Nat.le_refl 0, Nat.zero_le _, rfl⟩
  | @add r0 r1 points start a b _ hadd ih =>
    obtain ⟨_, hx⟩ := r0.add_eq_ok env points start _ hadd
    injection hx with hr1 _
    subst hr1
    obtain ⟨hc1, hc2, hc3⟩ := r0.added_counters env points start ih.1 ih.2.1
    rw [hc1, hc2]
    exact ⟨by omega, hc3, ih.2.2⟩
  | @remove r0 r1 start count _ hrem ih =>
    obtain ⟨hc, _, hr1⟩ := r0.remove_eq_ok r1 start count hrem
    subst hr1
    have hcur : (r0.removed start count).outStart = r0.outStart := rfl
    have hpc : (r0.removed start count).point_count_ = r0.point_count_ - count := rfl
    rw [hcur, hpc]
    exact ⟨by omega, ih.2.1, ih.2.2⟩

/-- The stride of a slab built by the constructor is at most 68 bytes and not zero. -/
theorem slabReachable_stride (env : Env) (desc : PointsRendererDesc) (alpha : Bool)
    (r : PointsRenderable) (h : SlabReachable env desc alpha r) :
    0 < r.getPointStride ∧ r.getPointStride ≤ 68 := by
  have hs := vertexWords_stride env desc alpha r h ⟨[], [], [], []⟩ false ⟨0, 0, 0⟩ 0 0 0 0
  rw [vertexWords_length] at hs
  rw [← hs]
  constructor
  · omega
  · split_ifs <;> omega

/-- The arguments of the `lock` call of `PointsRenderable::add` for a slab built by the
constructor: the range starts at the byte of the cursor and its size is the byte offset of
`end`, not the number of bytes between the cursor and `end`.  The size covers the bytes
written; the range ends inside the buffer exactly when `cursor + end ≤ POINTS_PER_VBO`. -/
theorem addLock_range (env : Env) (desc : PointsRendererDesc) (alpha : Bool)
    (r : PointsRenderable) (h : SlabReachable env desc alpha r) (points : Points)
    (start : Nat) :
    (r.addLock points start).1 = r.outStart * r.getPointStride * r.getVerticesPerPoint ∧
    (r.addLock points start).2
      = r.addEnd points start * r.getPointStride * r.getVerticesPerPoint ∧
    r.accepted points start * r.getVerticesPerPoint * r.getPointStride
      ≤ (r.addLock points start).2 ∧
    ((r.addLock points start).1 + (r.addLock points start).2
        ≤ r.numVertices * r.getPointStride
      ↔ r.outStart + r.addEnd points start ≤ POINTS_PER_VBO) := by
  obtain ⟨_, hcur, hnum⟩ := slabReachable_counters env desc alpha r h
  obtain ⟨hs0, hs68⟩ := slabReachable_stride env desc alpha r h
  have hV0 := r.getVerticesPerPoint_pos
  have hV36 := r.getVerticesPerPoint_le
  have hend := r.addEnd_le points start
  have hacc := r.accepted_le points start
  have hbound : ∀ n, n ≤ POINTS_PER_VBO →
      (n * r.getPointStride * r.getVerticesPerPoint) % UINT32_MOD
        = n * r.getPointStride * r.getVerticesPerPoint := by
    intro n hn
    apply Nat.mod_eq_of_lt
    have h1 : n * r.getPointStride ≤ POINTS_PER_VBO * 68 := Nat.mul_le_mul hn hs68
    have h2 : n * r.getPointStride * r.getVerticesPerPoint ≤ POINTS_PER_VBO * 68 * 36 :=
      Nat.mul_le_mul h1 hV36
    simp only [POINTS_PER_VBO_eq, UINT32_MOD_eq] at *
    omega
  have e1 : (r.addLock points start).1
      = r.outStart * r.getPointStride * r.getVerticesPerPoint := hbound _ hcur
  have e2 : (r.addLock points start).2
      = r.addEnd points start * r.getPointStride * r.getVerticesPerPoint := hbound _ hend
  refine ⟨e1, e2, ?_, ?_⟩
  · rw [e2, Nat.mul_right_comm]
    exact Nat.mul_le_mul_right _ (Nat.mul_le_mul_right _ (by omega))
  · rw [e1, e2, hnum, ← Nat.add_mul, ← Nat.add_mul, Nat.mul_right_comm POINTS_PER_VBO]
    constructor
    · intro hle
      exact Nat.le_of_mul_le_mul_right (Nat.le_of_mul_le_mul_right hle hV0) hs0
    · intro hle
      exact Nat.mul_le_mul_right _ (Nat.mul_le_mul_right _ hle)

/-- C23 (the code departs from it): `slabThreeAllocations` is built by the constructor and
three appends; its cursor is 3, with one vertex of 16 bytes per point in a buffer of
8192 * 16 = 131072 bytes.  For a batch of 8192 opaque points `PointsRenderable::add`
passes its assertions and computes `end` = 8192, `lock_start` = 48 and `lock_size`
= 131072 (the byte offset of `end`), so the locked range ends at byte 131120, past the end
of the buffer; the 8189 points accepted need the 131024 bytes up to byte 131072. -/
theorem C23_lock_range_exceeds_buffer :
    SlabReachable exampleEnv exampleDesc false slabThreeAllocations ∧
    slabThreeAllocations.outStart = 3 ∧
    slabThreeAllocations.getVerticesPerPoint = 1 ∧
    slabThreeAllocations.getPointStride = 16 ∧
    slabThreeAllocations.numVertices * slabThreeAllocations.getPointStride = 131072 ∧
    slabThreeAllocations.addPre (uniformBatch 8192 opaqueWhite) 0 ∧
    slabThreeAllocations.addEnd (uniformBatch 8192 opaqueWhite) 0 = 8192 ∧
    slabThreeAllocations.addLock (uniformBatch 8192 opaqueWhite) 0 = (48, 131072) ∧
    slabThreeAllocations.accepted (uniformBatch 8192 opaqueWhite) 0 = 8189 ∧
    slabThreeAllocations.numVertices * slabThreeAllocations.getPointStride
      < (slabThreeAllocations.addLock (uniformBatch 8192 opaqueWhite) 0).1
        + (slabThreeAllocations.addLock (uniformBatch 8192 opaqueWhite) 0).2 := by
  have hreach : SlabReachable exampleEnv exampleDesc false slabThreeAllocations :=
    SlabReachable.add
      (SlabReachable.add
        (SlabReachable.add SlabReachable.new
          (show freshOpaqueSlab.add exampleEnv (onePoint ⟨0, 0, 10⟩) 0 = .ok (_, 0, 1) from
            by with_unfolding_all rfl))
        (show PointsRenderable.add exampleEnv _ (onePoint ⟨0, 0, 20⟩) 0 = .ok (_, 1, 1) from
          by with_unfolding_all rfl))
      (show PointsRenderable.add exampleEnv _ (onePoint ⟨0, 0, 30⟩) 0
          = .ok (slabThreeAllocations, 2, 1) from by with_unfolding_all rfl)
  have hcur : slabThreeAllocations.outStart = 3 := by decide!
  have hV : slabThreeAllocations.getVerticesPerPoint = 1 := by decide!
  have hstride : slabThreeAllocations.getPointStride = 16 := by decide!
  have hnum : slabThreeAllocations.numVertices = 8192 := by decide!
  have hend : slabThreeAllocations.addEnd (uniformBatch 8192 opaqueWhite) 0 = 8192 := by
    unfold PointsRenderable.addEnd
    rw [hcur, uniformBatch_length]
    rfl
  have hlock : slabThreeAllocations.addLock (uniformBatch 8192 opaqueWhite) 0
      = (48, 131072) := by
    unfold PointsRenderable.addLock
    rw [hend, hcur, hV, hstride]
    rfl
  have hacc : slabThreeAllocations.accepted (uniformBatch 8192 opaqueWhite) 0 = 8189 := by
    rw [uniformBatch_accepted _ _ _ _ (by
      have ha : slabThreeAllocations.alpha_ = false := by decide!
      rw [ha]
      exact skipsPoint_opaqueWhite), hcur]
    rfl
  refine ⟨hreach, hcur, hV, hstride, by rw [hnum, hstride], ?_, hend, hlock, hacc, ?_⟩
  · exact uniformBatch_addPre _ _ _ _ (by decide!) (by decide!) (by decide)
  · rw [hlock, hnum, hstride]
    decide

/-! ## Point counts and the handle table -/

theorem rendsCountAt_nil (p : Nat) : rendsCountAt [] p = 0 := rfl

theorem rendsCountAt_cons (rinfo : RenderableInfo) (rest : List RenderableInfo) (p : Nat) :
    rendsCountAt (rinfo :: rest) p = rinfo.countAt p + rendsCountAt rest p := by
  simp [rendsCountAt]

theorem rendsCountAt_append (a b : List RenderableInfo) (p : Nat) :
    rendsCountAt (a ++ b) p = rendsCountAt a p + rendsCountAt b p := by
  simp [rendsCountAt]

theorem allocatedAt_cons (e : Nat × PointsInfo) (rest : List (Nat × PointsInfo)) (p : Nat) :
    allocatedAt (e :: rest) p = rendsCountAt e.2.rends p + allocatedAt rest p := by
  simp [allocatedAt]

theorem allocatedAt_append (a b : List (Nat × PointsInfo)) (p : Nat) :
    allocatedAt (a ++ b) p = allocatedAt a p + allocatedAt b p := by
  simp [allocatedAt]

theorem touches_cons (rinfo : RenderableInfo) (rest : List RenderableInfo) (p : Nat) :
    touches (rinfo :: rest) p
      = ((rinfo.opaque_rend == p || rinfo.alpha_rend == p) || touches rest p) := by
  simp [touches]

/-- Allocations that do not name a slab record no point for it. -/
theorem rendsCountAt_of_not_touches (rends : List RenderableInfo) (p : Nat)
    (h : touches rends p = false) : rendsCountAt rends p = 0 := by
  induction rends with
  | nil => rfl
  | cons rinfo rest ih =>
    rw [touches_cons] at h
    simp only [Bool.or_eq_false_iff, beq_eq_false_iff_ne, ne_eq] at h
    rw [rendsCountAt_cons, ih h.2]
    unfold RenderableInfo.countAt
    rw [if_neg h.1.1, if_neg h.1.2]

theorem allocatedAt_of_not_touched (points_ : List (Nat × PointsInfo)) (p : Nat)
    (h : ∀ e ∈ points_, touches e.2.rends p = false) : allocatedAt points_ p = 0 := by
  induction points_ with
  | nil => rfl
  | cons e rest ih =>
    rw [allocatedAt_cons, rendsCountAt_of_not_touches _ _ (h e (List.mem_cons_self _ _)),
      ih (fun e1 h1 => h e1 (List.mem_cons_of_mem _ h1))]

theorem findPoints_eq_none_iff (points_ : List (Nat × PointsInfo)) (id : Nat) :
    findPoints points_ id = none ↔ ∀ e ∈ points_, e.1 ≠ id := by
  unfold findPoints
  rw [Option.map_eq_none', List.find?_eq_none]
  constructor
  · intro h e he
    simpa using h e he
  · intro h e he
    simpa using h e he

/-- Erasing the entry of a present id takes its allocations out of the count. -/
theorem allocatedAt_erase (points_ : List (Nat × PointsInfo)) (id : Nat) (pinfo : PointsInfo)
    (hk : (points_.map Prod.fst).Nodup) (hf : findPoints points_ id = some pinfo) (p : Nat) :
    allocatedAt points_ p
      = allocatedAt (erasePoints points_ id) p + rendsCountAt pinfo.rends p := by
  induction points_ with
  | nil => simp [findPoints] at hf
  | cons e rest ih =>
    rw [List.map_cons, List.nodup_cons] at hk
    by_cases he : e.1 = id
    · have hpi : pinfo = e.2 := by
        unfold findPoints at hf
        rw [List.find?_cons_of_pos _ (by simpa using he)] at hf
        simpa using hf.symm
      have hrest : erasePoints rest id = rest := by
        unfold erasePoints
        rw [List.filter_eq_self]
        intro e1 h1
        have : e1.1 ≠ id := by
          intro hc
          apply hk.1
          rw [he, ← hc]
          exact List.mem_map_of_mem _ h1
        simpa using this
      have herase : erasePoints (e :: rest) id = rest := by
        have : erasePoints (e :: rest) id = erasePoints rest id := by
          unfold erasePoints
          rw [List.filter_cons_of_neg (by simpa using he)]
        rw [this, hrest]
      rw [herase, allocatedAt_cons, hpi, Nat.add_comm]
    · have hf1 : findPoints rest id = some pinfo := by
        unfold findPoints at hf ⊢
        rw [List.find?_cons_of_neg _ (by simpa using he)] at hf
        exact hf
      have herase : erasePoints (e :: rest) id = e :: erasePoints rest id := by
        unfold erasePoints
        rw [List.filter_cons_of_pos (by simpa using he)]
      rw [herase, allocatedAt_cons, allocatedAt_cons, ih hk.2 hf1, Nat.add_assoc]

/-- The tombstone loop of `PointsRenderer::remove` that returns lowers the `point_count_`
of each slab by the points its allocations record for it and leaves the cursor. -/
theorem removeRends_counts (heap heap1 : Nat → PointsRenderable) (rends : List RenderableInfo)
    (h : removeRends heap rends = .ok heap1) (p : Nat) :
    (heap1 p).point_count_ + rendsCountAt rends p = (heap p).point_count_ ∧
    (heap1 p).outStart = (heap p).outStart := by
  induction rends generalizing heap with
  | nil =>
    unfold removeRends at h
    injection h with h
    subst h
    exact ⟨rfl, rfl⟩
  | cons rinfo rest ih =>
    unfold removeRends at h
    split at h
    · exact absurd h (by simp)
    · rename_i r1 hr1
      simp only at h
      split at h
      · exact absurd h (by simp)
      · rename_i r2 hr2
        obtain ⟨hc1, _, e1⟩ := PointsRenderable.remove_eq_ok _ r1 _ _ hr1
        obtain ⟨hc2, _, e2⟩ := PointsRenderable.remove_eq_ok _ r2 _ _ hr2
        have hrest := ih _ h
        rw [rendsCountAt_cons, hrest.2]
        have hstep : (heapSet (heapSet heap rinfo.opaque_rend r1) rinfo.alpha_rend r2
              p).point_count_ + rinfo.countAt p = (heap p).point_count_ ∧
            (heapSet (heapSet heap rinfo.opaque_rend r1) rinfo.alpha_rend r2 p).outStart
              = (heap p).outStart := by
          unfold RenderableInfo.countAt
          by_cases ha : p = rinfo.alpha_rend
          · subst ha
            rw [heapSet_same, e2]
            by_cases ho : rinfo.alpha_rend = rinfo.opaque_rend
            · rw [ho] at hc2 ⊢
              rw [heapSet_same] at hc2 ⊢
              rw [e1] at hc2 ⊢
              rw [if_pos rfl, if_pos rfl]
              refine ⟨?_, rfl⟩
              simp only [PointsRenderable.removed_point_count] at hc2 ⊢
              omega
            · rw [heapSet_other _ _ _ _ ho] at hc2 ⊢
              rw [if_neg (fun hc => ho hc.symm), if_pos rfl]
              refine ⟨?_, rfl⟩
              simp only [PointsRenderable.removed_point_count]
              omega
          · rw [heapSet_other _ _ _ _ ha]
            by_cases ho : p = rinfo.opaque_rend
            · subst ho
              rw [heapSet_same, e1, if_pos rfl, if_neg (fun hc => ha hc.symm)]
              refine ⟨?_, rfl⟩
              simp only [PointsRenderable.removed_point_count]
              omega
            · rw [heapSet_other _ _ _ _ ho, if_neg (fun hc => ho hc.symm),
                if_neg (fun hc => ha hc.symm)]
              exact ⟨rfl, rfl⟩
        refine ⟨?_, hstep.2⟩
        have := hrest.1
        omega

/-- When every slab holds at least the points that the allocations record for it, the
assertion `count <= point_count_` holds at every call the tombstone loop reaches. -/
theorem removeRendsCountOk_of_le (heap : Nat → PointsRenderable) (rends : List RenderableInfo)
    (h : ∀ p, rendsCountAt rends p ≤ (heap p).point_count_) :
    removeRendsCountOk heap rends = true := by
  induction rends generalizing heap with
  | nil => rfl
  | cons rinfo rest ih =>
    have ho := h rinfo.opaque_rend
    have ha := h rinfo.alpha_rend
    rw [rendsCountAt_cons] at ho ha
    unfold RenderableInfo.countAt at ho ha
    rw [if_pos rfl] at ho
    rw [if_pos rfl] at ha
    unfold removeRendsCountOk
    have h1 : rinfo.opaque_count ≤ (heap rinfo.opaque_rend).point_count_ := by omega
    rw [decide_eq_true h1, Bool.true_and]
    split
    · rfl
    · rename_i r1 hr1
      obtain ⟨_, _, e1⟩ := PointsRenderable.remove_eq_ok _ r1 _ _ hr1
      simp only
      have h2 : rinfo.alpha_count
          ≤ (heapSet heap rinfo.opaque_rend r1 rinfo.alpha_rend).point_count_ := by
        by_cases hao : rinfo.alpha_rend = rinfo.opaque_rend
        · rw [hao, heapSet_same, e1, PointsRenderable.removed_point_count]
          rw [if_pos hao.symm] at ha
          rw [hao] at ha
          omega
        · rw [heapSet_other _ _ _ _ hao]
          omega
      rw [decide_eq_true h2, Bool.true_and]
      split
      · rfl
      · rename_i r2 hr2
        apply ih
        intro p
        have hstep := (removeRends_counts heap _ [rinfo] (by
          unfold removeRends
          rw [hr1]
          simp only
          rw [hr2]
          rfl) p).1
        rw [rendsCountAt_cons, rendsCountAt_nil, Nat.add_zero] at hstep
        have hp := h p
        rw [rendsCountAt_cons] at hp
        omega
theorem PointsRenderable.new_outStart (env : Env) (desc : PointsRendererDesc) (alpha : Bool) :
    (PointsRenderable.new env desc alpha).outStart = 0 := by
  unfold PointsRenderable.outStart
  simp [PointsRenderable.new]

/-- `getOrCreateRenderable` keeps the bookkeeping, returns a slab of the list and keeps the
slabs that were in the list. -/
theorem countInv_getOrCreateRenderable (env : Env) (s : PointsRenderer) (alpha : Bool)
    (pending : List RenderableInfo) (extra : Nat → Nat) (h : CountInv s pending extra) :
    CountInv (s.getOrCreateRenderable env alpha).1 pending extra ∧
    (s.getOrCreateRenderable env alpha).2
      ∈ (s.getOrCreateRenderable env alpha).1.renderables_ ∧
    (∀ p ∈ s.renderables_, p ∈ (s.getOrCreateRenderable env alpha).1.renderables_) := by
  cases hfind : s.renderables_.find?
      (fun p => !(s.heap p).isFull && (alpha == (s.heap p).isAlpha)) with
  | some p =>
    rw [getOrCreateRenderable_of_some env s alpha p hfind]
    exact ⟨h, List.mem_of_find?_eq_some hfind, fun _ hp => hp⟩
  | none =>
    rw [List.find?_eq_none] at hfind
    rw [getOrCreateRenderable_of_none env s alpha (fun p hp => by simpa using hfind p hp)]
    have hnotlist : s.heap_size ∉ s.renderables_ :=
      fun hc => Nat.lt_irrefl _ (h.list_lt _ hc)
    refine ⟨⟨h.keys, ?_, ?_, ?_, ?_, ?_, ?_⟩, ?_, ?_⟩
    · intro p hp
      rcases List.mem_append.1 hp with h1 | h1
      · exact Nat.lt_succ_of_lt (h.list_lt p h1)
      · rw [List.mem_singleton.1 h1]
        exact Nat.lt_succ_self _
    · intro e he p hp
      exact Nat.lt_succ_of_lt (h.refs_lt e he p hp)
    · intro p
      by_cases hp : p = s.heap_size
      · subst hp
        simp only [heapSet_same]
        rw [PointsRenderable.new_outStart]
        exact ⟨Nat.le_refl 0, Nat.zero_le _⟩
      · simp only [heapSet_other _ _ _ _ hp]
        exact h.counters p
    · intro p hp
      exact List.mem_append_left _ (h.pending_in p hp)
    · intro p hp
      exact List.mem_append_left _ (h.extra_in p hp)
    · intro p hp
      by_cases hps : p = s.heap_size
      · subst hps
        simp only [heapSet_same]
        have h1 : allocatedAt s.points_ s.heap_size = 0 := by
          apply allocatedAt_of_not_touched
          intro e he
          cases ht : touches e.2.rends s.heap_size with
          | false => rfl
          | true => exact absurd (h.refs_lt e he _ ht) (Nat.lt_irrefl _)
        have h2 : rendsCountAt pending s.heap_size = 0 := by
          apply rendsCountAt_of_not_touches
          cases ht : touches pending s.heap_size with
          | false => rfl
          | true => exact absurd (h.pending_in _ ht) hnotlist
        have h3 : extra s.heap_size = 0 := by
          by_contra hc
          exact hnotlist (h.extra_in _ hc)
        rw [h1, h2, h3]
        rfl
      · simp only [heapSet_other _ _ _ _ hps]
        apply h.counts
        rcases hp with h1 | h1
        · rcases List.mem_append.1 h1 with h2 | h2
          · exact Or.inl h2
          · exact absurd (List.mem_singleton.1 h2) hps
        · exact Or.inr h1
    · exact List.mem_append_right _ (List.mem_singleton_self _)
    · intro p hp
      exact List.mem_append_left _ hp

/-- An append to a slab of the list adds the accepted points to its `point_count_`. -/
theorem countInv_slabAdd (env : Env) (s : PointsRenderer) (pending : List RenderableInfo)
    (extra : Nat → Nat) (h : CountInv s pending extra) (q : Nat) (hq : q ∈ s.renderables_)
    (points : Points) (start : Nat) :
    CountInv { s with heap := heapSet s.heap q ((s.heap q).added env points start) } pending
      (fun p => extra p + if q = p then (s.heap q).accepted points start else 0) := by
  obtain ⟨hc1, hc2, hc3⟩ :=
    (s.heap q).added_counters env points start (h.counters q).1 (h.counters q).2
  refine ⟨h.keys, h.list_lt, h.refs_lt, ?_, h.pending_in, ?_, ?_⟩
  · intro p
    by_cases hp : p = q
    · subst hp
      simp only [heapSet_same]
      rw [hc1, hc2]
      exact ⟨Nat.add_le_add_right (h.counters p).1 _, hc3⟩
    · simp only [heapSet_other _ _ _ _ hp]
      exact h.counters p
  · intro p hp
    by_cases hpq : q = p
    · rw [← hpq]
      exact hq
    · simp only [if_neg hpq, Nat.add_zero] at hp
      exact h.extra_in p hp
  · intro p hp
    have := h.counts p hp
    by_cases hpq : q = p
    · subst hpq
      simp only [heapSet_same, if_pos]
      rw [hc1, this]
      omega
    · simp only [heapSet_other _ _ _ _ (fun hc => hpq hc.symm), if_neg hpq, Nat.add_zero]
      exact this

/-- An iteration of the first loop of `PointsRenderer::add` that returns keeps the
bookkeeping, with the new allocation among the pending ones. -/
theorem addBody_countInv (env : Env) (points : Points) (st st1 : AddState)
    (hinv : CountInv st.store st.pinfo.rends (fun _ => 0))
    (h : addBody env points st = .ok st1) :
    CountInv st1.store st1.pinfo.rends (fun _ => 0) := by
  obtain ⟨hi1, hmem1, hsub1⟩ :=
    countInv_getOrCreateRenderable env st.store false st.pinfo.rends (fun _ => 0) hinv
  unfold addBody at h
  simp only at h
  split at h
  · exact absurd h (by simp)
  · rename_i r1 a1 b1 hadd1
    have hx1 := (PointsRenderable.add_eq_ok env _ points _ _ hadd1).2
    injection hx1 with hr1 hab1
    injection hab1 with ha1 hb1
    have hi2 := countInv_slabAdd env _ st.pinfo.rends (fun _ => 0) hi1 _ hmem1 points
      st.total_opaque_count
    rw [← hr1] at hi2
    obtain ⟨hi3, hmem3, hsub3⟩ :=
      countInv_getOrCreateRenderable env
        { (st.store.getOrCreateRenderable env false).1 with
          heap := heapSet (st.store.getOrCreateRenderable env false).1.heap
            (st.store.getOrCreateRenderable env false).2 r1 } true st.pinfo.rends _ hi2
    split at h
    · exact absurd h (by simp)
    · rename_i r2 a2 b2 hadd2
      have hx2 := (PointsRenderable.add_eq_ok env _ points _ _ hadd2).2
      injection hx2 with hr2 hab2
      injection hab2 with ha2 hb2
      have hi4 := countInv_slabAdd env _ st.pinfo.rends _ hi3 _ hmem3 points
        st.total_alpha_count
      rw [← hr2] at hi4
      injection h with h
      subst h
      generalize hg1 : st.store.getOrCreateRenderable env false = g1 at *
      generalize hg2 : PointsRenderer.getOrCreateRenderable env
        { g1.1 with heap := heapSet g1.1.heap g1.2 r1 } true = g2 at *
      have hmem1b : g1.2 ∈ g2.1.renderables_ := hsub3 _ hmem1
      refine ⟨hi4.keys, hi4.list_lt, hi4.refs_lt, hi4.counters, ?_, ?_, ?_⟩
      · intro p hp
        have : touches (st.pinfo.rends ++ [⟨g1.2, a1, b1, g2.2, a2, b2⟩]) p = true := hp
        unfold touches at this
        rw [List.any_append] at this
        rcases Bool.or_eq_true _ _ ▸ this with h1 | h1
        · exact hsub3 _ (hsub1 _ (hinv.pending_in p h1))
        · simp only [List.any_cons, List.any_nil, Bool.or_false, Bool.or_eq_true,
            beq_iff_eq] at h1
          rcases h1 with h2 | h2
          · rw [← h2]
            exact hmem1b
          · rw [← h2]
            exact hmem3
      · intro p hp
        exact absurd rfl hp
      · intro p hp
        have := hi4.counts p hp
        show _ = allocatedAt g2.1.points_ p
          + rendsCountAt (st.pinfo.rends ++ [⟨g1.2, a1, b1, g2.2, a2, b2⟩]) p + 0
        rw [rendsCountAt_append, rendsCountAt_cons, rendsCountAt_nil]
        unfold RenderableInfo.countAt
        simp only at this ⊢
        rw [hb1, hb2]
        rw [this]
        omega
theorem addLoop_countInv (env : Env) (points : Points) (pc : Nat) (fuel : Nat)
    (st st1 : AddState) (hinv : CountInv st.store st.pinfo.rends (fun _ => 0))
    (h : addLoop env points pc fuel st = .ok st1) :
    CountInv st1.store st1.pinfo.rends (fun _ => 0) := by
  induction fuel generalizing st with
  | zero =>
    unfold addLoop at h
    split at h
    · exact absurd h (by simp)
    · injection h with h
      subst h
      exact hinv
  | succ n ih =>
    unfold addLoop at h
    split at h
    · split at h
      · exact absurd h (by simp)
      · rename_i st2 hb
        exact ih st2 (addBody_countInv env points st st2 hinv hb) h
    · injection h with h
      subst h
      exact hinv

/-- Inserting the pending allocations under a fresh id turns them into recorded ones. -/
theorem countInv_insert (s : PointsRenderer) (pinfo : PointsInfo) (id drawn : Nat)
    (hinv : CountInv s pinfo.rends (fun _ => 0)) (hfresh : findPoints s.points_ id = none) :
    CountInv { s with points_ := insertPoints s.points_ id pinfo, id_gen_ := drawn } []
      (fun _ => 0) := by
  have hins : insertPoints s.points_ id pinfo = s.points_ ++ [(id, pinfo)] := by
    unfold insertPoints
    rw [hfresh]
  have hne := (findPoints_eq_none_iff s.points_ id).1 hfresh
  refine ⟨?_, hinv.list_lt, ?_, hinv.counters, ?_, hinv.extra_in, ?_⟩
  · show ((insertPoints s.points_ id pinfo).map Prod.fst).Nodup
    rw [hins, List.map_append, List.map_cons, List.map_nil]
    apply List.Nodup.append hinv.keys (List.nodup_singleton _)
    intro k hk1 hk2
    rw [List.mem_singleton] at hk2
    obtain ⟨e, he, hek⟩ := List.mem_map.1 hk1
    exact hne e he (hek.trans hk2)
  · intro e he p hp
    have he1 : e ∈ insertPoints s.points_ id pinfo := he
    rw [hins] at he1
    rcases List.mem_append.1 he1 with h1 | h1
    · exact hinv.refs_lt e h1 p hp
    · rw [List.mem_singleton.1 h1] at hp
      exact hinv.list_lt p (hinv.pending_in p hp)
  · intro p hp
    exact absurd hp (by simp [touches])
  · intro p hp
    show (s.heap p).point_count_
      = allocatedAt (insertPoints s.points_ id pinfo) p + rendsCountAt [] p + 0
    rw [hins, allocatedAt_append, allocatedAt_cons, rendsCountAt_nil]
    have hnil : allocatedAt [] p = 0 := rfl
    rw [hnil]
    have hold : (s.heap p).point_count_
        = allocatedAt s.points_ p + rendsCountAt pinfo.rends p + 0 := by
      apply hinv.counts
      rcases hp with h1 | ⟨e, he, ht⟩
      · exact Or.inl h1
      · have he1 : e ∈ insertPoints s.points_ id pinfo := he
        rw [hins] at he1
        rcases List.mem_append.1 he1 with h1 | h1
        · exact Or.inr ⟨e, h1, ht⟩
        · rw [List.mem_singleton.1 h1] at ht
          exact Or.inl (hinv.pending_in p ht)
    rw [hold]
    simp only [Nat.add_zero]

theorem add_countInv (env : Env) (fuel : Nat) (s s1 : PointsRenderer) (points : Points)
    (id : Nat) (hinv : CountInv s [] (fun _ => 0))
    (h : PointsRenderer.add env fuel s points = .ok (s1, id)) :
    CountInv s1 [] (fun _ => 0) := by
  unfold PointsRenderer.add at h
  simp only at h
  split at h
  · exact absurd h (by simp)
  · rename_i st hloop
    have hst := addLoop_countInv env points _ fuel _ st hinv hloop
    split at h
    · exact absurd h (by simp)
    · rename_i id2 drawn hgen
      have hfresh := (genId_fresh env st.store.points_ fuel 0 st.store.id_gen_ id2 drawn
        hgen).2
      injection h with h
      injection h with h1 h2
      subst h1
      exact countInv_insert st.store st.pinfo id2 drawn hst hfresh

theorem remove_countInv (fuel : Nat) (s s1 : PointsRenderer) (id : Nat)
    (hinv : CountInv s [] (fun _ => 0)) (h : PointsRenderer.remove fuel s id = .ok s1) :
    CountInv s1 [] (fun _ => 0) := by
  unfold PointsRenderer.remove at h
  split at h
  · injection h with h
    subst h
    exact hinv
  · rename_i pinfo hfind
    split at h
    · exact absurd h (by simp)
    · rename_i heap1 hrem
      unfold PointsRenderer.shrinkRenderables at h
      simp only at h
      split at h
      · exact absurd h (by simp)
      · rename_i l1 hloop
        injection h with h
        subst h
        have hsub := shrinkLoop_subset _ _ _ _ _ _ l1 hloop
        have hmemE : ∀ e ∈ erasePoints s.points_ id, e ∈ s.points_ :=
          fun e he => (List.mem_filter.1 he).1
        refine ⟨?_, fun p hp => hinv.list_lt p (hsub p hp),
          fun e he p hp => hinv.refs_lt e (hmemE e he) p hp, ?_,
          fun p hp => absurd hp (by simp [touches]), fun p hp => absurd rfl hp, ?_⟩
        · show ((erasePoints s.points_ id).map Prod.fst).Nodup
          exact List.Nodup.sublist (List.Sublist.map _ (List.filter_sublist _)) hinv.keys
        · intro p
          have hc := removeRends_counts s.heap heap1 pinfo.rends hrem p
          have ho := hinv.counters p
          show (heap1 p).point_count_ ≤ (heap1 p).outStart ∧ (heap1 p).outStart ≤ POINTS_PER_VBO
          rw [hc.2]
          exact ⟨by omega, ho.2⟩
        · intro p hp
          have hc := (removeRends_counts s.heap heap1 pinfo.rends hrem p).1
          have hold : (s.heap p).point_count_
              = allocatedAt s.points_ p + rendsCountAt [] p + 0 := by
            apply hinv.counts
            rcases hp with h1 | ⟨e, he, ht⟩
            · exact Or.inl (hsub p h1)
            · exact Or.inr ⟨e, hmemE e he, ht⟩
          have herase := allocatedAt_erase s.points_ id pinfo hinv.keys hfind p
          show (heap1 p).point_count_
            = allocatedAt (erasePoints s.points_ id) p + rendsCountAt [] p + 0
          rw [rendsCountAt_nil] at hold ⊢
          omega

theorem reachable_countInv (env : Env) (desc : PointsRendererDesc) (s : PointsRenderer)
    (h : Reachable env desc s) : CountInv s [] (fun _ => 0) := by
  induction h with
  | init =>
    refine ⟨List.nodup_nil, fun p hp => absurd hp (List.not_mem_nil p),
      fun e he => absurd he (List.not_mem_nil e), ?_,
      fun p hp => absurd hp (by simp [touches]), fun p hp => absurd rfl hp, ?_⟩
    · intro p
      show (PointsRenderable.new env desc false).point_count_
          ≤ (PointsRenderable.new env desc false).outStart ∧
        (PointsRenderable.new env desc false).outStart ≤ POINTS_PER_VBO
      rw [PointsRenderable.new_outStart]
      exact ⟨Nat.le_refl 0, Nat.zero_le _⟩
    · intro p hp
      rcases hp with h1 | ⟨e, he, _⟩
      · exact absurd h1 (List.not_mem_nil p)
      · exact absurd he (List.not_mem_nil e)
  | add _ hadd ih => exact add_countInv env _ _ _ _ _ ih hadd
  | remove _ hrem ih => exact remove_countInv _ _ _ _ ih hrem
  | @clear s0 _ ih =>
    refine ⟨List.nodup_nil, fun p hp => absurd hp (List.not_mem_nil p),
      fun e he => absurd he (List.not_mem_nil e), ih.counters,
      fun p hp => absurd hp (by simp [touches]), fun p hp => absurd rfl hp, ?_⟩
    intro p hp
    rcases hp with h1 | ⟨e, he, _⟩
    · exact absurd h1 (List.not_mem_nil p)
    · exact absurd he (List.not_mem_nil e)

theorem findPoints_mem (points_ : List (Nat × PointsInfo)) (id : Nat) (pinfo : PointsInfo)
    (h : findPoints points_ id = some pinfo) : (id, pinfo) ∈ points_ := by
  unfold findPoints at h
  obtain ⟨e, he, hp⟩ := Option.map_eq_some'.1 h
  have hmem := List.mem_of_find?_eq_some he
  have hkey := List.find?_some he
  have : e = (id, pinfo) := by
    obtain ⟨k, v⟩ := e
    simp only [beq_iff_eq] at hkey
    simp only at hp
    rw [hkey, hp]
  rw [← this]
  exact hmem

/-- Where the count of every slab named by the table is the sum of its allocations, the
assertion `count <= point_count_` holds along the tombstone loop of every id of the
table. -/
theorem removeRendsCountOk_of_counts (heap : Nat → PointsRenderable)
    (points_ : List (Nat × PointsInfo))
    (hc : ∀ p, (∃ e ∈ points_, touches e.2.rends p = true) →
      (heap p).point_count_ = allocatedAt points_ p)
    (id : Nat) (pinfo : PointsInfo) (hfind : findPoints points_ id = some pinfo) :
    removeRendsCountOk heap pinfo.rends = true := by
  apply removeRendsCountOk_of_le
  intro p
  have hmem := findPoints_mem points_ id pinfo hfind
  cases ht : touches pinfo.rends p with
  | false =>
    rw [rendsCountAt_of_not_touches _ _ ht]
    exact Nat.zero_le _
  | true =>
    rw [hc p ⟨(id, pinfo), hmem, ht⟩]
    obtain ⟨front, back, hsplit⟩ := List.append_of_mem hmem
    rw [hsplit, allocatedAt_append, allocatedAt_cons]
    show rendsCountAt pinfo.rends p
      ≤ allocatedAt front p + (rendsCountAt pinfo.rends p + allocatedAt back p)
    omega

/-- C24: in every store built from a fresh `PointsRenderer` by `add`, `remove` and `clear`
calls that return, the `point_count_` of every slab that is in the slab list or named by an
allocation of the handle table is the sum of the point counts of the allocations in the
table that name it; and for every id of the table the assertion `count <= point_count_`
holds at every call of `PointsRenderable::remove` that `PointsRenderer::remove(id)`
reaches.  When the tombstone loop of `remove(id)` returns, it has taken from every slab
the points that the allocations of `id` record for it, and with the id erased from the
table the `point_count_` of every slab is again the sum of the point counts of the
remaining allocations that name it, so that the assertion holds for every remaining id as
well. -/
theorem C24_point_count_is_sum_of_allocations (env : Env) (desc : PointsRendererDesc)
    (s : PointsRenderer) (h : Reachable env desc s) :
    (∀ p, (p ∈ s.renderables_ ∨ ∃ e ∈ s.points_, touches e.2.rends p = true) →
      (s.heap p).point_count_ = allocatedAt s.points_ p) ∧
    (∀ (id : Nat) (pinfo : PointsInfo), findPoints s.points_ id = some pinfo →
      removeRendsCountOk s.heap pinfo.rends = true) ∧
    (∀ (id : Nat) (pinfo : PointsInfo) (heap1 : Nat → PointsRenderable),
      findPoints s.points_ id = some pinfo → removeRends s.heap pinfo.rends = .ok heap1 →
      (∀ p, (heap1 p).point_count_ + rendsCountAt pinfo.rends p = (s.heap p).point_count_) ∧
      (∀ p, (p ∈ s.renderables_ ∨
            ∃ e ∈ erasePoints s.points_ id, touches e.2.rends p = true) →
        (heap1 p).point_count_ = allocatedAt (erasePoints s.points_ id) p) ∧
      (∀ (id2 : Nat) (pinfo2 : PointsInfo),
        findPoints (erasePoints s.points_ id) id2 = some pinfo2 →
        removeRendsCountOk heap1 pinfo2.rends = true)) := by
  have hinv := reachable_countInv env desc s h
  have hcounts : ∀ p, (p ∈ s.renderables_ ∨ ∃ e ∈ s.points_, touches e.2.rends p = true) →
      (s.heap p).point_count_ = allocatedAt s.points_ p := by
    intro p hp
    have := hinv.counts p hp
    rw [rendsCountAt_nil] at this
    exact this
  refine ⟨hcounts, fun id pinfo hfind =>
    removeRendsCountOk_of_counts s.heap s.points_ (fun p hp => hcounts p (Or.inr hp))
      id pinfo hfind, ?_⟩
  intro id pinfo heap1 hfind hrem
  have hdec : ∀ p, (heap1 p).point_count_ + rendsCountAt pinfo.rends p
      = (s.heap p).point_count_ :=
    fun p => (removeRends_counts s.heap heap1 pinfo.rends hrem p).1
  have hafter : ∀ p, (p ∈ s.renderables_ ∨
        ∃ e ∈ erasePoints s.points_ id, touches e.2.rends p = true) →
      (heap1 p).point_count_ = allocatedAt (erasePoints s.points_ id) p := by
    intro p hp
    have hold : (s.heap p).point_count_ = allocatedAt s.points_ p := by
      apply hcounts
      rcases hp with h1 | ⟨e, he, ht⟩
      · exact Or.inl h1
      · exact Or.inr ⟨e, (List.mem_filter.1 he).1, ht⟩
    have herase := allocatedAt_erase s.points_ id pinfo hinv.keys hfind p
    have hd := hdec p
    omega
  exact ⟨hdec, hafter, fun id2 pinfo2 hfind2 =>
    removeRendsCountOk_of_counts heap1 (erasePoints s.points_ id)
      (fun p hp => hafter p (Or.inr hp)) id2 pinfo2 hfind2⟩

theorem C24_point_count_is_sum_of_allocations_witness :
    (∀ p, (p ∈ storeCycleFar.renderables_ ∨
          ∃ e ∈ storeCycleFar.points_, touches e.2.rends p = true) →
      (storeCycleFar.heap p).point_count_ = allocatedAt storeCycleFar.points_ p) ∧
    (∀ (id : Nat) (pinfo : PointsInfo), findPoints storeCycleFar.points_ id = some pinfo →
      removeRendsCountOk storeCycleFar.heap pinfo.rends = true) ∧
    (∀ (id : Nat) (pinfo : PointsInfo) (heap1 : Nat → PointsRenderable),
      findPoints storeCycleFar.points_ id = some pinfo →
      removeRends storeCycleFar.heap pinfo.rends = .ok heap1 →
      (∀ p, (heap1 p).point_count_ + rendsCountAt pinfo.rends p
        = (storeCycleFar.heap p).point_count_) ∧
      (∀ p, (p ∈ storeCycleFar.renderables_ ∨
            ∃ e ∈ erasePoints storeCycleFar.points_ id, touches e.2.rends p = true) →
        (heap1 p).point_count_ = allocatedAt (erasePoints storeCycleFar.points_ id) p) ∧
      (∀ (id2 : Nat) (pinfo2 : PointsInfo),
        findPoints (erasePoints storeCycleFar.points_ id) id2 = some pinfo2 →
        removeRendsCountOk heap1 pinfo2.rends = true)) :=
  C24_point_count_is_sum_of_allocations exampleEnv exampleDesc storeCycleFar
    (Reachable.add
      (Reachable.add
        (Reachable.remove
          (Reachable.add Reachable.init
            (show PointsRenderer.add exampleEnv 1 emptyStore emptyBatch
                = .ok (storeEmptyHandle, 1) from by with_unfolding_all rfl))
          (show PointsRenderer.remove 0 storeEmptyHandle 1 = .ok storeHandleRemoved from
            by with_unfolding_all rfl))
        (show PointsRenderer.add exampleEnv 1 storeHandleRemoved threeMixed
            = .ok (storeAfterCycle, 2) from by with_unfolding_all rfl))
      (show PointsRenderer.add exampleEnv 1 storeAfterCycle farBatch
          = .ok (storeCycleFar, 3) from by with_unfolding_all rfl))

end rviz_renderer_ogre
